import Mathlib

/-!
Video buffer pool and DRM-PRIME layer bridge.

A shallow embedding of

* `xbmc/cores/VideoPlayer/Process/gbm/VideoBufferMemfd.cpp`
  (`CVideoBufferMemfd`, `CVideoBufferPoolMemfd`),
* `xbmc/cores/VideoPlayer/VideoRenderers/HwDecRender/RendererDRMPRIME.cpp`
  (`CRendererDRMPRIME`, `CVideoLayerBridgeDRMPRIME`, `CVideoLayerBridgeRockchip`), and
* `xbmc/cores/VideoPlayer/VideoRenderers/HwDecRender/VideoLayerBridgeRockchip.cpp`
  (`CVideoLayerBridgeRockchip`),

followed by theorems about the pool bookkeeping, the two-slot rotation of the
bridge, the framebuffer import, the rounding of the destination rectangle, the
EOTF classification, the allocation, layout and release of a buffer's memory
region, the descriptors closed at pool teardown, the `Configure` hook of the
bridge, the properties and the metadata blob of the Rockchip bridge, and the
references the bridge holds.

Conventions of the embedding.

* A C++ object that is reached through a pointer lives in an explicit store;
  a pointer is an index into that store and a null pointer is `none`.
* `int` values are `Int`; `uint32_t` values are `Nat` reduced modulo `2 ^ 32`
  wherever the source computes with them.
* A kernel or library call whose result the code branches on takes that result
  from an explicit outcome argument; calls made for their effect are recorded
  in a trace of events.
* Indexing a `std::vector` outside its bounds is undefined behaviour; the pool
  operations return `none` there.
-/

/-! ## The frame descriptor of `libavutil/hwcontext_drm.h` -/

/-- The struct `AVDRMObjectDescriptor` of `libavutil/hwcontext_drm.h`. -/
structure AVDRMObjectDescriptor where
  fd : Int := 0
  size : Nat := 0
  format_modifier : Nat := 0
  deriving DecidableEq, Repr, Inhabited

/-- The struct `AVDRMPlaneDescriptor` of `libavutil/hwcontext_drm.h`. -/
structure AVDRMPlaneDescriptor where
  object_index : Int := 0
  offset : Int := 0
  pitch : Int := 0
  deriving DecidableEq, Repr, Inhabited

/-- The struct `AVDRMLayerDescriptor` of `libavutil/hwcontext_drm.h`. -/
structure AVDRMLayerDescriptor where
  format : Nat := 0
  nb_planes : Int := 0
  planes : List AVDRMPlaneDescriptor := []
  deriving DecidableEq, Repr, Inhabited

/-- The struct `AVDRMFrameDescriptor` of `libavutil/hwcontext_drm.h`. -/
structure AVDRMFrameDescriptor where
  nb_objects : Int := 0
  objects : List AVDRMObjectDescriptor := []
  nb_layers : Int := 0
  layers : List AVDRMLayerDescriptor := []
  deriving DecidableEq, Repr, Inhabited

namespace VideoBufferMemfd

/-! ## `CVideoBufferMemfd` and `CVideoBufferPoolMemfd` -/

/-- The fields of `CVideoBufferMemfd` (`VideoBufferMemfd.h`), together with the
identifier and the reference count it inherits from `CVideoBuffer`.
`m_addr = 0` stands for `nullptr`; an array of the zero-initialised
`m_descriptor` is a list that reads as zero beyond its end. -/
structure CVideoBufferMemfd where
  m_id : Int
  m_refCount : Int := 0
  m_width : Nat := 0
  m_height : Nat := 0
  m_size : Nat := 0
  m_addr : Nat := 0
  m_memfd : Int := -1
  m_dmafd : Int := -1
  m_udmabuf : Int := -1
  m_descriptor : AVDRMFrameDescriptor := {}
  deriving DecidableEq, Repr

/-- The constructor `CVideoBufferMemfd::CVideoBufferMemfd(pool, id, udmabuf)`:
every field keeps its in-class initialiser except `m_id` and `m_udmabuf`. -/
def CVideoBufferMemfd.new (id : Int) (udmabuf : Int) : CVideoBufferMemfd :=
  { m_id := id, m_udmabuf := udmabuf }

/-- The method `CVideoBufferMemfd::Unref`: it writes a debug line and nothing else. -/
def CVideoBufferMemfd.Unref (b : CVideoBufferMemfd) : CVideoBufferMemfd := b

/-- Modelled from the spec: `CVideoBuffer::Acquire(pool)` lives in
`VideoBuffer.cpp`, which is not among the sources. The spec says that `get()`
"always returns a Buffer with its reference count incremented by one". -/
def CVideoBufferMemfd.Acquire (b : CVideoBufferMemfd) : CVideoBufferMemfd :=
  { b with m_refCount := b.m_refCount + 1 }

/-- The data members of `CVideoBufferPoolMemfd`. `m_all` owns the buffers; the
buffer at position `i` is what the pointer `m_all[i]` refers to. The two deques
are lists whose head is the deque's front. -/
structure CVideoBufferPoolMemfd where
  m_all : List CVideoBufferMemfd := []
  m_used : List Int := []
  m_free : List Int := []
  m_fd : Int := -1
  deriving DecidableEq, Repr

/-- A freshly constructed pool. -/
def CVideoBufferPoolMemfd.empty : CVideoBufferPoolMemfd := {}

/-- The method `CVideoBufferPoolMemfd::Get`. `openResult` is what
`open("/dev/udmabuf", O_RDWR)` returns if it is called. The result is the
position in `m_all` of the returned buffer and the pool after the call;
`none` is the undefined behaviour of `m_all[idx]` for an `idx` outside the
vector. The count `m_all.size()` is taken to fit an `int`. -/
def CVideoBufferPoolMemfd.Get (p : CVideoBufferPoolMemfd) (openResult : Int) :
    Option (Nat × CVideoBufferPoolMemfd) :=
  match p.m_free with
  | idx :: rest =>
    if 0 ≤ idx then
      match p.m_all[idx.toNat]? with
      | some buf =>
        some (idx.toNat,
          { p with m_free := rest
                   m_used := p.m_used ++ [idx]
                   m_all := p.m_all.set idx.toNat buf.Acquire })
      | none => none
    else none
  | [] =>
    let fd := if p.m_fd = -1 then openResult else p.m_fd
    let id : Int := p.m_all.length
    let buf := CVideoBufferMemfd.new id fd
    some (p.m_all.length,
      { m_all := p.m_all ++ [buf.Acquire]
        m_used := p.m_used ++ [id]
        m_free := []
        m_fd := fd })

/-- The method `CVideoBufferPoolMemfd::Return`. The loop erases the first entry
of `m_used` equal to `id`, if there is one; `m_free.push_back(id)` follows the
loop whether or not an entry was erased. `none` is the undefined behaviour of
`m_all[id]` for an `id` outside the vector. -/
def CVideoBufferPoolMemfd.Return (p : CVideoBufferPoolMemfd) (id : Int) :
    Option CVideoBufferPoolMemfd :=
  if 0 ≤ id then
    match p.m_all[id.toNat]? with
    | some buf =>
      some { p with m_all := p.m_all.set id.toNat buf.Unref
                    m_used := p.m_used.erase id
                    m_free := p.m_free ++ [id] }
    | none => none
  else none

/-- A call made on a pool. -/
inductive PoolCall where
  | get (openResult : Int)
  | ret (id : Int)
  deriving DecidableEq, Repr

/-- One call applied to a pool. -/
def PoolCall.apply (p : CVideoBufferPoolMemfd) : PoolCall → Option CVideoBufferPoolMemfd
  | .get r => (p.Get r).map Prod.snd
  | .ret id => p.Return id

/-- The pool states after each call of a sequence, in order. The list stops
at a call whose behaviour is undefined. -/
def poolStates (p : CVideoBufferPoolMemfd) : List PoolCall → List CVideoBufferPoolMemfd
  | [] => []
  | c :: cs =>
    match c.apply p with
    | some q => q :: poolStates q cs
    | none => []

/-- Every `Return(id)` of the sequence is made while `id` is in the used list. -/
def returnsUsed (p : CVideoBufferPoolMemfd) : List PoolCall → Prop
  | [] => True
  | c :: cs =>
    (match c with
      | .get _ => True
      | .ret id => id ∈ p.m_used) ∧
    (match c.apply p with
      | some q => returnsUsed q cs
      | none => True)

/-- The bookkeeping invariant: an identifier of a created buffer occurs exactly
once in the used and free lists taken together, any other identifier not at all. -/
def PoolInv (p : CVideoBufferPoolMemfd) : Prop :=
  ∀ id : Int, (p.m_used ++ p.m_free).count id =
    if 0 ≤ id ∧ id < (p.m_all.length : Int) then 1 else 0

/-- The buffer stored at position `i` carries the identifier `i`, and the
identifiers waiting in the free list are positions of `m_all`. -/
def PoolWF (p : CVideoBufferPoolMemfd) : Prop :=
  (∀ (i : Nat) (b : CVideoBufferMemfd), p.m_all[i]? = some b → b.m_id = (i : Int)) ∧
  (∀ id ∈ p.m_free, 0 ≤ id ∧ id < (p.m_all.length : Int))

/-- The pool after one `Get()` on a fresh pool, `open` having returned 3. -/
def poolGot : CVideoBufferPoolMemfd :=
  { m_all := [{ m_id := 0, m_refCount := 1, m_udmabuf := 3 }]
    m_used := [0], m_free := [], m_fd := 3 }

/-- The pool after `Get(); Return(0)` on a fresh pool. -/
def poolReturned : CVideoBufferPoolMemfd :=
  { m_all := [{ m_id := 0, m_refCount := 1, m_udmabuf := 3 }]
    m_used := [], m_free := [0], m_fd := 3 }

/-- The pool after `Get(); Return(0); Return(0)` on a fresh pool. -/
def poolReturnedTwice : CVideoBufferPoolMemfd :=
  { m_all := [{ m_id := 0, m_refCount := 1, m_udmabuf := 3 }]
    m_used := [], m_free := [0, 0], m_fd := 3 }

/-! ### `CVideoBufferMemfd::Create`, `Destroy`, `Import` -/

/-- The constant `DRM_FORMAT_YUV420` of `drm_fourcc.h`, the fourcc `YU12`. -/
def DRM_FORMAT_YUV420 : Nat := 0x32315559

/-- The kernel calls of `VideoBufferMemfd.cpp`, with their arguments and, for
the calls that return a descriptor, an address or a status, what they returned.
`mmap` returns `MAP_FAILED` on failure. -/
inductive SysCall where
  | open_udmabuf (ret : Int)
  | memfd_create (ret : Int)
  | ftruncate (fd : Int) (length : Nat) (ret : Int)
  | mmap (length : Nat) (fd : Int) (ret : Nat)
  | fcntl_add_seals (fd : Int) (ret : Int)
  | udmabuf_create (udmabuf : Int) (memfd : Nat) (size : Nat) (ret : Int)
  | close (fd : Int)
  | munmap (addr : Nat) (length : Nat)
  deriving DecidableEq, Repr

/-- The value `MAP_FAILED`, `(void *) -1`, as an address of a 64-bit process. -/
def MAP_FAILED : Nat := 2 ^ 64 - 1

/-- What the five kernel calls of one `Create` return: the descriptor from
`memfd_create`, the status of `ftruncate`, the address from `mmap`, the status
of `fcntl(F_ADD_SEALS)` and the descriptor from `ioctl(UDMABUF_CREATE)`. -/
structure CreateOutcome where
  memfd_create : Int
  ftruncate : Int
  mmap : Nat
  fcntl : Int
  ioctl : Int
  deriving DecidableEq, Repr

/-- One of the kernel steps of a `Create` failed, by the tests the source
makes: `fd < 0`, `ret` not zero, `m_addr == MAP_FAILED`, `ret` not zero,
`m_dmafd < 0`. -/
def CreateOutcome.failed (k : CreateOutcome) : Prop :=
  k.memfd_create < 0 ∨ k.ftruncate ≠ 0 ∨ k.mmap = MAP_FAILED ∨ k.fcntl ≠ 0 ∨ k.ioctl < 0

/-- Assignment to one element of a C array held as a list: the list is
extended with zero-initialised elements as far as needed, then the element at
`i` is replaced by `f` of its old value. -/
def arrayModify {α : Type} [Inhabited α] (l : List α) (i : Nat) (f : α → α) : List α :=
  (l ++ List.replicate (i + 1 - l.length) default).set i (f (l.getD i default))

/-- The method `CVideoBufferMemfd::Destroy`: the buffer afterwards and the
kernel calls made. The status each call returns only decides whether a line
is logged. -/
def CVideoBufferMemfd.Destroy (b : CVideoBufferMemfd) : CVideoBufferMemfd × List SysCall :=
  if b.m_width = 0 ∧ b.m_height = 0 then (b, [])
  else
    ({ b with m_dmafd := -1, m_memfd := -1, m_addr := 0, m_size := 0,
              m_width := 0, m_height := 0 },
     [SysCall.close b.m_dmafd, SysCall.close b.m_memfd, SysCall.munmap b.m_addr b.m_size])

/-- The descriptor as `Create` leaves it, for the fields `m_dmafd`, `m_size`,
`m_width` and `m_height` it has just set. The products and shifts are
`uint32_t` operations; `offset` and `pitch` are `ptrdiff_t` of a 64-bit
process, so the sum for the third plane does not wrap. -/
def CVideoBufferMemfd.describe (d : AVDRMFrameDescriptor) (m_dmafd : Int) (m_size : Nat)
    (m_width m_height : Nat) : AVDRMFrameDescriptor :=
  let objects := arrayModify d.objects 0 fun o => { o with fd := m_dmafd, size := m_size }
  let offset1 : Int := ((m_width * m_height % 2 ^ 32 : Nat) : Int)
  let offset2 : Int := offset1 + ((m_width * m_height % 2 ^ 32 / 4 : Nat) : Int)
  let layers := arrayModify d.layers 0 fun layer =>
    let p0 := arrayModify layer.planes 0 fun pl => { pl with offset := 0, pitch := (m_width : Int) }
    let p1 := arrayModify p0 1 fun pl =>
      { pl with offset := offset1, pitch := ((m_width / 2 : Nat) : Int) }
    let p2 := arrayModify p1 2 fun pl =>
      { pl with offset := offset2, pitch := ((m_width / 2 : Nat) : Int) }
    { layer with format := DRM_FORMAT_YUV420, nb_planes := 3, planes := p2 }
  { d with nb_objects := 1, objects := objects, nb_layers := 1, layers := layers }

/-- The method `CVideoBufferMemfd::Create`, for `uint32_t` arguments: the
buffer afterwards and the kernel calls made, those of the `Destroy` it starts
with included. After a failing step the source writes a log line and goes on
with the next step. -/
def CVideoBufferMemfd.Create (b : CVideoBufferMemfd) (width height : Nat)
    (k : CreateOutcome) : CVideoBufferMemfd × List SysCall :=
  if b.m_width = width ∧ b.m_height = height then (b, [])
  else
    let d := b.Destroy
    let m_size := width * ((height + height / 2) % 2 ^ 32) % 2 ^ 32
    let fd := k.memfd_create
    let calls :=
      [SysCall.memfd_create fd,
       SysCall.ftruncate fd m_size k.ftruncate,
       SysCall.mmap m_size fd k.mmap,
       SysCall.fcntl_add_seals fd k.fcntl,
       SysCall.udmabuf_create d.1.m_udmabuf (fd % 2 ^ 32).toNat m_size k.ioctl]
    ({ d.1 with
        m_size := m_size
        m_memfd := fd
        m_addr := k.mmap
        m_dmafd := k.ioctl
        m_width := width
        m_height := height
        m_descriptor := CVideoBufferMemfd.describe d.1.m_descriptor k.ioctl m_size width height },
     d.2 ++ calls)

/-- The method `CVideoBufferDRMPRIME::IsValid` of `VideoBufferDRMPRIME.h`, which
`CVideoBufferMemfd` does not override. -/
def CVideoBufferMemfd.IsValid (_b : CVideoBufferMemfd) : Bool := true

/-- The layer `m_descriptor.layers[0]`. -/
def CVideoBufferMemfd.layer (b : CVideoBufferMemfd) : AVDRMLayerDescriptor :=
  b.m_descriptor.layers.getD 0 default

/-- The method `CVideoBufferMemfd::GetPlanes`: the first `nb_planes` entries of
the output array, as addresses of a 64-bit process; the sum of the pointer
`m_addr` and the offset wraps at `2 ^ 64`. -/
def CVideoBufferMemfd.GetPlanes (b : CVideoBufferMemfd) : List Int :=
  (List.range b.layer.nb_planes.toNat).map fun i =>
    ((b.m_addr : Int) + (b.layer.planes.getD i default).offset) % 2 ^ 64

/-- The method `CVideoBufferMemfd::GetStrides`: the first `nb_planes` entries of
the output array; a stride is an `int`, so the pitch is cut to 32 bits. -/
def CVideoBufferMemfd.GetStrides (b : CVideoBufferMemfd) : List Int :=
  (List.range b.layer.nb_planes.toNat).map fun i =>
    Int.bmod (b.layer.planes.getD i default).pitch (2 ^ 32)

/-- The method `CVideoBufferMemfd::Import`: the three `memcpy` calls as pairs
of destination address and byte count. The count `stride * rows` multiplies an
`int` with a `uint32_t`, so it is a `uint32_t` product. Entries of the
`YuvImage` arrays the two getters did not fill are zero. -/
def CVideoBufferMemfd.Import (b : CVideoBufferMemfd) : List (Int × Nat) :=
  let plane := b.GetPlanes
  let stride := b.GetStrides
  [(plane.getD 0 0, ((stride.getD 0 0 % 2 ^ 32).toNat * b.m_height) % 2 ^ 32),
   (plane.getD 1 0, ((stride.getD 1 0 % 2 ^ 32).toNat * (b.m_height / 2)) % 2 ^ 32),
   (plane.getD 2 0, ((stride.getD 2 0 % 2 ^ 32).toNat * (b.m_height / 2)) % 2 ^ 32)]

/-- The destructor `CVideoBufferPoolMemfd::~CVideoBufferPoolMemfd`: it closes
`m_fd`, also when that is -1, and deletes every buffer of `m_all`, whose
destructor runs `Unref` and `Destroy`. The result lists the buffers as their
destructors left them. -/
def CVideoBufferPoolMemfd.destroy (p : CVideoBufferPoolMemfd) :
    CVideoBufferPoolMemfd × List SysCall :=
  ({ p with m_fd := -1, m_all := p.m_all.map fun b => b.Unref.Destroy.1 },
   SysCall.close p.m_fd :: (p.m_all.map fun b => b.Unref.Destroy.2).flatten)

/-! ### The pool together with its buffers' kernel resources -/

/-- A call made on a pool or, through a pointer `Get` returned, on one of its
buffers: `create i w h k` is `Create(w, h)` on the buffer `m_all[i]`. -/
inductive PoolStep where
  | get (openResult : Int)
  | ret (id : Int)
  | create (i : Nat) (width height : Nat) (k : CreateOutcome)
  deriving DecidableEq, Repr

/-- A pool and the kernel calls made on its behalf so far. -/
structure PoolRun where
  pool : CVideoBufferPoolMemfd := {}
  calls : List SysCall := []
  deriving DecidableEq, Repr

/-- The kernel call `Get` makes: `open("/dev/udmabuf")`, in the branch that
creates a buffer and only while `m_fd` is -1. -/
def CVideoBufferPoolMemfd.GetCalls (p : CVideoBufferPoolMemfd) (openResult : Int) :
    List SysCall :=
  if p.m_free = [] ∧ p.m_fd = -1 then [SysCall.open_udmabuf openResult] else []

/-- One step applied; `none` where the pool operation is undefined or the
buffer does not exist. -/
def PoolStep.apply (s : PoolRun) : PoolStep → Option PoolRun
  | .get r =>
    (s.pool.Get r).map fun g => { pool := g.2, calls := s.calls ++ s.pool.GetCalls r }
  | .ret id => (s.pool.Return id).map fun q => { pool := q, calls := s.calls }
  | .create i w h k =>
    match s.pool.m_all[i]? with
    | some b =>
      some { pool := { s.pool with m_all := s.pool.m_all.set i (b.Create w h k).1 }
             calls := s.calls ++ (b.Create w h k).2 }
    | none => none

/-- A sequence of steps applied in order. -/
def poolRun (s : PoolRun) : List PoolStep → Option PoolRun
  | [] => some s
  | c :: cs => (c.apply s).bind fun t => poolRun t cs

/-- Pool teardown at the end of a run. -/
def PoolRun.teardown (s : PoolRun) : PoolRun :=
  { pool := s.pool.destroy.1, calls := s.calls ++ s.pool.destroy.2 }

/-- No `Create` of the sequence asks for width 0 and height 0 together. -/
def createsNonzero : List PoolStep → Prop
  | [] => True
  | .create _ w h _ :: cs => (w ≠ 0 ∨ h ≠ 0) ∧ createsNonzero cs
  | _ :: cs => createsNonzero cs

/-- Whether a call hands out the descriptor `v`: 1 if it does, else 0. -/
def SysCall.opens (v : Int) : SysCall → Nat
  | .open_udmabuf r => if r = v then 1 else 0
  | .memfd_create r => if r = v then 1 else 0
  | .udmabuf_create _ _ _ r => if r = v then 1 else 0
  | _ => 0

/-- Whether a call closes the descriptor `v`: 1 if it does, else 0. -/
def SysCall.closes (v : Int) : SysCall → Nat
  | .close fd => if fd = v then 1 else 0
  | _ => 0

/-- How often a trace hands out the descriptor `v`. -/
def opened (v : Int) (t : List SysCall) : Nat := (t.map (SysCall.opens v)).sum

/-- How often a trace closes the descriptor `v`. -/
def closed (v : Int) (t : List SysCall) : Nat := (t.map (SysCall.closes v)).sum

/-- At no point of the trace has a valid descriptor been closed more often
than it was handed out: nothing is closed that is not open. -/
def NoOverClose (t : List SysCall) : Prop :=
  ∀ n v, 0 ≤ v → closed v (t.take n) ≤ opened v (t.take n)

/-- How many of the two descriptor fields of a buffer hold `v`. -/
def CVideoBufferMemfd.holds (v : Int) (b : CVideoBufferMemfd) : Nat :=
  (if b.m_dmafd = v then 1 else 0) + (if b.m_memfd = v then 1 else 0)

/-- A fresh buffer with identifier 0 created for the udmabuf descriptor 5. -/
def bufferFresh : CVideoBufferMemfd := CVideoBufferMemfd.new 0 5

/-- Kernel results of a `Create` in which every step succeeds; `fd` is the
descriptor of the memory region and `fd + 1` the one of the DMA buffer. -/
def createSucceeds (fd : Int) : CreateOutcome :=
  { memfd_create := fd, ftruncate := 0, mmap := 4096, fcntl := 0, ioctl := fd + 1 }

/-- Kernel results of a `Create` in which the region is created, resized,
mapped and sealed, and the export `ioctl(UDMABUF_CREATE)` fails. -/
def createFailsAtExport : CreateOutcome :=
  { memfd_create := 7, ftruncate := 0, mmap := 4096, fcntl := 0, ioctl := -1 }

/-- Kernel results of a `Create` in which the region is created and resized
and `mmap` fails, returning `MAP_FAILED`. -/
def createFailsAtMmap : CreateOutcome :=
  { memfd_create := 7, ftruncate := 0, mmap := MAP_FAILED, fcntl := 0, ioctl := 8 }

/-- A run in which a buffer gets a 64 x 64 region and is then asked for a
0 x 0 region, `memfd_create` returning the descriptor 9 the second time. -/
def stepsZeroCreate : List PoolStep :=
  [.get 5, .create 0 64 64 (createSucceeds 7),
   .create 0 0 0 { memfd_create := 9, ftruncate := 0, mmap := MAP_FAILED, fcntl := 0,
                   ioctl := -1 }]

/-- The bookkeeping of descriptors in a run: every valid descriptor was handed
out as often as it was closed plus as often as it is held in `m_fd` or in a
buffer's `m_dmafd` or `m_memfd`; a buffer with width and height zero holds no
valid descriptor; and nothing was closed that was not open. -/
def PoolRun.Balanced (s : PoolRun) : Prop :=
  (∀ v, 0 ≤ v → opened v s.calls =
    closed v s.calls + (if s.pool.m_fd = v then 1 else 0)
      + (s.pool.m_all.map (CVideoBufferMemfd.holds v)).sum) ∧
  (∀ b ∈ s.pool.m_all, b.m_width = 0 → b.m_height = 0 → b.m_dmafd < 0 ∧ b.m_memfd < 0) ∧
  NoOverClose s.calls

/-- A run in which two buffers are handed out, each gets a 64 x 64 region, and
the first buffer is given back: at the end buffer 1 is in the used list and
buffer 0 in the free list. -/
def stepsTwoBuffers : List PoolStep :=
  [.get 5, .get 5, .create 0 64 64 (createSucceeds 7), .create 1 64 64 (createSucceeds 9),
   .ret 0]

/-- The state the run `stepsTwoBuffers` reaches from a fresh pool. -/
def runTwoBuffers : PoolRun := (poolRun {} stepsTwoBuffers).getD {}

end VideoBufferMemfd

namespace RendererDRMPRIME

/-! ## `CVideoLayerBridgeDRMPRIME` -/

/-- The constant `AV_DRM_MAX_PLANES` of `libavutil/hwcontext_drm.h`. -/
def AV_DRM_MAX_PLANES : Nat := 4

/-- The constant `DRM_FORMAT_MOD_INVALID` of `drm_fourcc.h`. -/
def DRM_FORMAT_MOD_INVALID : Nat := 0x00ffffffffffffff

/-- The constant `DRM_MODE_FB_MODIFIERS` of `drm_mode.h`. -/
def DRM_MODE_FB_MODIFIERS : Nat := 2

/-- What the bridge reads and writes of a `CVideoBufferDRMPRIME`
(`VideoBufferDRMPRIME.h`): the display state `m_fb_id` and `m_handles`
(`AV_DRM_MAX_PLANES` entries), the reference count inherited from
`CVideoBuffer`, and the values of `GetDescriptor()`, `GetWidth()` and
`GetHeight()`, whose definitions are not among the sources. -/
structure CVideoBufferDRMPRIME where
  m_fb_id : Nat := 0
  m_handles : List Nat := [0, 0, 0, 0]
  m_refCount : Int := 0
  descriptor : AVDRMFrameDescriptor := {}
  width : Nat := 0
  height : Nat := 0
  deriving DecidableEq, Repr, Inhabited

/-- A pointer to a `CVideoBufferDRMPRIME`: its address in the buffer store. -/
abbrev BufPtr := Nat

/-- The DRM objects whose properties the bridges set. -/
inductive DrmObject where
  | primaryPlane
  | videoPlane
  | connector
  deriving DecidableEq, Repr

/-- One entry of the property set built up for the next atomic commit. -/
structure Property where
  object : DrmObject
  name : String
  value : Int
  deriving DecidableEq, Repr

/-- The calls the bridge makes for their effect, in the order it makes them. -/
inductive Event where
  | drmPrimeFDToHandle (prime_fd : Int) (ret : Int)
  | drmModeAddFB2WithModifiers (width height format : Nat)
      (handles pitches offsets modifier : List Nat) (flags : Nat) (ret : Int)
  | drmModeRmFB (fb_id : Nat)
  | gemClose (handle : Nat)
  | acquire (buffer : BufPtr)
  | release (buffer : BufPtr)
  deriving DecidableEq, Repr

/-- The result of one `drmPrimeFDToHandle` call: the return value and the GEM
handle the library stores through its out-parameter when the call succeeds. -/
structure PrimeResult where
  ret : Int
  handle : Nat
  deriving DecidableEq, Repr

/-- The result of `drmModeAddFB2WithModifiers`: the return value and the
framebuffer id the library stores through its out-parameter when the call
succeeds. -/
structure AddFBResult where
  ret : Int
  fb_id : Nat
  deriving DecidableEq, Repr

/-- The results of the kernel calls made inside one `Map`: one
`drmPrimeFDToHandle` result per object index and the framebuffer creation. -/
structure MapOutcome where
  fdToHandle : Nat → PrimeResult
  addFB : AddFBResult

/-- The state `CVideoLayerBridgeDRMPRIME` works on: its two buffer slots, the
buffers its pointers refer to, the property set and the CRTC id held by
`m_DRM`, and the trace of calls made so far. -/
structure CVideoLayerBridgeDRMPRIME where
  store : BufPtr → CVideoBufferDRMPRIME
  m_buffer : Option BufPtr := none
  m_prev_buffer : Option BufPtr := none
  crtc_id : Nat := 0
  props : List Property := []
  trace : List Event := []

namespace CVideoLayerBridgeDRMPRIME

/-- A bridge right after its constructor ran: both slots are null. -/
def fresh (store : BufPtr → CVideoBufferDRMPRIME) (crtc_id : Nat) :
    CVideoLayerBridgeDRMPRIME :=
  { store := store, crtc_id := crtc_id }

/-- Overwrites the buffer a pointer refers to. -/
def setBuffer (s : CVideoLayerBridgeDRMPRIME) (b : BufPtr) (v : CVideoBufferDRMPRIME) :
    CVideoLayerBridgeDRMPRIME :=
  { s with store := Function.update s.store b v }

/-- Appends calls to the trace. -/
def emit (s : CVideoLayerBridgeDRMPRIME) (evs : List Event) : CVideoLayerBridgeDRMPRIME :=
  { s with trace := s.trace ++ evs }

/-- Modelled from the spec: `CDRMUtils::AddProperty(object, name, value)` is
declared in `windowing/gbm`, which is not among the sources. The spec calls it
"a property-set-and-commit primitive"; a call adds one entry to the set. -/
def AddProperty (s : CVideoLayerBridgeDRMPRIME) (object : DrmObject) (name : String)
    (value : Int) : CVideoLayerBridgeDRMPRIME :=
  { s with props := s.props ++ [{ object := object, name := name, value := value }] }

/-- Modelled from the spec: `CVideoBuffer::Acquire()` lives in `VideoBuffer.cpp`,
which is not among the sources. The spec says "atomic increment ... of the
reference count". The call is also recorded in the trace. -/
def bufferAcquire (s : CVideoLayerBridgeDRMPRIME) (b : BufPtr) : CVideoLayerBridgeDRMPRIME :=
  (s.setBuffer b { s.store b with m_refCount := (s.store b).m_refCount + 1 }).emit
    [Event.acquire b]

/-- Modelled from the spec: `CVideoBuffer::Release()` lives in `VideoBuffer.cpp`,
which is not among the sources. The spec says "atomic ... decrement of the
reference count"; the reclamation by the pool at count zero changes nothing
the bridge holds. The call is also recorded in the trace. -/
def bufferRelease (s : CVideoLayerBridgeDRMPRIME) (b : BufPtr) : CVideoLayerBridgeDRMPRIME :=
  (s.setBuffer b { s.store b with m_refCount := (s.store b).m_refCount - 1 }).emit
    [Event.release b]

/-- One round of the loop of `Unmap`: closes the GEM handle at index `i` if it
is not zero and clears the entry. -/
def closeHandle (acc : List Nat × List Event) (i : Nat) : List Nat × List Event :=
  if acc.1.getD i 0 ≠ 0 then
    (acc.1.set i 0, acc.2 ++ [Event.gemClose (acc.1.getD i 0)])
  else acc

/-- The method `CVideoLayerBridgeDRMPRIME::Unmap`. -/
def Unmap (s : CVideoLayerBridgeDRMPRIME) (b : BufPtr) : CVideoLayerBridgeDRMPRIME :=
  let buf := s.store b
  let s1 :=
    if buf.m_fb_id ≠ 0 then
      (s.emit [Event.drmModeRmFB buf.m_fb_id]).setBuffer b { buf with m_fb_id := 0 }
    else s
  let r := (List.range AV_DRM_MAX_PLANES).foldl closeHandle ((s1.store b).m_handles, [])
  (s1.emit r.2).setBuffer b { s1.store b with m_handles := r.1 }

/-- The method `CVideoLayerBridgeDRMPRIME::Release`. -/
def Release (s : CVideoLayerBridgeDRMPRIME) (buffer : Option BufPtr) :
    CVideoLayerBridgeDRMPRIME :=
  match buffer with
  | none => s
  | some b => (s.Unmap b).bufferRelease b

/-- The method `CVideoLayerBridgeDRMPRIME::Acquire`. -/
def Acquire (s : CVideoLayerBridgeDRMPRIME) (buffer : BufPtr) : CVideoLayerBridgeDRMPRIME :=
  let s1 := s.Release s.m_prev_buffer
  let s2 := { s1 with m_prev_buffer := s1.m_buffer }
  let s3 := { s2 with m_buffer := some buffer }
  s3.bufferAcquire buffer

/-- The destructor `CVideoLayerBridgeDRMPRIME::~CVideoLayerBridgeDRMPRIME`. -/
def destroy (s : CVideoLayerBridgeDRMPRIME) : CVideoLayerBridgeDRMPRIME :=
  let s1 := s.Release s.m_prev_buffer
  s1.Release s1.m_buffer

/-- The first loop of `Map`, over the object indices still to visit: converts
each prime fd to a GEM handle stored in `m_handles[object]` and stops at the
first failing conversion. The result is whether all conversions succeeded,
`m_handles` afterwards, and the calls made. -/
def convertObjects (d : AVDRMFrameDescriptor) (k : Nat → PrimeResult) :
    List Nat → List Nat → Bool × List Nat × List Event
  | [], handles => (true, handles, [])
  | object :: rest, handles =>
    let fd := (d.objects.getD object default).fd
    let r := k object
    if r.ret < 0 then
      (false, handles, [Event.drmPrimeFDToHandle fd r.ret])
    else
      let t := convertObjects d k rest (handles.set object r.handle)
      (t.1, t.2.1, Event.drmPrimeFDToHandle fd r.ret :: t.2.2)

/-- The local arrays `handles`, `pitches`, `offsets` and `modifier` of `Map`. -/
structure FBArgs where
  handles : List Nat := [0, 0, 0, 0]
  pitches : List Nat := [0, 0, 0, 0]
  offsets : List Nat := [0, 0, 0, 0]
  modifier : List Nat := [0, 0, 0, 0]
  deriving DecidableEq, Repr

/-- One round of the second loop of `Map`: resolves one plane of the layer. -/
def resolvePlane (d : AVDRMFrameDescriptor) (layer : AVDRMLayerDescriptor)
    (m_handles : List Nat) (a : FBArgs) (plane : Nat) : FBArgs :=
  let pl := layer.planes.getD plane default
  let object := pl.object_index.toNat
  let handle := m_handles.getD object 0
  if handle ≠ 0 ∧ pl.pitch ≠ 0 then
    { handles := a.handles.set plane handle
      pitches := a.pitches.set plane (pl.pitch % 2 ^ 32).toNat
      offsets := a.offsets.set plane (pl.offset % 2 ^ 32).toNat
      modifier := a.modifier.set plane (d.objects.getD object default).format_modifier }
  else a

/-- The middle of `Map`, for a buffer whose `m_handles` the first loop has
filled: the second loop over the planes of `layers[0]`, the choice of `flags`,
and the `drmModeAddFB2WithModifiers` call they lead to, returning `ret`. -/
def addFBCall (buf : CVideoBufferDRMPRIME) (ret : Int) : Event :=
  let d := buf.descriptor
  let layer := d.layers.getD 0 default
  let a := (List.range layer.nb_planes.toNat).foldl
    (resolvePlane d layer buf.m_handles) ({} : FBArgs)
  let flags :=
    if a.modifier.getD 0 0 ≠ 0 ∧ a.modifier.getD 0 0 ≠ DRM_FORMAT_MOD_INVALID then
      DRM_MODE_FB_MODIFIERS
    else 0
  Event.drmModeAddFB2WithModifiers buf.width buf.height layer.format
    a.handles a.pitches a.offsets a.modifier flags ret

/-- The method `CVideoLayerBridgeDRMPRIME::Map`: the returned flag and the
state after the call. A descriptor names at most `AV_DRM_MAX_PLANES` objects,
the size of its `objects` array, so the first loop writes inside `m_handles`. -/
def Map (s : CVideoLayerBridgeDRMPRIME) (b : BufPtr) (k : MapOutcome) :
    Bool × CVideoLayerBridgeDRMPRIME :=
  let buf := s.store b
  if buf.m_fb_id ≠ 0 then (true, s)
  else
    let d := buf.descriptor
    let c := convertObjects d k.fdToHandle (List.range d.nb_objects.toNat) buf.m_handles
    let s1 := (s.emit c.2.2).setBuffer b { buf with m_handles := c.2.1 }
    if c.1 = false then (false, s1)
    else
      let s2 := s1.emit [addFBCall (s1.store b) k.addFB.ret]
      if k.addFB.ret < 0 then (false, s2)
      else
        let s3 := s2.setBuffer b { s2.store b with m_fb_id := k.addFB.fb_id }
        (true, s3.Acquire b)

/-- The value `static_cast<int32_t>(c) & ~1` programmed as `CRTC_X` and
`CRTC_Y`, for the already converted coordinate `x`. -/
def crtcOrigin (x : Int) : Int := Int.land x (Int.not 1)

/-- The value `(static_cast<uint32_t>(e) + 1) & ~1` programmed as `CRTC_W` and
`CRTC_H`, for the already converted extent `w`: the sum is a `uint32_t` sum and
`~1` converts to `0xFFFFFFFE`. -/
def crtcExtent (w : Nat) : Nat := Nat.land ((w + 1) % 2 ^ 32) 0xFFFFFFFE

/-- The destination rectangle as `SetVideoPlane` uses it: the results of
`static_cast<int32_t>(destRect.x1)`, `static_cast<int32_t>(destRect.y1)`,
`static_cast<uint32_t>(destRect.Width())` and
`static_cast<uint32_t>(destRect.Height())`. -/
structure DestRect where
  x1 : Int
  y1 : Int
  Width : Nat
  Height : Nat
  deriving DecidableEq, Repr

/-- The method `CVideoLayerBridgeDRMPRIME::SetVideoPlane`. -/
def SetVideoPlane (s : CVideoLayerBridgeDRMPRIME) (b : BufPtr) (destRect : DestRect)
    (k : MapOutcome) : CVideoLayerBridgeDRMPRIME :=
  let m := s.Map b k
  if m.1 = false then m.2.Unmap b
  else
    let s1 := m.2
    let buf := s1.store b
    let plane := DrmObject.primaryPlane
    let s2 := s1.AddProperty plane "FB_ID" buf.m_fb_id
    let s3 := s2.AddProperty plane "CRTC_ID" s1.crtc_id
    let s4 := s3.AddProperty plane "SRC_X" 0
    let s5 := s4.AddProperty plane "SRC_Y" 0
    let s6 := s5.AddProperty plane "SRC_W" ((buf.width * 2 ^ 16 % 2 ^ 32 : Nat) : Int)
    let s7 := s6.AddProperty plane "SRC_H" ((buf.height * 2 ^ 16 % 2 ^ 32 : Nat) : Int)
    let s8 := s7.AddProperty plane "CRTC_X" (crtcOrigin destRect.x1)
    let s9 := s8.AddProperty plane "CRTC_Y" (crtcOrigin destRect.y1)
    let s10 := s9.AddProperty plane "CRTC_W" (crtcExtent destRect.Width)
    s10.AddProperty plane "CRTC_H" (crtcExtent destRect.Height)

/-- The value most recently added to the property set for `name` on `object`. -/
def programmed (s : CVideoLayerBridgeDRMPRIME) (object : DrmObject) (name : String) :
    Option Int :=
  (s.props.reverse.find? fun p => p.object = object ∧ p.name = name).map Property.value

/-- A sequence of `SetVideoPlane` calls, each with the results of its kernel calls. -/
def setVideoPlanes (s : CVideoLayerBridgeDRMPRIME) :
    List (BufPtr × DestRect × MapOutcome) → CVideoLayerBridgeDRMPRIME
  | [] => s
  | c :: cs => setVideoPlanes (s.SetVideoPlane c.1 c.2.1 c.2.2) cs

/-- A descriptor with one object (prime fd 5), one layer and one plane of
pitch 64. -/
def sampleDescriptor : AVDRMFrameDescriptor :=
  { nb_objects := 1
    objects := [{ fd := 5, size := 6144 }]
    nb_layers := 1
    layers := [{ format := 842094158, nb_planes := 1, planes := [{ pitch := 64 }] }] }

/-- A store in which every address holds an unmapped 64 x 64 buffer. -/
def sampleStore : BufPtr → CVideoBufferDRMPRIME :=
  fun _ => { descriptor := sampleDescriptor, width := 64, height := 64 }

/-- Kernel results in which every conversion succeeds with GEM handle `h` and
the framebuffer is created with id `fb`. -/
def mapSucceeds (h fb : Nat) : MapOutcome :=
  { fdToHandle := fun _ => { ret := 0, handle := h }, addFB := { ret := 0, fb_id := fb } }

/-- Kernel results in which every conversion succeeds with GEM handle `h` and
the framebuffer creation fails. -/
def mapFailsAtFB (h : Nat) : MapOutcome :=
  { fdToHandle := fun _ => { ret := 0, handle := h }, addFB := { ret := -1, fb_id := 0 } }

/-- Modelled from the spec: the destination rectangle is a `CRect`, declared in
`utils/Geometry.h`, which is not among the sources; its coordinates and the
results of `Width()` and `Height()` are `float`. A finite `float` is the number
`(-1) ^ sign * mantissa * 2 ^ exponent` with a mantissa below `2 ^ 24` and an
exponent from -149 to 104. -/
structure Binary32 where
  sign : Bool := false
  mantissa : Nat
  exponent : Int
  deriving DecidableEq, Repr

/-- The fields describe a binary32 number. -/
def Binary32.valid (f : Binary32) : Prop :=
  f.mantissa < 2 ^ 24 ∧ -149 ≤ f.exponent ∧ f.exponent ≤ 104

/-- The magnitude of a `float` with its fraction dropped. -/
def Binary32.truncate (f : Binary32) : Nat :=
  if 0 ≤ f.exponent then f.mantissa * 2 ^ f.exponent.toNat
  else f.mantissa / 2 ^ (-f.exponent).toNat

/-- The conversion `static_cast<uint32_t>(f)` of a finite `float`: the value
with its fraction dropped. `none` is the undefined behaviour of the conversion
when that value is negative or not below `2 ^ 32`. -/
def Binary32.toUInt32 (f : Binary32) : Option Nat :=
  if f.truncate = 0 then some 0
  else if f.sign = true then none
  else if f.truncate < 2 ^ 32 then some f.truncate
  else none

/-- The extent `SetVideoPlane` works with, for the converted origin and the
`float` values `destRect.Width()` and `destRect.Height()` returned: both are
converted by `static_cast<uint32_t>`. -/
def DestRect.ofExtent (x1 y1 : Int) (width height : Binary32) : Option DestRect :=
  match width.toUInt32, height.toUInt32 with
  | some w, some h => some { x1 := x1, y1 := y1, Width := w, Height := h }
  | _, _ => none

/-- The `float` 101.5, that is 203 / 2. -/
def float101_5 : Binary32 := { mantissa := 203, exponent := -1 }

/-- The `float` 51. -/
def float51 : Binary32 := { mantissa := 51, exponent := 0 }

/-- The destination rectangle with origin (3, 5) and extent (101, 51). -/
def sampleRect : DestRect := { x1 := 3, y1 := 5, Width := 101, Height := 51 }

/-- The bridge after `SetVideoPlane` was called for the buffers at addresses
1, 2 and 1 again, every kernel call having succeeded. -/
def bridgeABA : CVideoLayerBridgeDRMPRIME :=
  setVideoPlanes (fresh sampleStore 9)
    [(1, sampleRect, mapSucceeds 21 11), (2, sampleRect, mapSucceeds 22 12),
     (1, sampleRect, mapSucceeds 21 11)]

end CVideoLayerBridgeDRMPRIME

end RendererDRMPRIME


namespace RendererDRMPRIME

/-! ## `CRendererDRMPRIME` -/

namespace CVideoLayerBridgeDRMPRIME

/-- The method `CVideoLayerBridgeDRMPRIME::Disable`. -/
def Disable (s : CVideoLayerBridgeDRMPRIME) : CVideoLayerBridgeDRMPRIME :=
  (s.AddProperty DrmObject.primaryPlane "FB_ID" 0).AddProperty DrmObject.primaryPlane "CRTC_ID" 0

/-- A sequence of `Acquire` calls, one per buffer of the list. -/
def acquireAll (s : CVideoLayerBridgeDRMPRIME) (bs : List BufPtr) : CVideoLayerBridgeDRMPRIME :=
  bs.foldl Acquire s

/-- The references the bridge has taken on `q` and not given back: the
`Acquire()` calls minus the `Release()` calls on `q` in the trace. -/
def outstanding (s : CVideoLayerBridgeDRMPRIME) (q : BufPtr) : Int :=
  (s.trace.count (Event.acquire q) : Int) - (s.trace.count (Event.release q) : Int)

end CVideoLayerBridgeDRMPRIME

/-- What `CRendererDRMPRIME` asks of the `CVideoBuffer` held in a slot: its
address, whether `dynamic_cast<CVideoBufferDRMPRIME*>` succeeds, and what
`GetDescriptor()` returns, `none` for a null pointer. -/
structure VideoBufferInfo where
  ptr : BufPtr
  isDRMPRIME : Bool := true
  descriptor : Option AVDRMFrameDescriptor := none
  deriving DecidableEq, Repr

/-- The calls the renderer makes on its layer bridge. -/
inductive BridgeCall where
  | Configure (buffer : BufPtr)
  | SetVideoPlane (buffer : BufPtr)
  deriving DecidableEq, Repr

/-- The state of a `CRendererDRMPRIME`: the slots `m_buffers[i].videoBuffer`,
`m_iLastRenderBuffer`, `m_bConfigured`, whether `m_videoLayerBridge` is set,
the calls made on that bridge and the `Acquire()` and `Release()` calls made
on video buffers. The slot count `NUM_BUFFERS` is declared outside the
sources and is carried as a field. -/
structure CRendererDRMPRIME where
  NUM_BUFFERS : Nat
  m_buffers : Nat → Option VideoBufferInfo := fun _ => none
  m_iLastRenderBuffer : Int := -1
  m_bConfigured : Bool := false
  m_videoLayerBridge : Bool := false
  bridgeCalls : List BridgeCall := []
  bufferCalls : List Event := []

namespace CRendererDRMPRIME

/-- The method `CRendererDRMPRIME::ReleaseBuffer`. -/
def ReleaseBuffer (r : CRendererDRMPRIME) (index : Nat) : CRendererDRMPRIME :=
  match r.m_buffers index with
  | some buf =>
    { r with m_buffers := Function.update r.m_buffers index none
             bufferCalls := r.bufferCalls ++ [Event.release buf.ptr] }
  | none => r

/-- The method `CRendererDRMPRIME::Flush`; the returned flag is `saveBuffers`. -/
def Flush (r : CRendererDRMPRIME) (saveBuffers : Bool) : CRendererDRMPRIME :=
  let r1 := if saveBuffers then r else (List.range r.NUM_BUFFERS).foldl ReleaseBuffer r
  { r1 with m_iLastRenderBuffer := -1 }

/-- The method `CRendererDRMPRIME::Configure`, as far as it touches the state
kept here: after recording the picture's format and geometry it flushes and
sets `m_bConfigured`. -/
def Configure (r : CRendererDRMPRIME) : CRendererDRMPRIME :=
  { r.Flush false with m_bConfigured := true }

/-- The method `CRendererDRMPRIME::AddVideoPicture`. -/
def AddVideoPicture (r : CRendererDRMPRIME) (videoBuffer : VideoBufferInfo) (index : Nat) :
    CRendererDRMPRIME :=
  let released :=
    match r.m_buffers index with
    | some old => [Event.release old.ptr]
    | none => []
  { r with m_buffers := Function.update r.m_buffers index (some videoBuffer)
           bufferCalls := r.bufferCalls ++ released ++ [Event.acquire videoBuffer.ptr] }

/-- The method `CRendererDRMPRIME::RenderUpdate`, for a slot index, which is
not negative. -/
def RenderUpdate (r : CRendererDRMPRIME) (index : Nat) : CRendererDRMPRIME :=
  if r.m_iLastRenderBuffer = (index : Int) then r
  else
    match r.m_buffers index with
    | none => r
    | some vb =>
      if vb.isDRMPRIME = false then r
      else
        match vb.descriptor with
        | none => r
        | some descriptor =>
          if descriptor.nb_layers = 0 then r
          else
            let configure :=
              if r.m_iLastRenderBuffer = -1 then [BridgeCall.Configure vb.ptr] else []
            { r with m_videoLayerBridge := true
                     bridgeCalls := r.bridgeCalls ++ configure ++
                       [BridgeCall.SetVideoPlane vb.ptr]
                     m_iLastRenderBuffer := (index : Int) }

end CRendererDRMPRIME

/-- An operation on a renderer. -/
inductive RendererOp where
  | Configure
  | AddVideoPicture (videoBuffer : VideoBufferInfo) (index : Nat)
  | Flush (saveBuffers : Bool)
  | RenderUpdate (index : Nat)
  deriving DecidableEq, Repr

/-- One operation applied to a renderer. -/
def RendererOp.apply (r : CRendererDRMPRIME) : RendererOp → CRendererDRMPRIME
  | .Configure => r.Configure
  | .AddVideoPicture vb index => r.AddVideoPicture vb index
  | .Flush saveBuffers => r.Flush saveBuffers
  | .RenderUpdate index => r.RenderUpdate index

/-- A sequence of operations applied in order. -/
def renderOps (r : CRendererDRMPRIME) (ops : List RendererOp) : CRendererDRMPRIME :=
  ops.foldl RendererOp.apply r

/-- Whether an operation flushes: `Flush` itself and `Configure`, which calls it. -/
def RendererOp.flushes : RendererOp → Bool
  | .Configure => true
  | .Flush _ => true
  | _ => false

/-- Whether a bridge call is a call of the `Configure` hook. -/
def BridgeCall.isConfigure : BridgeCall → Bool
  | .Configure _ => true
  | .SetVideoPlane _ => false

/-- A video buffer at address 1 with a one-layer descriptor. -/
def sampleVideoBuffer : VideoBufferInfo :=
  { ptr := 1, descriptor := some CVideoLayerBridgeDRMPRIME.sampleDescriptor }

/-- The operations: configure the renderer, add a picture to slot 0, render
it, flush keeping the buffers, render slot 0 again. -/
def opsRenderFlushRender : List RendererOp :=
  [.Configure, .AddVideoPicture sampleVideoBuffer 0, .RenderUpdate 0, .Flush true,
   .RenderUpdate 0]

end RendererDRMPRIME

/-! ## `CVideoLayerBridgeRockchip` -/

/-- The colour fields of an `AVFrame` (`libavutil/frame.h`) the bridge reads;
the two enumerations are kept as their integer values. -/
structure AVFrame where
  color_primaries : Int := 2
  color_trc : Int := 2
  deriving DecidableEq, Repr

/-- The constant `AVCOL_PRI_BT709` of `libavutil/pixfmt.h`. -/
def AVCOL_PRI_BT709 : Int := 1

/-- The constant `AVCOL_PRI_SMPTE170M` of `libavutil/pixfmt.h`. -/
def AVCOL_PRI_SMPTE170M : Int := 6

/-- The constant `AVCOL_TRC_BT2020_10` of `libavutil/pixfmt.h`. -/
def AVCOL_TRC_BT2020_10 : Int := 14

/-- The constant `AVCOL_TRC_SMPTE2084` of `libavutil/pixfmt.h`. -/
def AVCOL_TRC_SMPTE2084 : Int := 16

/-- The constant `AVCOL_TRC_ARIB_STD_B67` of `libavutil/pixfmt.h`. -/
def AVCOL_TRC_ARIB_STD_B67 : Int := 18

/-- The constant `V4L2_COLORSPACE_DEFAULT` of `linux/videodev2.h`. -/
def V4L2_COLORSPACE_DEFAULT : Int := 0

/-- The constant `V4L2_COLORSPACE_SMPTE170M` of `linux/videodev2.h`. -/
def V4L2_COLORSPACE_SMPTE170M : Int := 1

/-- The constant `V4L2_COLORSPACE_REC709` of `linux/videodev2.h`. -/
def V4L2_COLORSPACE_REC709 : Int := 3

/-- The constant `V4L2_COLORSPACE_BT2020` of `linux/videodev2.h`. -/
def V4L2_COLORSPACE_BT2020 : Int := 10

/-- The format `DRM_FORMAT_NV12_10` of the Rockchip `drm_fourcc.h`, the
fourcc `NA12`. -/
def DRM_FORMAT_NV12_10 : Nat := 0x3231414e

/-- The enumerator `HDMI_EOTF_TRADITIONAL_GAMMA_SDR` of `enum hdmi_eotf`. -/
def HDMI_EOTF_TRADITIONAL_GAMMA_SDR : Int := 0

/-- The enumerator `HDMI_EOTF_TRADITIONAL_GAMMA_HDR` of `enum hdmi_eotf`. -/
def HDMI_EOTF_TRADITIONAL_GAMMA_HDR : Int := 1

/-- The enumerator `HDMI_EOTF_SMPTE_ST2084` of `enum hdmi_eotf`. -/
def HDMI_EOTF_SMPTE_ST2084 : Int := 2

/-- The enumerator `HDMI_EOTF_BT_2100_HLG` of `enum hdmi_eotf`. -/
def HDMI_EOTF_BT_2100_HLG : Int := 3

/-- The enumerator `HDMI_STATIC_METADATA_TYPE1` of `enum hdmi_metadata_type`. -/
def HDMI_STATIC_METADATA_TYPE1 : Int := 1

/-- The enumerator `HDMI_OUTPUT_DEFAULT_RGB` of `enum hdmi_output_format`. -/
def HDMI_OUTPUT_DEFAULT_RGB : Int := 0

/-- The enumerator `HDMI_OUTPUT_YCBCR_HQ` of `enum hdmi_output_format`. -/
def HDMI_OUTPUT_YCBCR_HQ : Int := 4

/-- The macro `RK_HDMI_COLORIMETRY_BT2020`:
`HDMI_COLORIMETRY_EXTENDED + HDMI_EXTENDED_COLORIMETRY_BT2020`, that is 3 + 6. -/
def RK_HDMI_COLORIMETRY_BT2020 : Int := 3 + 6

/-- The calls on HDR metadata blobs: `drmModeCreatePropertyBlob` with what it
returned and the id it stored when it succeeded, and
`drmModeDestroyPropertyBlob` with the id it was given. -/
inductive BlobCall where
  | create (ret : Int) (id : Nat)
  | destroy (id : Nat)
  deriving DecidableEq, Repr

/-- The result of one `drmModeCreatePropertyBlob` call: the return value and
the blob id the library stores through its out-parameter when the call
succeeds, that is when it returns 0. -/
structure BlobOutcome where
  ret : Int
  id : Nat
  deriving DecidableEq, Repr

/-- The state `CVideoLayerBridgeRockchip` works on: the property set held by
`m_DRM`, the answer of `SupportsProperty(connector, "HDR_SOURCE_METADATA")`,
whether `SetActive(true)` was called, the members `m_hdr_blob_id` and
`m_hdr_metadata` (its `type` and `eotf`), and the blob calls made so far. -/
structure CVideoLayerBridgeRockchip where
  props : List RendererDRMPRIME.Property := []
  supportsHdrSourceMetadata : Bool := true
  active : Bool := false
  m_hdr_blob_id : Nat := 0
  m_hdr_metadata_type : Int := 0
  m_hdr_metadata_eotf : Int := 0
  blobCalls : List BlobCall := []
  deriving DecidableEq, Repr

/-- Modelled from the spec: `CDRMUtils::AddProperty(object, name, value)` is
declared in `windowing/gbm`, which is not among the sources. The spec calls it
"a property-set-and-commit primitive"; a call adds one entry to the set. -/
def CVideoLayerBridgeRockchip.AddProperty (s : CVideoLayerBridgeRockchip)
    (object : RendererDRMPRIME.DrmObject) (name : String) (value : Int) :
    CVideoLayerBridgeRockchip :=
  { s with props := s.props ++ [{ object := object, name := name, value := value }] }

/-- The value most recently added to the property set for `name` on `object`. -/
def CVideoLayerBridgeRockchip.programmed (s : CVideoLayerBridgeRockchip)
    (object : RendererDRMPRIME.DrmObject) (name : String) : Option Int :=
  (s.props.reverse.find? fun p => p.object = object ∧ p.name = name).map
    RendererDRMPRIME.Property.value

/-- The start of both `Configure` variants after `GetEOTF`: the old blob is
destroyed if there is one, `m_hdr_blob_id` is cleared, and a new blob is
created if the EOTF is not zero; the id is stored only by a successful call. -/
def CVideoLayerBridgeRockchip.renewBlob (s : CVideoLayerBridgeRockchip) (eotf : Int)
    (k : BlobOutcome) : CVideoLayerBridgeRockchip :=
  let s1 := { s with m_hdr_metadata_type := HDMI_STATIC_METADATA_TYPE1
                     m_hdr_metadata_eotf := eotf }
  let s2 :=
    if s1.m_hdr_blob_id ≠ 0 then
      { s1 with blobCalls := s1.blobCalls ++ [BlobCall.destroy s1.m_hdr_blob_id] }
    else s1
  let s3 := { s2 with m_hdr_blob_id := 0 }
  if eotf ≠ 0 then
    { s3 with blobCalls := s3.blobCalls ++ [BlobCall.create k.ret k.id]
              m_hdr_blob_id := if k.ret = 0 then k.id else s3.m_hdr_blob_id }
  else s3

/-- The end of both `Disable` variants: the blob is destroyed if there is
one and `m_hdr_blob_id` is cleared. -/
def CVideoLayerBridgeRockchip.dropBlob (s : CVideoLayerBridgeRockchip) :
    CVideoLayerBridgeRockchip :=
  let s1 :=
    if s.m_hdr_blob_id ≠ 0 then
      { s with blobCalls := s.blobCalls ++ [BlobCall.destroy s.m_hdr_blob_id] }
    else s
  { s1 with m_hdr_blob_id := 0 }

/-- The two properties the base `CVideoLayerBridgeDRMPRIME::Disable` sets. -/
def CVideoLayerBridgeRockchip.baseDisable (s : CVideoLayerBridgeRockchip) :
    CVideoLayerBridgeRockchip :=
  (s.AddProperty RendererDRMPRIME.DrmObject.primaryPlane "FB_ID" 0).AddProperty
    RendererDRMPRIME.DrmObject.primaryPlane "CRTC_ID" 0

namespace VideoLayerBridgeRockchip

open RendererDRMPRIME

/-- The function `GetColorSpace` of `VideoLayerBridgeRockchip.cpp`. -/
def GetColorSpace (is10bit : Bool) (frame : AVFrame) : Int :=
  if is10bit = true ∧ frame.color_primaries ≠ AVCOL_PRI_BT709 then V4L2_COLORSPACE_BT2020
  else if frame.color_primaries = AVCOL_PRI_SMPTE170M then V4L2_COLORSPACE_SMPTE170M
  else V4L2_COLORSPACE_REC709

/-- The function `GetEOTF` of `VideoLayerBridgeRockchip.cpp`. -/
def GetEOTF (is10bit : Bool) (frame : AVFrame) : Int :=
  if is10bit = true then
    if frame.color_trc = AVCOL_TRC_SMPTE2084 then HDMI_EOTF_SMPTE_ST2084
    else if frame.color_trc = AVCOL_TRC_ARIB_STD_B67 ∨ frame.color_trc = AVCOL_TRC_BT2020_10 then
      HDMI_EOTF_BT_2100_HLG
    else HDMI_EOTF_TRADITIONAL_GAMMA_SDR
  else HDMI_EOTF_TRADITIONAL_GAMMA_SDR

/-- The method `CVideoLayerBridgeRockchip::Configure` of
`VideoLayerBridgeRockchip.cpp`, for the descriptor and the frame of the
buffer. -/
def Configure (s : CVideoLayerBridgeRockchip) (descriptor : AVDRMFrameDescriptor)
    (frame : AVFrame) (k : BlobOutcome) : CVideoLayerBridgeRockchip :=
  let layer := descriptor.layers.getD 0 default
  let is10bit : Bool := decide (layer.format = DRM_FORMAT_NV12_10)
  let s1 := s.renewBlob (GetEOTF is10bit frame) k
  let s2 := s1.AddProperty DrmObject.videoPlane "COLOR_SPACE" (GetColorSpace is10bit frame)
  let s3 := s2.AddProperty DrmObject.videoPlane "EOTF" s1.m_hdr_metadata_eotf
  let s4 :=
    if s3.supportsHdrSourceMetadata = true then
      s3.AddProperty DrmObject.connector "HDR_SOURCE_METADATA" s1.m_hdr_blob_id
    else s3
  let s5 := s4.AddProperty DrmObject.connector "hdmi_output_depth" (if is10bit then 10 else 8)
  let s6 := s5.AddProperty DrmObject.connector "hdmi_output_colorimetry"
    (if is10bit then RK_HDMI_COLORIMETRY_BT2020 else 0)
  { s6 with active := true }

/-- The method `CVideoLayerBridgeRockchip::Disable` of
`VideoLayerBridgeRockchip.cpp`. -/
def Disable (s : CVideoLayerBridgeRockchip) : CVideoLayerBridgeRockchip :=
  let s0 := s.baseDisable
  let s1 := s0.AddProperty DrmObject.videoPlane "COLOR_SPACE" V4L2_COLORSPACE_DEFAULT
  let s2 := s1.AddProperty DrmObject.videoPlane "EOTF" HDMI_EOTF_TRADITIONAL_GAMMA_SDR
  let s3 :=
    if s2.supportsHdrSourceMetadata = true then
      s2.AddProperty DrmObject.connector "HDR_SOURCE_METADATA" 0
    else s2
  let s4 := s3.AddProperty DrmObject.connector "hdmi_output_depth" 8
  let s5 := s4.AddProperty DrmObject.connector "hdmi_output_colorimetry" 0
  ({ s5 with active := true }).dropBlob

end VideoLayerBridgeRockchip

namespace RendererDRMPRIME

/-- The function `GetColorSpace` of `RendererDRMPRIME.cpp`. -/
def GetColorSpace (is10bit : Bool) (frame : AVFrame) : Int :=
  if is10bit = true ∧ frame.color_primaries ≠ AVCOL_PRI_BT709 then V4L2_COLORSPACE_BT2020
  else if frame.color_primaries = AVCOL_PRI_SMPTE170M then V4L2_COLORSPACE_SMPTE170M
  else V4L2_COLORSPACE_REC709

/-- The function `GetEOTF` of `RendererDRMPRIME.cpp`. -/
def GetEOTF (is10bit : Bool) (frame : AVFrame) : Int :=
  if is10bit = true then
    if frame.color_trc = AVCOL_TRC_SMPTE2084 then HDMI_EOTF_SMPTE_ST2084
    else if frame.color_trc = AVCOL_TRC_ARIB_STD_B67 ∨ frame.color_trc = AVCOL_TRC_BT2020_10 then
      HDMI_EOTF_BT_2100_HLG
    else HDMI_EOTF_TRADITIONAL_GAMMA_SDR
  else HDMI_EOTF_TRADITIONAL_GAMMA_SDR

/-- The method `CVideoLayerBridgeRockchip::Configure` of `RendererDRMPRIME.cpp`,
for what `GetDescriptor()` returns, `none` for a null pointer, and the frame
of the buffer. -/
def RockchipConfigure (s : CVideoLayerBridgeRockchip) (descriptor : Option AVDRMFrameDescriptor)
    (frame : AVFrame) (k : BlobOutcome) : CVideoLayerBridgeRockchip :=
  match descriptor with
  | none => s
  | some d =>
    if d.nb_layers = 0 then s
    else
      let layer := d.layers.getD 0 default
      let is10bit : Bool := decide (layer.format = DRM_FORMAT_NV12_10)
      let s1 := s.renewBlob (GetEOTF is10bit frame) k
      let s2 := s1.AddProperty DrmObject.primaryPlane "COLOR_SPACE"
        (GetColorSpace is10bit frame)
      let s3 := s2.AddProperty DrmObject.primaryPlane "EOTF" s1.m_hdr_metadata_eotf
      let s4 := s3.AddProperty DrmObject.connector "HDR_SOURCE_METADATA" s1.m_hdr_blob_id
      let s5 := s4.AddProperty DrmObject.connector "hdmi_output_depth"
        (if is10bit then 10 else 8)
      let s6 := s5.AddProperty DrmObject.connector "hdmi_output_format" HDMI_OUTPUT_YCBCR_HQ
      let s7 := s6.AddProperty DrmObject.connector "hdmi_output_colorimetry"
        (if is10bit then RK_HDMI_COLORIMETRY_BT2020 else 0)
      { s7 with active := true }

/-- The method `CVideoLayerBridgeRockchip::Disable` of `RendererDRMPRIME.cpp`. -/
def RockchipDisable (s : CVideoLayerBridgeRockchip) : CVideoLayerBridgeRockchip :=
  let s0 := s.baseDisable
  let s1 := s0.AddProperty DrmObject.primaryPlane "COLOR_SPACE" V4L2_COLORSPACE_DEFAULT
  let s2 := s1.AddProperty DrmObject.primaryPlane "EOTF" HDMI_EOTF_TRADITIONAL_GAMMA_SDR
  let s3 := s2.AddProperty DrmObject.connector "HDR_SOURCE_METADATA" 0
  let s4 := s3.AddProperty DrmObject.connector "hdmi_output_depth" 8
  let s5 := s4.AddProperty DrmObject.connector "hdmi_output_format" HDMI_OUTPUT_DEFAULT_RGB
  let s6 := s5.AddProperty DrmObject.connector "hdmi_output_colorimetry" 0
  ({ s6 with active := true }).dropBlob

end RendererDRMPRIME

/-- A call on a Rockchip bridge, in either variant of the two methods. -/
inductive RockchipCall where
  | configure (descriptor : AVDRMFrameDescriptor) (frame : AVFrame) (k : BlobOutcome)
  | disable
  deriving DecidableEq, Repr

/-- One call applied, in the variant of `VideoLayerBridgeRockchip.cpp`. -/
def RockchipCall.apply (s : CVideoLayerBridgeRockchip) : RockchipCall → CVideoLayerBridgeRockchip
  | .configure d frame k => VideoLayerBridgeRockchip.Configure s d frame k
  | .disable => VideoLayerBridgeRockchip.Disable s

/-- One call applied, in the variant of `RendererDRMPRIME.cpp`. -/
def RockchipCall.applyInline (s : CVideoLayerBridgeRockchip) :
    RockchipCall → CVideoLayerBridgeRockchip
  | .configure d frame k => RendererDRMPRIME.RockchipConfigure s (some d) frame k
  | .disable => RendererDRMPRIME.RockchipDisable s

/-- The blobs alive after a trace of blob calls, as a count: the successful
creations minus the destructions. -/
def liveBlobs : List BlobCall → Int
  | [] => 0
  | .create ret _ :: cs => (if ret = 0 then 1 else 0) + liveBlobs cs
  | .destroy _ :: cs => liveBlobs cs - 1

/-- A successful creation returned a blob id other than zero, as the kernel's
object ids are. -/
def RockchipCall.saneIds : RockchipCall → Prop
  | .configure _ _ k => k.ret = 0 → k.id ≠ 0
  | .disable => True

/-- A 10-bit descriptor: one layer of format `DRM_FORMAT_NV12_10`. -/
def descriptor10bit : AVDRMFrameDescriptor :=
  { nb_objects := 1, objects := [{ fd := 5 }], nb_layers := 1,
    layers := [{ format := DRM_FORMAT_NV12_10, nb_planes := 2 }] }

/-- A frame with the BT.2020 primaries and the SMPTE ST 2084 transfer
characteristic of HDR10. -/
def frameHDR10 : AVFrame := { color_primaries := 9, color_trc := AVCOL_TRC_SMPTE2084 }

/-- A successful `drmModeCreatePropertyBlob` that stored the blob id 42. -/
def blobCreated : BlobOutcome := { ret := 0, id := 42 }

/-- The calls `Configure` for an HDR10 buffer, then `Disable`. -/
def callsConfigureDisable : List RockchipCall :=
  [.configure descriptor10bit frameHDR10 blobCreated, .disable]

/-! ## Theorems: the buffer pool -/

namespace VideoBufferMemfd

/-- Writing back the element already stored at a position changes nothing. -/
theorem list_set_same {α : Type} (l : List α) (i : Nat) (a : α) (h : l[i]? = some a) :
    l.set i a = l := by
  induction l generalizing i with
  | nil => simp
  | cons x xs ih =>
    cases i with
    | zero => simp at h; simp [h]
    | succ n => simp at h; simp [ih n h]

/-- Erasing the first `a` does not touch the entries different from `a`. -/
theorem filter_ne_erase (l : List Int) (a : Int) :
    (l.erase a).filter (fun j => decide (j ≠ a)) = l.filter (fun j => decide (j ≠ a)) := by
  induction l with
  | nil => simp
  | cons x xs ih =>
    by_cases hx : x = a
    · subst hx; simp
    · rw [List.erase_cons_tail (by simpa using hx)]
      simp only [List.filter_cons, hx, ne_eq, not_false_eq_true, decide_True, if_true]
      rw [ih]

/-- On an identifier of a created buffer `Return` is defined, and it erases the
first occurrence from `m_used` and pushes the identifier onto `m_free`. -/
theorem Return_eq (p : CVideoBufferPoolMemfd) (id : Int)
    (h0 : 0 ≤ id) (h1 : id < (p.m_all.length : Int)) :
    p.Return id = some { p with m_used := p.m_used.erase id, m_free := p.m_free ++ [id] } := by
  have hlt : id.toNat < p.m_all.length := by omega
  unfold CVideoBufferPoolMemfd.Return
  rw [if_pos h0, List.getElem?_eq_getElem hlt]
  simp only [CVideoBufferMemfd.Unref]
  rw [list_set_same _ _ _ (List.getElem?_eq_getElem hlt)]

/-- The method `Return` is defined only on identifiers of created buffers. -/
theorem Return_defined (p q : CVideoBufferPoolMemfd) (id : Int) (h : p.Return id = some q) :
    0 ≤ id ∧ id < (p.m_all.length : Int) := by
  unfold CVideoBufferPoolMemfd.Return at h
  by_cases h0 : 0 ≤ id
  · rw [if_pos h0] at h
    refine ⟨h0, ?_⟩
    by_contra hge
    have : p.m_all.length ≤ id.toNat := by omega
    rw [List.getElem?_eq_none this] at h
    simp at h
  · rw [if_neg h0] at h
    simp at h

/-- With an empty free list `Get` creates the next buffer. -/
theorem Get_nil (p : CVideoBufferPoolMemfd) (r : Int) (h : p.m_free = []) :
    p.Get r = some (p.m_all.length,
      { m_all := p.m_all ++
          [(CVideoBufferMemfd.new p.m_all.length (if p.m_fd = -1 then r else p.m_fd)).Acquire]
        m_used := p.m_used ++ [(p.m_all.length : Int)]
        m_free := []
        m_fd := if p.m_fd = -1 then r else p.m_fd }) := by
  unfold CVideoBufferPoolMemfd.Get
  rw [h]

/-- With a free identifier of a created buffer at the front `Get` reuses it. -/
theorem Get_cons (p : CVideoBufferPoolMemfd) (r : Int) (idx : Int) (rest : List Int)
    (buf : CVideoBufferMemfd) (h : p.m_free = idx :: rest) (h0 : 0 ≤ idx)
    (hb : p.m_all[idx.toNat]? = some buf) :
    p.Get r = some (idx.toNat,
      { p with m_free := rest
               m_used := p.m_used ++ [idx]
               m_all := p.m_all.set idx.toNat buf.Acquire }) := by
  unfold CVideoBufferPoolMemfd.Get
  rw [h]
  simp only [if_pos h0, hb]

/-- An identifier that occurs in one of the two lists of a pool satisfying the
invariant is the identifier of a created buffer. -/
theorem poolInv_in_range {p : CVideoBufferPoolMemfd} (hp : PoolInv p) (id : Int)
    (h : id ∈ p.m_used ++ p.m_free) : 0 ≤ id ∧ id < (p.m_all.length : Int) := by
  have hc := hp id
  have hpos : 0 < (p.m_used ++ p.m_free).count id := List.count_pos_iff.mpr h
  by_contra hn
  rw [if_neg hn] at hc
  omega

/-- The invariant survives `Get`, which is defined on every pool satisfying it. -/
theorem poolInv_Get {p : CVideoBufferPoolMemfd} (hp : PoolInv p) (r : Int) :
    ∃ i q, p.Get r = some (i, q) ∧ PoolInv q := by
  cases hf : p.m_free with
  | nil =>
    refine ⟨_, _, Get_nil p r hf, ?_⟩
    intro id
    have hc := hp id
    simp only [hf, List.append_nil] at hc
    simp only [List.append_nil, List.count_append, List.length_append, List.length_singleton,
      List.count_singleton, hc]
    by_cases hid : id = (p.m_all.length : Int)
    · subst hid
      simp
    · have : ((p.m_all.length : Int) == id) = false := by
        simpa using fun h => hid h.symm
      simp only [this]
      push_cast
      split_ifs <;> omega
  | cons idx rest =>
    have hr := poolInv_in_range hp idx (by simp [hf])
    have hlt : idx.toNat < p.m_all.length := by omega
    refine ⟨_, _, Get_cons p r idx rest _ hf hr.1 (List.getElem?_eq_getElem hlt), ?_⟩
    intro id
    have hc := hp id
    simp only [hf] at hc
    simp only [List.length_set, List.append_assoc, List.singleton_append]
    exact hc

/-- The invariant survives `Return(id)` for an `id` in the used list, and the
call is defined. -/
theorem poolInv_Return {p : CVideoBufferPoolMemfd} (hp : PoolInv p) {id : Int}
    (hid : id ∈ p.m_used) : ∃ q, p.Return id = some q ∧ PoolInv q := by
  have hr := poolInv_in_range hp id (by simp [hid])
  refine ⟨_, Return_eq p id hr.1 hr.2, ?_⟩
  intro j
  have hc := hp j
  simp only [List.count_append, List.count_singleton] at hc ⊢
  rw [← hc]
  by_cases hj : j = id
  · subst hj
    have hpos : 0 < p.m_used.count j := List.count_pos_iff.mpr hid
    simp only [List.count_erase_self, beq_self_eq_true, if_true]
    omega
  · have : (id == j) = false := by simpa using fun h => hj h.symm
    simp [List.count_erase_of_ne hj, this]

/-- The invariant holds after every call of a sequence whose returns are all of
used identifiers, and every call of such a sequence is defined. -/
theorem poolInv_poolStates {p : CVideoBufferPoolMemfd} (hp : PoolInv p)
    (calls : List PoolCall) (h : returnsUsed p calls) :
    (poolStates p calls).length = calls.length ∧ ∀ q ∈ poolStates p calls, PoolInv q := by
  induction calls generalizing p with
  | nil => simp [VideoBufferMemfd.poolStates]
  | cons c cs ih =>
    obtain ⟨hc, hrest⟩ := h
    have hstep : ∃ q, c.apply p = some q ∧ PoolInv q := by
      cases c with
      | get r =>
        obtain ⟨i, q, hq, hinv⟩ := poolInv_Get hp r
        exact ⟨q, by simp [PoolCall.apply, hq], hinv⟩
      | ret id => exact poolInv_Return hp hc
    obtain ⟨q, hq, hinv⟩ := hstep
    rw [hq] at hrest
    obtain ⟨hlen, hall⟩ := ih hinv hrest
    simp only [VideoBufferMemfd.poolStates, hq, List.length_cons, hlen, List.mem_cons,
      true_and]
    rintro q1 (rfl | hmem)
    · exact hinv
    · exact hall q1 hmem

/-- The fresh pool is well formed. -/
theorem poolWF_empty : PoolWF CVideoBufferPoolMemfd.empty := by
  constructor
  · intro i b h
    simp [CVideoBufferPoolMemfd.empty] at h
  · intro id h
    simp [CVideoBufferPoolMemfd.empty] at h

/-- Every defined call keeps the pool well formed, whatever identifier is returned. -/
theorem poolWF_apply {p q : CVideoBufferPoolMemfd} (hp : PoolWF p) (c : PoolCall)
    (h : c.apply p = some q) : PoolWF q := by
  obtain ⟨hid, hfree⟩ := hp
  cases c with
  | ret id =>
    have hr := Return_defined p q id h
    have hq := Return_eq p id hr.1 hr.2
    rw [show PoolCall.apply p (.ret id) = p.Return id from rfl] at h
    rw [hq] at h
    cases h
    refine ⟨hid, ?_⟩
    intro j hj
    simp only [List.mem_append, List.mem_singleton] at hj
    rcases hj with hj | rfl
    · exact hfree j hj
    · exact hr
  | get r =>
    rw [show PoolCall.apply p (.get r) = (p.Get r).map Prod.snd from rfl] at h
    cases hf : p.m_free with
    | nil =>
      rw [Get_nil p r hf] at h
      cases h
      refine ⟨?_, by simp⟩
      intro i b hb
      by_cases hi : i < p.m_all.length
      · rw [List.getElem?_append_left hi] at hb
        exact hid i b hb
      · have hge : p.m_all.length ≤ i := by omega
        rw [List.getElem?_append_right hge] at hb
        have h0 : i - p.m_all.length = 0 := by
          by_contra hne
          rw [List.getElem?_eq_none (by simp; omega)] at hb
          cases hb
        rw [h0] at hb
        simp only [List.getElem?_cons_zero, Option.some.injEq] at hb
        subst hb
        simp only [CVideoBufferMemfd.Acquire, CVideoBufferMemfd.new]
        congr 1
        omega
    | cons idx rest =>
      have hr := hfree idx (by simp [hf])
      have hlt : idx.toNat < p.m_all.length := by omega
      rw [Get_cons p r idx rest _ hf hr.1 (List.getElem?_eq_getElem hlt)] at h
      cases h
      constructor
      · intro i b hb
        simp only [List.getElem?_set] at hb
        by_cases hi : idx.toNat = i
        · rw [if_pos hi, if_pos hlt] at hb
          cases hb
          simp only [CVideoBufferMemfd.Acquire]
          exact hid i _ (by rw [← hi]; exact List.getElem?_eq_getElem hlt)
        · rw [if_neg hi] at hb
          exact hid i b hb
      · intro j hj
        simp only [List.length_set]
        exact hfree j (by simp [hf, hj])

/-- Every state a sequence of calls reaches from a well-formed pool is well formed. -/
theorem poolWF_poolStates {p : CVideoBufferPoolMemfd} (hp : PoolWF p)
    (calls : List PoolCall) : ∀ q ∈ poolStates p calls, PoolWF q := by
  induction calls generalizing p with
  | nil => simp [VideoBufferMemfd.poolStates]
  | cons c cs ih =>
    intro q hq
    cases hc : c.apply p with
    | none => simp [VideoBufferMemfd.poolStates, hc] at hq
    | some q1 =>
      simp only [VideoBufferMemfd.poolStates, hc, List.mem_cons] at hq
      rcases hq with rfl | hq
      · exact poolWF_apply hp c hc
      · exact ih (poolWF_apply hp c hc) q hq

/-- C1, as stated, fails: after `Get(); Return(0); Return(0)` on a fresh pool
the identifier 0 stands twice in the free list, so it does not occur exactly
once in the two lists. -/
theorem pool_invariant_counterexample :
    poolStates CVideoBufferPoolMemfd.empty [.get 3, .ret 0, .ret 0]
        = [poolGot, poolReturned, poolReturnedTwice] ∧
      (poolReturnedTwice.m_used ++ poolReturnedTwice.m_free).count 0 = 2 ∧
      poolReturnedTwice.m_all.length = 1 ∧
      ¬ PoolInv poolReturnedTwice := by
  refine ⟨by decide, by decide, by decide, ?_⟩
  intro h
  have h0 := h 0
  revert h0
  decide

/-- C1, amended: for every sequence of `Get()` and `Return(id)` calls on a fresh
pool in which each `Return(id)` is made while `id` is in the used list, every
call is defined and after each call every identifier in `[0, m_all.size())`
occurs exactly once in the used and free lists together, and no other
identifier occurs in either list. -/
theorem pool_invariant (calls : List PoolCall)
    (h : returnsUsed CVideoBufferPoolMemfd.empty calls) :
    (poolStates CVideoBufferPoolMemfd.empty calls).length = calls.length ∧
      ∀ q ∈ poolStates CVideoBufferPoolMemfd.empty calls,
        ∀ id : Int, (q.m_used ++ q.m_free).count id =
          if 0 ≤ id ∧ id < (q.m_all.length : Int) then 1 else 0 := by
  have h0 : PoolInv CVideoBufferPoolMemfd.empty := by
    intro id
    simp only [CVideoBufferPoolMemfd.empty, List.append_nil, List.count_nil, List.length_nil]
    rw [if_neg]
    push_cast
    omega
  exact poolInv_poolStates h0 calls h

/-- C1, amended, at the calls `Get, Get, Return(0), Get, Return(1)` on a fresh pool. -/
theorem pool_invariant_witness :
    returnsUsed CVideoBufferPoolMemfd.empty [.get 3, .get 3, .ret 0, .get 3, .ret 1] ∧
    ((poolStates CVideoBufferPoolMemfd.empty
        [.get 3, .get 3, .ret 0, .get 3, .ret 1]).length = 5 ∧
      ∀ q ∈ poolStates CVideoBufferPoolMemfd.empty [.get 3, .get 3, .ret 0, .get 3, .ret 1],
        ∀ id : Int, (q.m_used ++ q.m_free).count id =
          if 0 ≤ id ∧ id < (q.m_all.length : Int) then 1 else 0) :=
  have h : returnsUsed CVideoBufferPoolMemfd.empty
      [.get 3, .get 3, .ret 0, .get 3, .ret 1] := by
    simp [returnsUsed, PoolCall.apply, CVideoBufferPoolMemfd.Get, CVideoBufferPoolMemfd.Return,
      CVideoBufferPoolMemfd.empty, CVideoBufferMemfd.Unref]
  ⟨h, pool_invariant _ h⟩

/-- C2, as stated, fails: in the pool reached by `Get(); Return(0)` the
identifier 0 is not in the used list, yet `Return(0)` changes the free list
from `[0]` to `[0, 0]`. -/
theorem Return_not_used_counterexample :
    poolStates CVideoBufferPoolMemfd.empty [.get 3, .ret 0] = [poolGot, poolReturned] ∧
      (0 : Int) ∉ poolReturned.m_used ∧
      poolReturned.Return 0 = some poolReturnedTwice ∧
      poolReturned.m_free = [0] ∧
      poolReturnedTwice.m_free = [0, 0] ∧
      poolReturnedTwice.m_free ≠ poolReturned.m_free := by
  decide

/-- C2, amended: for every pool state and every identifier of a created buffer
that is not in the used list, `Return(id)` leaves the used list, the
all-buffers list and the export-context fd as they were and appends `id` to
the free list; the call is not a no-op on the free list. -/
theorem Return_not_used (p : CVideoBufferPoolMemfd) (id : Int)
    (h0 : 0 ≤ id) (h1 : id < (p.m_all.length : Int)) (hn : id ∉ p.m_used) :
    ∃ q, p.Return id = some q ∧ q.m_used = p.m_used ∧ q.m_free = p.m_free ++ [id] ∧
      q.m_all = p.m_all ∧ q.m_fd = p.m_fd ∧ q.m_free ≠ p.m_free := by
  refine ⟨_, Return_eq p id h0 h1, ?_, rfl, rfl, rfl, ?_⟩
  · exact List.erase_of_not_mem hn
  · intro h
    have := congrArg List.length h
    simp at this

/-- C2, amended, at the pool reached by `Get(); Return(0)` and the identifier 0. -/
theorem Return_not_used_witness :
    (0 : Int) ≤ 0 ∧ (0 : Int) < (poolReturned.m_all.length : Int) ∧
    (0 : Int) ∉ poolReturned.m_used ∧
    ∃ q, poolReturned.Return 0 = some q ∧ q.m_used = poolReturned.m_used ∧
      q.m_free = poolReturned.m_free ++ [0] ∧ q.m_all = poolReturned.m_all ∧
      q.m_fd = poolReturned.m_fd ∧ q.m_free ≠ poolReturned.m_free :=
  ⟨by decide, by decide, by decide,
    Return_not_used poolReturned 0 (by decide) (by decide) (by decide)⟩

/-- C3: on a well-formed pool `Get()` is defined. If the free list is not
empty, it returns the buffer at the position named by the front of the free
list, whose identifier is that front; the front leaves the free list and is
appended to the used list, the returned buffer's reference count goes up by
one, every other buffer is untouched and no buffer is created. If the free
list is empty, one buffer is appended to the all-buffers list, its identifier
is the number of buffers created before, it is the returned buffer and its
identifier is appended to the used list. Either way the identifier of the
returned buffer is in the used list afterwards. -/
theorem Get_spec (p : CVideoBufferPoolMemfd) (r : Int) (hp : PoolWF p) :
    ∃ i q buf, p.Get r = some (i, q) ∧ q.m_all[i]? = some buf ∧ buf.m_id ∈ q.m_used ∧
      (∀ idx rest, p.m_free = idx :: rest →
        buf.m_id = idx ∧ (i : Int) = idx ∧ q.m_free = rest ∧ q.m_used = p.m_used ++ [idx] ∧
        q.m_all.length = p.m_all.length ∧
        (∃ old, p.m_all[i]? = some old ∧ buf = { old with m_refCount := old.m_refCount + 1 }) ∧
        (∀ j, j ≠ i → q.m_all[j]? = p.m_all[j]?) ∧ q.m_fd = p.m_fd) ∧
      (p.m_free = [] →
        i = p.m_all.length ∧ q.m_all = p.m_all ++ [buf] ∧
        buf.m_id = (p.m_all.length : Int) ∧
        q.m_used = p.m_used ++ [(p.m_all.length : Int)] ∧ q.m_free = []) := by
  cases hf : p.m_free with
  | nil =>
    refine ⟨_, _,
      (CVideoBufferMemfd.new p.m_all.length (if p.m_fd = -1 then r else p.m_fd)).Acquire,
      Get_nil p r hf, ?_, ?_, ?_, ?_⟩
    · simp
    · simp [CVideoBufferMemfd.Acquire, CVideoBufferMemfd.new]
    · intro idx rest h
      cases h
    · intro _
      simp [CVideoBufferMemfd.Acquire, CVideoBufferMemfd.new]
  | cons idx rest =>
    have hr := hp.2 idx (by simp [hf])
    have hlt : idx.toNat < p.m_all.length := by omega
    have hget := List.getElem?_eq_getElem hlt
    have hidx : (p.m_all[idx.toNat]).m_id = idx := by
      rw [hp.1 idx.toNat _ hget]
      omega
    refine ⟨_, _, (p.m_all[idx.toNat]).Acquire, Get_cons p r idx rest _ hf hr.1 hget,
      ?_, ?_, ?_, ?_⟩
    · simp [List.getElem?_set, hlt]
    · simp [CVideoBufferMemfd.Acquire, hidx]
    · intro idx1 rest1 h
      cases h
      refine ⟨by simp [CVideoBufferMemfd.Acquire, hidx], by omega, rfl, rfl, by simp,
        ⟨_, hget, rfl⟩, ?_, rfl⟩
      intro j hj
      simp [List.getElem?_set, Ne.symm hj]
    · intro h
      cases h

/-- C3 at the pool reached by `Get(); Return(0)`, whose free list is `[0]`. -/
theorem Get_spec_witness :
    PoolWF poolReturned ∧
    ∃ i q buf, poolReturned.Get 5 = some (i, q) ∧ q.m_all[i]? = some buf ∧
      buf.m_id ∈ q.m_used ∧
      (∀ idx rest, poolReturned.m_free = idx :: rest →
        buf.m_id = idx ∧ (i : Int) = idx ∧ q.m_free = rest ∧
        q.m_used = poolReturned.m_used ++ [idx] ∧
        q.m_all.length = poolReturned.m_all.length ∧
        (∃ old, poolReturned.m_all[i]? = some old ∧
          buf = { old with m_refCount := old.m_refCount + 1 }) ∧
        (∀ j, j ≠ i → q.m_all[j]? = poolReturned.m_all[j]?) ∧ q.m_fd = poolReturned.m_fd) ∧
      (poolReturned.m_free = [] →
        i = poolReturned.m_all.length ∧ q.m_all = poolReturned.m_all ++ [buf] ∧
        buf.m_id = (poolReturned.m_all.length : Int) ∧
        q.m_used = poolReturned.m_used ++ [(poolReturned.m_all.length : Int)] ∧
        q.m_free = []) :=
  have h : PoolWF poolReturned :=
    poolWF_poolStates poolWF_empty [.get 3, .ret 0] poolReturned (by decide)
  ⟨h, Get_spec poolReturned 5 h⟩

/-- C4: when `id` is in the used list and names a created buffer, `Return(id)`
is defined, takes one occurrence of `id` out of the used list (the only one
when the pool invariant holds) and appends `id` to the free list; the other
identifiers keep their membership and order in both lists; the all-buffers
list, hence every buffer's width, height, size, mapped address, memory fd and
DMA-buffer fd, and the export-context fd are unchanged. -/
theorem Return_spec (p : CVideoBufferPoolMemfd) (id : Int)
    (h0 : 0 ≤ id) (h1 : id < (p.m_all.length : Int)) (hid : id ∈ p.m_used) :
    ∃ q, p.Return id = some q ∧
      q.m_used = p.m_used.erase id ∧ q.m_used.count id + 1 = p.m_used.count id ∧
      (p.m_used.count id = 1 → id ∉ q.m_used) ∧
      q.m_free = p.m_free ++ [id] ∧
      q.m_used.filter (fun j => decide (j ≠ id)) = p.m_used.filter (fun j => decide (j ≠ id)) ∧
      q.m_free.filter (fun j => decide (j ≠ id)) = p.m_free.filter (fun j => decide (j ≠ id)) ∧
      (∀ j, j ≠ id → (j ∈ q.m_used ↔ j ∈ p.m_used) ∧ (j ∈ q.m_free ↔ j ∈ p.m_free)) ∧
      q.m_all = p.m_all ∧ q.m_fd = p.m_fd := by
  have hpos : 0 < p.m_used.count id := List.count_pos_iff.mpr hid
  refine ⟨_, Return_eq p id h0 h1, rfl, ?_, ?_, rfl, ?_, ?_, ?_, rfl, rfl⟩
  · simp only [List.count_erase_self]
    omega
  · intro h1 hmem
    have : 0 < (p.m_used.erase id).count id := List.count_pos_iff.mpr hmem
    simp only [List.count_erase_self] at this
    omega
  · exact filter_ne_erase p.m_used id
  · simp [List.filter_append]
  · intro j hj
    constructor
    · exact List.mem_erase_of_ne hj
    · simp [hj]

/-- C4 at the pool reached by one `Get()` and the identifier 0. -/
theorem Return_spec_witness :
    (0 : Int) ≤ 0 ∧ (0 : Int) < (poolGot.m_all.length : Int) ∧ (0 : Int) ∈ poolGot.m_used ∧
    ∃ q, poolGot.Return 0 = some q ∧
      q.m_used = poolGot.m_used.erase 0 ∧ q.m_used.count 0 + 1 = poolGot.m_used.count 0 ∧
      (poolGot.m_used.count 0 = 1 → (0 : Int) ∉ q.m_used) ∧
      q.m_free = poolGot.m_free ++ [0] ∧
      q.m_used.filter (fun j => decide (j ≠ 0))
        = poolGot.m_used.filter (fun j => decide (j ≠ 0)) ∧
      q.m_free.filter (fun j => decide (j ≠ 0))
        = poolGot.m_free.filter (fun j => decide (j ≠ 0)) ∧
      (∀ j, j ≠ 0 → (j ∈ q.m_used ↔ j ∈ poolGot.m_used) ∧
        (j ∈ q.m_free ↔ j ∈ poolGot.m_free)) ∧
      q.m_all = poolGot.m_all ∧ q.m_fd = poolGot.m_fd :=
  ⟨by decide, by decide, by decide,
    Return_spec poolGot 0 (by decide) (by decide) (by decide)⟩

end VideoBufferMemfd

/-! ## Theorems: the layer bridge -/

namespace RendererDRMPRIME

namespace CVideoLayerBridgeDRMPRIME

/-- Reading an array entry after a write to the array. -/
theorem getD_set_zero (l : List Nat) (i j : Nat) :
    (l.set i 0).getD j 0 = if i = j then 0 else l.getD j 0 := by
  simp only [List.getD_eq_getElem?_getD, List.getElem?_set]
  by_cases h : i = j
  · subst h
    by_cases hl : i < l.length <;> simp [hl]
  · simp [h]

/-- The loop of `Unmap` keeps the length of `m_handles`, leaves zero entries
zero, clears the entries it visits, and makes only `DRM_IOCTL_GEM_CLOSE` calls. -/
theorem closeHandle_foldl (is : List Nat) (acc : List Nat × List Event) :
    (is.foldl closeHandle acc).1.length = acc.1.length ∧
    (∀ j, acc.1.getD j 0 = 0 → (is.foldl closeHandle acc).1.getD j 0 = 0) ∧
    (∀ j, j ∈ is → (is.foldl closeHandle acc).1.getD j 0 = 0) ∧
    ∃ evs, (is.foldl closeHandle acc).2 = acc.2 ++ evs ∧
      ∀ e ∈ evs, ∃ h, e = Event.gemClose h := by
  induction is generalizing acc with
  | nil =>
    refine ⟨rfl, fun _ h => h, ?_, [], ?_, ?_⟩
    · intro j hj
      cases hj
    · simp
    · intro e he
      cases he
  | cons i is ih =>
    obtain ⟨hlen, hzero, hvis, evs, hevs, hall⟩ := ih (closeHandle acc i)
    have hstep_len : (closeHandle acc i).1.length = acc.1.length := by
      unfold closeHandle
      split_ifs <;> simp
    have hstep_zero : ∀ j, acc.1.getD j 0 = 0 → (closeHandle acc i).1.getD j 0 = 0 := by
      intro j hj
      unfold closeHandle
      split_ifs
      · show (acc.1.set i 0).getD j 0 = 0
        rw [getD_set_zero]
        split_ifs
        · rfl
        · exact hj
      · exact hj
    have hstep_i : (closeHandle acc i).1.getD i 0 = 0 := by
      unfold closeHandle
      split_ifs with h
      · show (acc.1.set i 0).getD i 0 = 0
        rw [getD_set_zero, if_pos rfl]
      · exact not_not.mp h
    have hstep_ev : ∃ ev1, (closeHandle acc i).2 = acc.2 ++ ev1 ∧
        ∀ e ∈ ev1, ∃ h, e = Event.gemClose h := by
      unfold closeHandle
      split_ifs
      · exact ⟨[Event.gemClose (acc.1.getD i 0)], rfl, by simp⟩
      · exact ⟨[], by simp, by simp⟩
    obtain ⟨ev1, hev1, hall1⟩ := hstep_ev
    refine ⟨by simp only [List.foldl_cons]; omega, ?_, ?_, ev1 ++ evs, ?_, ?_⟩
    · intro j hj
      exact hzero j (hstep_zero j hj)
    · intro j hj
      simp only [List.mem_cons] at hj
      rcases hj with rfl | hj
      · exact hzero _ hstep_i
      · exact hvis j hj
    · simp only [List.foldl_cons, hevs, hev1, List.append_assoc]
    · intro e he
      simp only [List.mem_append] at he
      rcases he with he | he
      · exact hall1 e he
      · exact hall e he

/-- What `Unmap(b)` does: it touches no slot and no property, no buffer other
than `b`, and of `b` only `m_fb_id` and `m_handles`, which end up zero; its
calls are `drmModeRmFB` and `DRM_IOCTL_GEM_CLOSE` only. -/
theorem Unmap_spec (s : CVideoLayerBridgeDRMPRIME) (b : BufPtr) :
    (s.Unmap b).m_buffer = s.m_buffer ∧ (s.Unmap b).m_prev_buffer = s.m_prev_buffer ∧
    (s.Unmap b).props = s.props ∧ (s.Unmap b).crtc_id = s.crtc_id ∧
    (∀ q, q ≠ b → (s.Unmap b).store q = s.store q) ∧
    ((s.Unmap b).store b).m_fb_id = 0 ∧
    (∀ i, i < AV_DRM_MAX_PLANES → ((s.Unmap b).store b).m_handles.getD i 0 = 0) ∧
    ((s.Unmap b).store b).m_handles.length = (s.store b).m_handles.length ∧
    ((s.Unmap b).store b).m_refCount = (s.store b).m_refCount ∧
    ((s.Unmap b).store b).descriptor = (s.store b).descriptor ∧
    ∃ evs, (s.Unmap b).trace = s.trace ++ evs ∧
      ∀ e ∈ evs, (∃ f, e = Event.drmModeRmFB f) ∨ ∃ h, e = Event.gemClose h := by
  by_cases hfb : (s.store b).m_fb_id ≠ 0
  · obtain ⟨hlen, -, hvis, evs, hevs, hall⟩ := closeHandle_foldl
      (List.range AV_DRM_MAX_PLANES) ((s.store b).m_handles, [])
    have hst : (s.Unmap b).store = Function.update s.store b
        { s.store b with
          m_fb_id := 0
          m_handles := ((List.range AV_DRM_MAX_PLANES).foldl closeHandle
            ((s.store b).m_handles, [])).1 } := by
      simp [Unmap, if_pos hfb, setBuffer, emit]
    have htr : (s.Unmap b).trace = s.trace ++ (Event.drmModeRmFB (s.store b).m_fb_id :: evs) := by
      simp [Unmap, if_pos hfb, setBuffer, emit, hevs]
    refine ⟨?_, ?_, ?_, ?_, ?_, ?_, ?_, ?_, ?_, ?_, _, htr, ?_⟩
    · simp [Unmap, setBuffer, emit, hfb]
    · simp [Unmap, setBuffer, emit, hfb]
    · simp [Unmap, setBuffer, emit, hfb]
    · simp [Unmap, setBuffer, emit, hfb]
    · intro q hq
      rw [hst, Function.update_noteq hq]
    · rw [hst, Function.update_same]
    · intro i hi
      rw [hst, Function.update_same]
      exact hvis i (List.mem_range.mpr hi)
    · rw [hst, Function.update_same]
      exact hlen
    · rw [hst, Function.update_same]
    · rw [hst, Function.update_same]
    · intro e he
      simp only [List.mem_cons] at he
      rcases he with rfl | he
      · exact Or.inl ⟨_, rfl⟩
      · exact Or.inr (hall e he)
  · obtain ⟨hlen, -, hvis, evs, hevs, hall⟩ := closeHandle_foldl
      (List.range AV_DRM_MAX_PLANES) ((s.store b).m_handles, [])
    have hst : (s.Unmap b).store = Function.update s.store b
        { s.store b with
          m_handles := ((List.range AV_DRM_MAX_PLANES).foldl closeHandle
            ((s.store b).m_handles, [])).1 } := by
      simp [Unmap, if_neg hfb, setBuffer, emit]
    have htr : (s.Unmap b).trace = s.trace ++ evs := by
      simp [Unmap, if_neg hfb, setBuffer, emit, hevs]
    refine ⟨?_, ?_, ?_, ?_, ?_, ?_, ?_, ?_, ?_, ?_, _, htr, ?_⟩
    · simp [Unmap, setBuffer, emit, hfb]
    · simp [Unmap, setBuffer, emit, hfb]
    · simp [Unmap, setBuffer, emit, hfb]
    · simp [Unmap, setBuffer, emit, hfb]
    · intro q hq
      rw [hst, Function.update_noteq hq]
    · rw [hst, Function.update_same]
      exact not_not.mp hfb
    · intro i hi
      rw [hst, Function.update_same]
      exact hvis i (List.mem_range.mpr hi)
    · rw [hst, Function.update_same]
      exact hlen
    · rw [hst, Function.update_same]
    · rw [hst, Function.update_same]
    · intro e he
      exact Or.inr (hall e he)

/-- A trace made of `drmModeRmFB` and `DRM_IOCTL_GEM_CLOSE` calls holds no
`Acquire()` and no `Release()` call. -/
theorem count_ref_unmap (evs : List Event)
    (h : ∀ e ∈ evs, (∃ f, e = Event.drmModeRmFB f) ∨ ∃ g, e = Event.gemClose g) (q : BufPtr) :
    evs.count (Event.release q) = 0 ∧ evs.count (Event.acquire q) = 0 := by
  constructor
  · rw [List.count_eq_zero]
    intro hm
    rcases h _ hm with ⟨f, hf⟩ | ⟨g, hg⟩
    · cases hf
    · cases hg
  · rw [List.count_eq_zero]
    intro hm
    rcases h _ hm with ⟨f, hf⟩ | ⟨g, hg⟩
    · cases hf
    · cases hg

/-- What `Release(p)` does for a non-null `p`: one `Unmap(p)`, then one
`p->Release()`. -/
theorem Release_some (s : CVideoLayerBridgeDRMPRIME) (p : BufPtr) :
    (s.Release (some p)).m_buffer = s.m_buffer ∧
    (s.Release (some p)).m_prev_buffer = s.m_prev_buffer ∧
    (s.Release (some p)).props = s.props ∧
    (s.Release (some p)).crtc_id = s.crtc_id ∧
    (s.Release (some p)).trace = (s.Unmap p).trace ++ [Event.release p] ∧
    (s.Release (some p)).store =
      Function.update (s.Unmap p).store p
        { (s.Unmap p).store p with m_refCount := (s.store p).m_refCount - 1 } := by
  obtain ⟨h1, h2, h3, h4, -, -, -, -, h9, -⟩ := Unmap_spec s p
  refine ⟨?_, ?_, ?_, ?_, ?_, ?_⟩
  · simpa [Release, bufferRelease, setBuffer, emit] using h1
  · simpa [Release, bufferRelease, setBuffer, emit] using h2
  · simpa [Release, bufferRelease, setBuffer, emit] using h3
  · simpa [Release, bufferRelease, setBuffer, emit] using h4
  · simp [Release, bufferRelease, setBuffer, emit]
  · simp [Release, bufferRelease, setBuffer, emit, h9]

/-- The slots, the trace and the store after `Acquire(b)`, in terms of the
state after the `Release(m_prev_buffer)` it starts with. -/
theorem Acquire_eq (s : CVideoLayerBridgeDRMPRIME) (b : BufPtr) :
    (s.Acquire b).m_buffer = some b ∧
    (s.Acquire b).m_prev_buffer = (s.Release s.m_prev_buffer).m_buffer ∧
    (s.Acquire b).props = (s.Release s.m_prev_buffer).props ∧
    (s.Acquire b).crtc_id = (s.Release s.m_prev_buffer).crtc_id ∧
    (s.Acquire b).trace = (s.Release s.m_prev_buffer).trace ++ [Event.acquire b] ∧
    (s.Acquire b).store =
      Function.update (s.Release s.m_prev_buffer).store b
        { (s.Release s.m_prev_buffer).store b with
          m_refCount := ((s.Release s.m_prev_buffer).store b).m_refCount + 1 } := by
  simp [Acquire, bufferAcquire, setBuffer, emit]

/-- The rotation made by `Acquire(b)`: the slots afterwards, the calls made
(one `Unmap` and one `Release()` of the old previous buffer if there is one,
then one `Acquire()` of `b`), and the buffers afterwards. -/
theorem Acquire_spec (s : CVideoLayerBridgeDRMPRIME) (b : BufPtr) :
    (s.Acquire b).m_buffer = some b ∧
    (s.Acquire b).m_prev_buffer = s.m_buffer ∧
    (s.Acquire b).props = s.props ∧
    (s.Acquire b).crtc_id = s.crtc_id ∧
    (s.Acquire b).trace =
      (match s.m_prev_buffer with
        | none => s.trace
        | some p => (s.Unmap p).trace ++ [Event.release p]) ++ [Event.acquire b] ∧
    (∃ evs, (s.Acquire b).trace = s.trace ++ evs ∧
      (∀ q, evs.count (Event.release q) = if s.m_prev_buffer = some q then 1 else 0) ∧
      (∀ q, evs.count (Event.acquire q) = if q = b then 1 else 0)) ∧
    (∀ q, ((s.Acquire b).store q).m_refCount =
      (s.store q).m_refCount + (if q = b then 1 else 0)
        - (if s.m_prev_buffer = some q then 1 else 0)) ∧
    (∀ q, ((s.Acquire b).store q).m_fb_id =
        (if s.m_prev_buffer = some q then 0 else (s.store q).m_fb_id) ∧
      ((s.Acquire b).store q).m_handles.length = (s.store q).m_handles.length ∧
      ∀ i, i < AV_DRM_MAX_PLANES → ((s.Acquire b).store q).m_handles.getD i 0 =
        (if s.m_prev_buffer = some q then 0 else (s.store q).m_handles.getD i 0)) := by
  obtain ⟨a1, a2, a3, a4, a5, a6⟩ := Acquire_eq s b
  cases hp : s.m_prev_buffer with
  | none =>
    simp only [hp, Release] at a2 a3 a4 a5 a6
    refine ⟨a1, a2, a3, a4, a5, ⟨[Event.acquire b], a5, ?_, ?_⟩, ?_, ?_⟩
    · intro q
      simp
    · intro q
      by_cases hq : q = b
      · simp [hq]
      · simp [hq, Ne.symm hq]
    · intro q
      rw [a6]
      by_cases hq : q = b
      · subst hq
        simp
      · simp [Function.update_noteq hq, hq]
    · intro q
      rw [a6]
      by_cases hq : q = b
      · subst hq
        simp
      · simp [Function.update_noteq hq]
  | some p =>
    obtain ⟨r1, r2, r3, r4, r5, r6⟩ := Release_some s p
    obtain ⟨u1, u2, u3, u4, u5, u6, u7, u8, u9, u10, evs, u11, u12⟩ := Unmap_spec s p
    obtain ⟨c1, c2⟩ : (∀ q, evs.count (Event.release q) = 0) ∧
        ∀ q, evs.count (Event.acquire q) = 0 :=
      ⟨fun q => (count_ref_unmap evs u12 q).1, fun q => (count_ref_unmap evs u12 q).2⟩
    simp only [hp] at a2 a3 a4 a5 a6
    have hstore : ∀ q, (s.Acquire b).store q =
        { (s.Unmap p).store q with
          m_refCount := ((s.Unmap p).store q).m_refCount + (if q = b then 1 else 0)
            - (if p = q then 1 else 0) } := by
      intro q
      rw [a6, r6]
      by_cases hqb : q = b <;> by_cases hqp : p = q
      · subst hqb; subst hqp
        simp [u9]
      · subst hqb
        simp [Function.update_noteq (Ne.symm hqp), hqp]
      · subst hqp
        simp [Function.update_noteq hqb, hqb, u9]
      · simp [Function.update_noteq hqb, Function.update_noteq (Ne.symm hqp), hqb, hqp]
    refine ⟨a1, by rw [a2, r1], by rw [a3, r3], by rw [a4, r4], by rw [a5, r5],
      ⟨evs ++ [Event.release p, Event.acquire b], ?_, ?_, ?_⟩, ?_, ?_⟩
    · rw [a5, r5, u11]
      simp
    · intro q
      simp only [List.count_append, c1 q, List.count_cons, List.count_nil, Option.some.injEq]
      by_cases hq : p = q
      · subst hq
        simp
      · have : (Event.release p == Event.release q) = false := by simpa using hq
        simp [hq, this]
    · intro q
      simp only [List.count_append, c2 q, List.count_cons, List.count_nil]
      by_cases hq : q = b
      · subst hq
        simp
      · have : (Event.acquire b == Event.acquire q) = false := by
          simpa using fun h => hq h.symm
        simp [hq, this]
    · intro q
      rw [hstore q]
      by_cases hqp : p = q
      · subst hqp
        simp [u9]
      · simp [u5 q (Ne.symm hqp), hqp]
    · intro q
      rw [hstore q]
      by_cases hqp : p = q
      · subst hqp
        refine ⟨by simp [u6], by simp [u8], ?_⟩
        intro i hi
        simpa using u7 i hi
      · simp [u5 q (Ne.symm hqp), hqp]

/-- C5: for every bridge state and every buffer `b`, `Acquire(b)` leaves
`m_buffer = b` and `m_prev_buffer` = the old `m_buffer`; the calls it adds to
the trace are one `Unmap` and one `Release()` of the old `m_prev_buffer` when
that is not null, followed by one `Acquire()` of `b`, so the old previous
buffer is released exactly once, no other buffer is released, and `b` is
acquired exactly once; the old previous buffer ends up unmapped. Three
`Acquire` calls for `b1`, `b2`, `b3` on a fresh bridge leave `m_buffer = b3`,
`m_prev_buffer = b2`, and `b1` released exactly once and nothing else released. -/
theorem Acquire_rotates (s : CVideoLayerBridgeDRMPRIME) (b : BufPtr)
    (store : BufPtr → CVideoBufferDRMPRIME) (crtc_id : Nat) (b1 b2 b3 : BufPtr) :
    ((s.Acquire b).m_buffer = some b ∧
      (s.Acquire b).m_prev_buffer = s.m_buffer ∧
      (s.Acquire b).trace =
        (match s.m_prev_buffer with
          | none => s.trace
          | some p => (s.Unmap p).trace ++ [Event.release p]) ++ [Event.acquire b] ∧
      (∃ evs, (s.Acquire b).trace = s.trace ++ evs ∧
        (∀ q, evs.count (Event.release q) = if s.m_prev_buffer = some q then 1 else 0) ∧
        (∀ q, evs.count (Event.acquire q) = if q = b then 1 else 0)) ∧
      (∀ q, ((s.Acquire b).store q).m_refCount =
        (s.store q).m_refCount + (if q = b then 1 else 0)
          - (if s.m_prev_buffer = some q then 1 else 0)) ∧
      (∀ q, ((s.Acquire b).store q).m_fb_id =
        if s.m_prev_buffer = some q then 0 else (s.store q).m_fb_id) ∧
      (∀ q i, i < AV_DRM_MAX_PLANES → ((s.Acquire b).store q).m_handles.getD i 0 =
        if s.m_prev_buffer = some q then 0 else (s.store q).m_handles.getD i 0)) ∧
    ((((fresh store crtc_id).Acquire b1).Acquire b2).Acquire b3).m_buffer = some b3 ∧
    ((((fresh store crtc_id).Acquire b1).Acquire b2).Acquire b3).m_prev_buffer = some b2 ∧
    (∀ q, ((((fresh store crtc_id).Acquire b1).Acquire b2).Acquire b3).trace.count
        (Event.release q) = if q = b1 then 1 else 0) ∧
    (∀ q, ((((fresh store crtc_id).Acquire b1).Acquire b2).Acquire b3).trace.count
        (Event.acquire q) =
      (if q = b1 then 1 else 0) + (if q = b2 then 1 else 0) + (if q = b3 then 1 else 0)) := by
  obtain ⟨g1, g2, -, -, g5, g6, g7, g8⟩ := Acquire_spec s b
  refine ⟨⟨g1, g2, g5, g6, g7, fun q => (g8 q).1, fun q i hi => (g8 q).2.2 i hi⟩, ?_⟩
  obtain ⟨x1, x2, -, -, -, ⟨e1, xt, xr, xa⟩, -, -⟩ := Acquire_spec (fresh store crtc_id) b1
  have hx2 : ((fresh store crtc_id).Acquire b1).m_prev_buffer = none := by rw [x2]; rfl
  obtain ⟨y1, y2, -, -, -, ⟨e2, yt, yr, ya⟩, -, -⟩ :=
    Acquire_spec ((fresh store crtc_id).Acquire b1) b2
  rw [x1] at y2
  obtain ⟨z1, z2, -, -, -, ⟨e3, zt, zr, za⟩, -, -⟩ :=
    Acquire_spec (((fresh store crtc_id).Acquire b1).Acquire b2) b3
  rw [y1] at z2
  have htrace : ((((fresh store crtc_id).Acquire b1).Acquire b2).Acquire b3).trace
      = e1 ++ e2 ++ e3 := by
    rw [zt, yt, xt]
    simp [fresh]
  refine ⟨z1, z2, ?_, ?_⟩
  · intro q
    rw [htrace, List.count_append, List.count_append, xr q, yr q, zr q, hx2, y2]
    have h0 : (fresh store crtc_id).m_prev_buffer = none := rfl
    rw [h0]
    by_cases hq : q = b1
    · subst hq
      simp
    · simp [hq, Ne.symm hq]
  · intro q
    rw [htrace, List.count_append, List.count_append, xa q, ya q, za q]

/-- The first loop of `Map` keeps the length of `m_handles` and makes only
`drmPrimeFDToHandle` calls. -/
theorem convertObjects_spec (d : AVDRMFrameDescriptor) (k : Nat → PrimeResult)
    (is handles : List Nat) :
    (convertObjects d k is handles).2.1.length = handles.length ∧
    ∀ q, (convertObjects d k is handles).2.2.count (Event.release q) = 0 ∧
      (convertObjects d k is handles).2.2.count (Event.acquire q) = 0 := by
  induction is generalizing handles with
  | nil => simp [convertObjects]
  | cons object rest ih =>
    unfold convertObjects
    by_cases hr : (k object).ret < 0
    · simp [hr]
    · obtain ⟨h1, h2⟩ := ih (handles.set object (k object).handle)
      simp only [hr, if_false]
      refine ⟨by rw [h1]; simp, fun q => ?_⟩
      simp [List.count_cons, h2 q]

/-- The three ways `Map(b)` ends: at once when `b` has a framebuffer; with
`false` after the kernel calls, having written `m_handles` only; with `true`
after the kernel calls, having written `m_handles` and `m_fb_id` and rotated
the slots through `Acquire(b)`. -/
theorem Map_cases (s : CVideoLayerBridgeDRMPRIME) (b : BufPtr) (k : MapOutcome) :
    ((s.store b).m_fb_id ≠ 0 ∧ s.Map b k = (true, s)) ∨
    ((s.store b).m_fb_id = 0 ∧
      ∃ hs evs, hs.length = (s.store b).m_handles.length ∧
        (∀ q, evs.count (Event.release q) = 0 ∧ evs.count (Event.acquire q) = 0) ∧
        (s.Map b k = (false, (s.emit evs).setBuffer b { s.store b with m_handles := hs }) ∨
          (0 ≤ k.addFB.ret ∧
            s.Map b k = (true, ((s.emit evs).setBuffer b
              { s.store b with m_handles := hs, m_fb_id := k.addFB.fb_id }).Acquire b)))) := by
  by_cases hfb : (s.store b).m_fb_id ≠ 0
  · left
    exact ⟨hfb, by simp [Map, hfb]⟩
  · right
    refine ⟨not_not.mp hfb, ?_⟩
    obtain ⟨hlen, hcnt⟩ := convertObjects_spec (s.store b).descriptor k.fdToHandle
      (List.range (s.store b).descriptor.nb_objects.toNat) (s.store b).m_handles
    by_cases hc : (convertObjects (s.store b).descriptor k.fdToHandle
        (List.range (s.store b).descriptor.nb_objects.toNat) (s.store b).m_handles).1 = false
    · refine ⟨_, _, hlen, hcnt, Or.inl ?_⟩
      simp [Map, hfb, hc]
    · by_cases hret : k.addFB.ret < 0
      · refine ⟨_, (convertObjects (s.store b).descriptor k.fdToHandle
            (List.range (s.store b).descriptor.nb_objects.toNat) (s.store b).m_handles).2.2
          ++ [addFBCall { s.store b with
              m_handles := (convertObjects (s.store b).descriptor k.fdToHandle
                (List.range (s.store b).descriptor.nb_objects.toNat)
                (s.store b).m_handles).2.1 } k.addFB.ret],
          hlen, ?_, Or.inl ?_⟩
        · intro q
          simp [List.count_append, hcnt q, List.count_cons, addFBCall]
        · have hc1 := Bool.eq_true_of_not_eq_false hc
          simp [Map, hfb, hc1, hret, emit, setBuffer]
      · refine ⟨_, (convertObjects (s.store b).descriptor k.fdToHandle
            (List.range (s.store b).descriptor.nb_objects.toNat) (s.store b).m_handles).2.2
          ++ [addFBCall { s.store b with
              m_handles := (convertObjects (s.store b).descriptor k.fdToHandle
                (List.range (s.store b).descriptor.nb_objects.toNat)
                (s.store b).m_handles).2.1 } k.addFB.ret],
          hlen, ?_, Or.inr ⟨not_lt.mp hret, ?_⟩⟩
        · intro q
          simp [List.count_append, hcnt q, List.count_cons, addFBCall]
        · have hc1 := Bool.eq_true_of_not_eq_false hc
          simp [Map, hfb, hc1, hret, emit, setBuffer]

/-- An array of four entries that are all zero. -/
theorem handles_zero (l : List Nat) (hlen : l.length = 4)
    (h : ∀ i, i < AV_DRM_MAX_PLANES → l.getD i 0 = 0) : l = [0, 0, 0, 0] := by
  match l, hlen with
  | [a, b, c, d], _ =>
    have h0 := h 0 (by decide)
    have h1 := h 1 (by decide)
    have h2 := h 2 (by decide)
    have h3 := h 3 (by decide)
    simp only [List.getD_cons_zero, List.getD_cons_succ] at h0 h1 h2 h3
    rw [h0, h1, h2, h3]

/-- The method `Map(b)` keeps the length of `m_handles` of `b`. -/
theorem Map_handles_length (s : CVideoLayerBridgeDRMPRIME) (b : BufPtr) (k : MapOutcome) :
    (((s.Map b k).2).store b).m_handles.length = (s.store b).m_handles.length := by
  rcases Map_cases s b k with ⟨-, h⟩ | ⟨-, hs, evs, hlen, -, h | ⟨-, h⟩⟩
  · rw [h]
  · rw [h]
    simp [setBuffer, emit, hlen]
  · rw [h]
    obtain ⟨-, -, -, -, -, -, -, g⟩ := Acquire_spec
      ((s.emit evs).setBuffer b { s.store b with m_handles := hs, m_fb_id := k.addFB.fb_id }) b
    rw [(g b).2.1]
    simp [setBuffer, emit, hlen]

/-- C6, evaluated: after `SetVideoPlane` for the buffers 1, 2, 1 the plane's
`FB_ID` holds framebuffer 11 of buffer 1, which sits in `m_prev_buffer`
because the third call found it mapped and left the slots alone. The next
call, for buffer 3, removes framebuffer 11, closes the GEM handle of buffer 1
and releases buffer 1. -/
theorem SetVideoPlane_drops_presented_buffer :
    bridgeABA.programmed DrmObject.primaryPlane "FB_ID" = some 11 ∧
    (bridgeABA.store 1).m_fb_id = 11 ∧
    bridgeABA.m_buffer = some 2 ∧
    bridgeABA.m_prev_buffer = some 1 ∧
    (bridgeABA.SetVideoPlane 3 sampleRect (mapSucceeds 23 13)).trace =
      bridgeABA.trace ++
        [Event.drmPrimeFDToHandle 5 0,
         Event.drmModeAddFB2WithModifiers 64 64 842094158 [23, 0, 0, 0] [64, 0, 0, 0]
           [0, 0, 0, 0] [0, 0, 0, 0] 0 0,
         Event.drmModeRmFB 11, Event.gemClose 21, Event.release 1, Event.acquire 3] ∧
    ((bridgeABA.SetVideoPlane 3 sampleRect (mapSucceeds 23 13)).store 1).m_fb_id = 0 ∧
    ((bridgeABA.SetVideoPlane 3 sampleRect (mapSucceeds 23 13)).store 1).m_handles
      = [0, 0, 0, 0] ∧
    ((bridgeABA.SetVideoPlane 3 sampleRect (mapSucceeds 23 13)).store 1).m_refCount = 0 := by
  refine ⟨?_, ?_, ?_, ?_, ?_, ?_, ?_, ?_⟩ <;> decide

/-- C7: for a buffer whose `m_fb_id` is zero and whose four `m_handles` are
zero, and for every result of the kernel calls inside `Map`, `Map(buffer)`
followed by `Unmap(buffer)` leaves `m_fb_id` zero and the four `m_handles`
zero, as they were before `Map`. -/
theorem Map_Unmap_restores (s : CVideoLayerBridgeDRMPRIME) (b : BufPtr) (k : MapOutcome)
    (hfb : (s.store b).m_fb_id = 0) (hh : (s.store b).m_handles = [0, 0, 0, 0]) :
    ((((s.Map b k).2).Unmap b).store b).m_fb_id = 0 ∧
    ((((s.Map b k).2).Unmap b).store b).m_handles = [0, 0, 0, 0] ∧
    ((((s.Map b k).2).Unmap b).store b).m_fb_id = (s.store b).m_fb_id ∧
    ((((s.Map b k).2).Unmap b).store b).m_handles = (s.store b).m_handles := by
  obtain ⟨-, -, -, -, -, u6, u7, u8, -, -, -⟩ := Unmap_spec (s.Map b k).2 b
  have hlen : ((((s.Map b k).2).Unmap b).store b).m_handles.length = 4 := by
    rw [u8, Map_handles_length, hh]
    rfl
  have hz := handles_zero _ hlen u7
  exact ⟨u6, hz, by rw [u6, hfb], by rw [hz, hh]⟩

/-- C7 at an unmapped buffer whose framebuffer creation fails after its prime
fd was converted to GEM handle 21. -/
theorem Map_Unmap_restores_witness :
    ((fresh sampleStore 9).store 1).m_fb_id = 0 ∧
    ((fresh sampleStore 9).store 1).m_handles = [0, 0, 0, 0] ∧
    (((((fresh sampleStore 9).Map 1 (mapFailsAtFB 21)).2).Unmap 1).store 1).m_fb_id = 0 ∧
    (((((fresh sampleStore 9).Map 1 (mapFailsAtFB 21)).2).Unmap 1).store 1).m_handles
      = [0, 0, 0, 0] ∧
    (((((fresh sampleStore 9).Map 1 (mapFailsAtFB 21)).2).Unmap 1).store 1).m_fb_id
      = ((fresh sampleStore 9).store 1).m_fb_id ∧
    (((((fresh sampleStore 9).Map 1 (mapFailsAtFB 21)).2).Unmap 1).store 1).m_handles
      = ((fresh sampleStore 9).store 1).m_handles :=
  ⟨rfl, rfl, Map_Unmap_restores (fresh sampleStore 9) 1 (mapFailsAtFB 21) rfl rfl⟩

/-- What `SetVideoPlane` does when `Map` has failed: `Unmap(buffer)` and
nothing else. -/
theorem SetVideoPlane_map_fails_aux (s : CVideoLayerBridgeDRMPRIME) (b : BufPtr)
    (destRect : DestRect) (k : MapOutcome) (hmap : (s.Map b k).1 = false) :
    (s.SetVideoPlane b destRect k).props = s.props ∧
    (s.SetVideoPlane b destRect k).m_buffer = s.m_buffer ∧
    (s.SetVideoPlane b destRect k).m_prev_buffer = s.m_prev_buffer ∧
    (∀ q, ((s.SetVideoPlane b destRect k).store q).m_refCount = (s.store q).m_refCount) ∧
    (∃ evs, (s.SetVideoPlane b destRect k).trace = s.trace ++ evs ∧
      ∀ q, evs.count (Event.release q) = 0 ∧ evs.count (Event.acquire q) = 0) ∧
    (∀ q, q ≠ b → (s.SetVideoPlane b destRect k).store q = s.store q) ∧
    ((s.SetVideoPlane b destRect k).store b).m_fb_id = 0 ∧
    (∀ i, i < AV_DRM_MAX_PLANES →
      ((s.SetVideoPlane b destRect k).store b).m_handles.getD i 0 = 0) := by
  have hsv : s.SetVideoPlane b destRect k = (s.Map b k).2.Unmap b := by
    simp [SetVideoPlane, hmap]
  rcases Map_cases s b k with ⟨-, h⟩ | ⟨-, hs, evs, -, hcnt, h | ⟨-, h⟩⟩
  · rw [h] at hmap
    cases hmap
  · rw [hsv, h]
    obtain ⟨u1, u2, u3, -, u5, u6, u7, -, u9, -, ev2, u11, u12⟩ :=
      Unmap_spec ((s.emit evs).setBuffer b { s.store b with m_handles := hs }) b
    refine ⟨by rw [u3]; rfl, by rw [u1]; rfl, by rw [u2]; rfl, ?_, ⟨evs ++ ev2, ?_, ?_⟩,
      ?_, u6, u7⟩
    · intro q
      by_cases hq : q = b
      · subst hq
        rw [u9]
        simp [setBuffer, emit]
      · rw [u5 q hq]
        simp [setBuffer, emit, Function.update_noteq hq]
    · rw [u11]
      simp [setBuffer, emit]
    · intro q
      simp [List.count_append, hcnt q, count_ref_unmap ev2 u12 q]
    · intro q hq
      rw [u5 q hq]
      simp [setBuffer, emit, Function.update_noteq hq]
  · rw [h] at hmap
    cases hmap

/-- C8: when `Map(buffer)` fails, `SetVideoPlane(buffer, destRect)` adds nothing
to the property set, leaves `m_buffer` and `m_prev_buffer` as they were, makes
no `Acquire()` and no `Release()` call and leaves every reference count as it
was, leaves every other buffer untouched, and leaves the buffer's `m_fb_id`
and each of its `m_handles` zero. -/
theorem SetVideoPlane_map_fails (s : CVideoLayerBridgeDRMPRIME) (b : BufPtr)
    (destRect : DestRect) (k : MapOutcome) (hmap : (s.Map b k).1 = false) :
    (s.SetVideoPlane b destRect k).props = s.props ∧
    (s.SetVideoPlane b destRect k).m_buffer = s.m_buffer ∧
    (s.SetVideoPlane b destRect k).m_prev_buffer = s.m_prev_buffer ∧
    (∀ q, ((s.SetVideoPlane b destRect k).store q).m_refCount = (s.store q).m_refCount) ∧
    (∃ evs, (s.SetVideoPlane b destRect k).trace = s.trace ++ evs ∧
      ∀ q, evs.count (Event.release q) = 0 ∧ evs.count (Event.acquire q) = 0) ∧
    (∀ q, q ≠ b → (s.SetVideoPlane b destRect k).store q = s.store q) ∧
    ((s.SetVideoPlane b destRect k).store b).m_fb_id = 0 ∧
    (∀ i, i < AV_DRM_MAX_PLANES →
      ((s.SetVideoPlane b destRect k).store b).m_handles.getD i 0 = 0) :=
  SetVideoPlane_map_fails_aux s b destRect k hmap

/-- C8 at an unmapped buffer whose framebuffer creation fails. -/
theorem SetVideoPlane_map_fails_witness :
    ((fresh sampleStore 9).Map 1 (mapFailsAtFB 21)).1 = false ∧
    (((fresh sampleStore 9).SetVideoPlane 1 sampleRect (mapFailsAtFB 21)).props
        = (fresh sampleStore 9).props ∧
      ((fresh sampleStore 9).SetVideoPlane 1 sampleRect (mapFailsAtFB 21)).m_buffer
        = (fresh sampleStore 9).m_buffer ∧
      ((fresh sampleStore 9).SetVideoPlane 1 sampleRect (mapFailsAtFB 21)).m_prev_buffer
        = (fresh sampleStore 9).m_prev_buffer ∧
      (∀ q, (((fresh sampleStore 9).SetVideoPlane 1 sampleRect (mapFailsAtFB 21)).store q).m_refCount
        = ((fresh sampleStore 9).store q).m_refCount) ∧
      (∃ evs, ((fresh sampleStore 9).SetVideoPlane 1 sampleRect (mapFailsAtFB 21)).trace
          = (fresh sampleStore 9).trace ++ evs ∧
        ∀ q, evs.count (Event.release q) = 0 ∧ evs.count (Event.acquire q) = 0) ∧
      (∀ q, q ≠ 1 → ((fresh sampleStore 9).SetVideoPlane 1 sampleRect (mapFailsAtFB 21)).store q
        = (fresh sampleStore 9).store q) ∧
      (((fresh sampleStore 9).SetVideoPlane 1 sampleRect (mapFailsAtFB 21)).store 1).m_fb_id = 0 ∧
      (∀ i, i < AV_DRM_MAX_PLANES →
        (((fresh sampleStore 9).SetVideoPlane 1 sampleRect (mapFailsAtFB 21)).store 1).m_handles.getD
          i 0 = 0)) :=
  ⟨by decide, SetVideoPlane_map_fails (fresh sampleStore 9) 1 sampleRect (mapFailsAtFB 21)
    (by decide)⟩

/-- Apart from the property set, `SetVideoPlane` leaves the state `Map`
produced when `Map` has succeeded. -/
theorem SetVideoPlane_of_mapped (s : CVideoLayerBridgeDRMPRIME) (b : BufPtr)
    (destRect : DestRect) (k : MapOutcome) (hmap : (s.Map b k).1 = true) :
    (s.SetVideoPlane b destRect k).store = (s.Map b k).2.store ∧
    (s.SetVideoPlane b destRect k).trace = (s.Map b k).2.trace ∧
    (s.SetVideoPlane b destRect k).m_buffer = (s.Map b k).2.m_buffer ∧
    (s.SetVideoPlane b destRect k).m_prev_buffer = (s.Map b k).2.m_prev_buffer := by
  simp [SetVideoPlane, hmap, AddProperty]

/-- The method `Acquire(b)` leaves alone every buffer that is neither `b` nor
in `m_prev_buffer`. -/
theorem Acquire_store_other (s : CVideoLayerBridgeDRMPRIME) (b q : BufPtr)
    (hqb : q ≠ b) (hq : s.m_prev_buffer ≠ some q) : (s.Acquire b).store q = s.store q := by
  obtain ⟨-, -, -, -, -, a6⟩ := Acquire_eq s b
  rw [a6, Function.update_noteq hqb]
  cases hp : s.m_prev_buffer with
  | none => rfl
  | some p =>
    have hpq : q ≠ p := by
      intro h
      apply hq
      rw [hp, h]
    obtain ⟨-, -, -, -, -, r6⟩ := Release_some s p
    obtain ⟨-, -, -, -, u5, -⟩ := Unmap_spec s p
    rw [r6, Function.update_noteq hpq, u5 q hpq]

/-- Which buffers one `SetVideoPlane(b)` call can unmap or release: only the
buffer in `m_prev_buffer` is ever released, and a buffer other than that one
is left untouched when it is not `b`, or when it is `b` and already mapped. So
the buffer on screen is dropped by the next call exactly when it sits in
`m_prev_buffer`. -/
theorem SetVideoPlane_releases_previous_only (s : CVideoLayerBridgeDRMPRIME) (b : BufPtr)
    (destRect : DestRect) (k : MapOutcome) :
    (∃ evs, (s.SetVideoPlane b destRect k).trace = s.trace ++ evs ∧
      ∀ q, s.m_prev_buffer ≠ some q → evs.count (Event.release q) = 0) ∧
    (∀ q, s.m_prev_buffer ≠ some q → q ≠ b ∨ (s.store q).m_fb_id ≠ 0 →
      (s.SetVideoPlane b destRect k).store q = s.store q) := by
  rcases Map_cases s b k with ⟨hfb, h⟩ | ⟨hfb, hs, evs, -, hcnt, h | ⟨-, h⟩⟩
  · have hmap : (s.Map b k).1 = true := by rw [h]
    obtain ⟨e1, e2, -, -⟩ := SetVideoPlane_of_mapped s b destRect k hmap
    rw [h] at e1 e2
    dsimp only at e1 e2
    refine ⟨⟨[], by simp [e2], fun q _ => by simp⟩, fun q _ _ => by rw [e1]⟩
  · have hmap : (s.Map b k).1 = false := by rw [h]
    obtain ⟨-, -, -, -, ⟨ev, ht, hc⟩, hst, -, -⟩ := SetVideoPlane_map_fails_aux s b destRect k hmap
    refine ⟨⟨ev, ht, fun q _ => (hc q).1⟩, ?_⟩
    intro q _ hq
    rcases hq with hq | hq
    · exact hst q hq
    · by_cases hqb : q = b
      · subst hqb
        exact absurd hfb hq
      · exact hst q hqb
  · have hmap : (s.Map b k).1 = true := by rw [h]
    obtain ⟨e1, e2, -, -⟩ := SetVideoPlane_of_mapped s b destRect k hmap
    rw [h] at e1 e2
    dsimp only at e1 e2
    obtain ⟨-, -, -, -, -, ⟨ev, ht, hr, -⟩, -, -⟩ := Acquire_spec
      ((s.emit evs).setBuffer b { s.store b with m_handles := hs, m_fb_id := k.addFB.fb_id }) b
    refine ⟨⟨evs ++ ev, ?_, ?_⟩, ?_⟩
    · rw [e2, ht]
      simp [setBuffer, emit]
    · intro q hq
      rw [List.count_append, (hcnt q).1, hr q]
      have : ((s.emit evs).setBuffer b
          { s.store b with m_handles := hs, m_fb_id := k.addFB.fb_id }).m_prev_buffer
          = s.m_prev_buffer := rfl
      rw [this, if_neg hq]
    · intro q hq hqb
      have hne : q ≠ b := by
        rcases hqb with hqb | hqb
        · exact hqb
        · intro hqb2
          subst hqb2
          exact hqb hfb
      have key := Acquire_store_other
        ((s.emit evs).setBuffer b { s.store b with m_handles := hs, m_fb_id := k.addFB.fb_id })
        b q hne hq
      rw [e1]
      refine key.trans ?_
      simp [setBuffer, emit, Function.update_noteq hne]

/-- Clearing bit 0 of a natural number. -/
theorem nat_ldiff_one (m : Nat) : Nat.ldiff m 1 = 2 * (m / 2) := by
  apply Nat.eq_of_testBit_eq
  intro i
  rw [Nat.testBit_ldiff]
  cases i with
  | zero => simp [Nat.testBit_zero]
  | succ n => simp [Nat.testBit_succ]

/-- Setting bit 0 of a natural number. -/
theorem nat_lor_one (m : Nat) : m ||| 1 = 2 * (m / 2) + 1 := by
  apply Nat.eq_of_testBit_eq
  intro i
  rw [Nat.testBit_lor]
  cases i with
  | zero =>
    have : (2 * (m / 2) + 1) % 2 = 1 := by omega
    simp [Nat.testBit_zero, this]
  | succ n =>
    simp [Nat.testBit_succ]
    congr 1
    omega

/-- The mask `~1` clears bit 0 of a two's complement integer: the result is
twice the floor of half the integer. -/
theorem crtcOrigin_eq (x : Int) : crtcOrigin x = 2 * (x / 2) := by
  unfold crtcOrigin
  cases x with
  | ofNat m =>
    show ((Nat.ldiff m 1 : Nat) : Int) = 2 * ((m : Int) / 2)
    rw [nat_ldiff_one]
    push_cast
    rfl
  | negSucc m =>
    show Int.negSucc (m ||| 1) = _
    rw [nat_lor_one, Int.negSucc_eq, Int.negSucc_eq]
    push_cast
    omega

/-- The mask `0xFFFFFFFE` clears bit 0 of a 32-bit unsigned value. -/
theorem nat_land_mask (n : Nat) (h : n < 2 ^ 32) : Nat.land n 0xFFFFFFFE = 2 * (n / 2) := by
  show n &&& 0xFFFFFFFE = _
  apply Nat.eq_of_testBit_eq
  intro i
  rw [Nat.testBit_and]
  cases i with
  | zero => simp [Nat.testBit_zero]
  | succ k =>
    simp only [Nat.testBit_succ]
    have h1 : (0xFFFFFFFE : Nat) / 2 = 2 ^ 31 - 1 := by norm_num
    have h2 : 2 * (n / 2) / 2 = n / 2 := by omega
    rw [h1, h2, ← Nat.testBit_and, Nat.and_pow_two_sub_one_eq_mod, Nat.mod_eq_of_lt (by omega)]

/-- The extent programmed for `w`, as arithmetic on `w`. -/
theorem crtcExtent_eq (w : Nat) : crtcExtent w = 2 * (((w + 1) % 2 ^ 32) / 2) := by
  unfold crtcExtent
  exact nat_land_mask _ (Nat.mod_lt _ (by norm_num))

/-- The ten properties `SetVideoPlane` adds once `Map` has succeeded. -/
theorem SetVideoPlane_props (s : CVideoLayerBridgeDRMPRIME) (b : BufPtr)
    (destRect : DestRect) (k : MapOutcome) (hmap : (s.Map b k).1 = true) :
    (s.SetVideoPlane b destRect k).props = (s.Map b k).2.props ++
      [ { object := DrmObject.primaryPlane, name := "FB_ID",
          value := (((s.Map b k).2.store b).m_fb_id : Int) },
        { object := DrmObject.primaryPlane, name := "CRTC_ID",
          value := ((s.Map b k).2.crtc_id : Int) },
        { object := DrmObject.primaryPlane, name := "SRC_X", value := 0 },
        { object := DrmObject.primaryPlane, name := "SRC_Y", value := 0 },
        { object := DrmObject.primaryPlane, name := "SRC_W",
          value := ((((s.Map b k).2.store b).width * 2 ^ 16 % 2 ^ 32 : Nat) : Int) },
        { object := DrmObject.primaryPlane, name := "SRC_H",
          value := ((((s.Map b k).2.store b).height * 2 ^ 16 % 2 ^ 32 : Nat) : Int) },
        { object := DrmObject.primaryPlane, name := "CRTC_X",
          value := crtcOrigin destRect.x1 },
        { object := DrmObject.primaryPlane, name := "CRTC_Y",
          value := crtcOrigin destRect.y1 },
        { object := DrmObject.primaryPlane, name := "CRTC_W",
          value := (crtcExtent destRect.Width : Int) },
        { object := DrmObject.primaryPlane, name := "CRTC_H",
          value := (crtcExtent destRect.Height : Int) } ] := by
  simp [SetVideoPlane, hmap, AddProperty]

/-- The destination rectangle `SetVideoPlane` programs once `Map` has succeeded. -/
theorem SetVideoPlane_programmed (s : CVideoLayerBridgeDRMPRIME) (b : BufPtr)
    (destRect : DestRect) (k : MapOutcome) (hmap : (s.Map b k).1 = true) :
    (s.SetVideoPlane b destRect k).programmed DrmObject.primaryPlane "CRTC_X"
      = some (crtcOrigin destRect.x1) ∧
    (s.SetVideoPlane b destRect k).programmed DrmObject.primaryPlane "CRTC_Y"
      = some (crtcOrigin destRect.y1) ∧
    (s.SetVideoPlane b destRect k).programmed DrmObject.primaryPlane "CRTC_W"
      = some (crtcExtent destRect.Width : Int) ∧
    (s.SetVideoPlane b destRect k).programmed DrmObject.primaryPlane "CRTC_H"
      = some (crtcExtent destRect.Height : Int) := by
  unfold programmed
  rw [SetVideoPlane_props s b destRect k hmap]
  simp [List.find?_cons]

/-- C9: once `Map` has succeeded, `SetVideoPlane` programs `CRTC_X` and
`CRTC_Y` with `x & ~1` and `y & ~1` for the converted origin `(x, y)`; for
`x` and `y` in the `int32_t` range each value is again in that range, is
even, and is the largest even integer not greater than `x`, respectively
`y`, negative values included; the origin (3, 5) gives (2, 4). -/
theorem SetVideoPlane_crtc_origin (s : CVideoLayerBridgeDRMPRIME) (b : BufPtr)
    (destRect : DestRect) (k : MapOutcome) (hmap : (s.Map b k).1 = true)
    (hx : -2 ^ 31 ≤ destRect.x1 ∧ destRect.x1 < 2 ^ 31)
    (hy : -2 ^ 31 ≤ destRect.y1 ∧ destRect.y1 < 2 ^ 31) :
    (s.SetVideoPlane b destRect k).programmed DrmObject.primaryPlane "CRTC_X"
      = some (crtcOrigin destRect.x1) ∧
    (s.SetVideoPlane b destRect k).programmed DrmObject.primaryPlane "CRTC_Y"
      = some (crtcOrigin destRect.y1) ∧
    (crtcOrigin destRect.x1 % 2 = 0 ∧ crtcOrigin destRect.x1 ≤ destRect.x1 ∧
      (∀ e : Int, e % 2 = 0 → e ≤ destRect.x1 → e ≤ crtcOrigin destRect.x1) ∧
      -2 ^ 31 ≤ crtcOrigin destRect.x1 ∧ crtcOrigin destRect.x1 < 2 ^ 31) ∧
    (crtcOrigin destRect.y1 % 2 = 0 ∧ crtcOrigin destRect.y1 ≤ destRect.y1 ∧
      (∀ e : Int, e % 2 = 0 → e ≤ destRect.y1 → e ≤ crtcOrigin destRect.y1) ∧
      -2 ^ 31 ≤ crtcOrigin destRect.y1 ∧ crtcOrigin destRect.y1 < 2 ^ 31) ∧
    (destRect.x1 = 3 → crtcOrigin destRect.x1 = 2) ∧
    (destRect.y1 = 5 → crtcOrigin destRect.y1 = 4) := by
  obtain ⟨px, py, -, -⟩ := SetVideoPlane_programmed s b destRect k hmap
  have ex := crtcOrigin_eq destRect.x1
  have ey := crtcOrigin_eq destRect.y1
  refine ⟨px, py, ⟨?_, ?_, ?_, ?_, ?_⟩, ⟨?_, ?_, ?_, ?_, ?_⟩, ?_, ?_⟩
  · omega
  · omega
  · intro e he hle
    omega
  · omega
  · omega
  · omega
  · omega
  · intro e he hle
    omega
  · omega
  · omega
  · intro h
    omega
  · intro h
    omega

/-- C9 at the rectangle with origin (3, 5) and at the rectangle with origin
(-3, -8), for an unmapped buffer whose kernel calls succeed. -/
theorem SetVideoPlane_crtc_origin_witness :
    ((fresh sampleStore 9).Map 1 (mapSucceeds 21 11)).1 = true ∧
    ((-2 ^ 31 : Int) ≤ sampleRect.x1 ∧ sampleRect.x1 < 2 ^ 31) ∧
    ((-2 ^ 31 : Int) ≤ sampleRect.y1 ∧ sampleRect.y1 < 2 ^ 31) ∧
    ((fresh sampleStore 9).SetVideoPlane 1 sampleRect (mapSucceeds 21 11)).programmed
      DrmObject.primaryPlane "CRTC_X" = some 2 ∧
    ((fresh sampleStore 9).SetVideoPlane 1 sampleRect (mapSucceeds 21 11)).programmed
      DrmObject.primaryPlane "CRTC_Y" = some 4 ∧
    ((fresh sampleStore 9).SetVideoPlane 1 { x1 := -3, y1 := -8, Width := 101, Height := 51 }
      (mapSucceeds 21 11)).programmed DrmObject.primaryPlane "CRTC_X" = some (-4) ∧
    ((fresh sampleStore 9).SetVideoPlane 1 { x1 := -3, y1 := -8, Width := 101, Height := 51 }
      (mapSucceeds 21 11)).programmed DrmObject.primaryPlane "CRTC_Y" = some (-8) := by
  have h1 := SetVideoPlane_crtc_origin (fresh sampleStore 9) 1 sampleRect (mapSucceeds 21 11)
    (by decide) (by decide) (by decide)
  have h2 := SetVideoPlane_crtc_origin (fresh sampleStore 9) 1
    { x1 := -3, y1 := -8, Width := 101, Height := 51 } (mapSucceeds 21 11)
    (by decide) (by decide) (by decide)
  refine ⟨by decide, by decide, by decide, ?_, ?_, ?_, ?_⟩
  · rw [h1.1, crtcOrigin_eq]; decide
  · rw [h1.2.1, crtcOrigin_eq]; decide
  · rw [h2.1, crtcOrigin_eq]; decide
  · rw [h2.2.1, crtcOrigin_eq]; decide

/-- What `static_cast<uint32_t>` delivers for a `float`: never more than
`2 ^ 32 - 2`, because a `float` of `2 ^ 24` or more is an even integer. -/
theorem Binary32.toUInt32_le (f : Binary32) (hf : f.valid) (w : Nat)
    (h : f.toUInt32 = some w) : w ≤ 2 ^ 32 - 2 := by
  have ht : f.truncate < 2 ^ 24 ∨ f.truncate % 2 = 0 := by
    unfold Binary32.truncate
    by_cases he : 0 ≤ f.exponent
    · rw [if_pos he]
      by_cases h0 : f.exponent.toNat = 0
      · left
        rw [h0, pow_zero, Nat.mul_one]
        exact hf.1
      · right
        obtain ⟨n, hn⟩ := Nat.exists_eq_succ_of_ne_zero h0
        rw [hn, pow_succ, ← Nat.mul_assoc]
        exact Nat.mul_mod_left _ _
    · rw [if_neg he]
      left
      exact lt_of_le_of_lt (Nat.div_le_self _ _) hf.1
  unfold Binary32.toUInt32 at h
  split_ifs at h with h0 h1 h2
  · simp only [Option.some.injEq] at h
    omega
  · simp only [Option.some.injEq] at h
    omega

/-- The rounding of the extent for converted values up to `2 ^ 32 - 2`: the
programmed values fit 32 bits, are even, and are the smallest even integers
not less than the converted width and height. -/
theorem SetVideoPlane_crtc_extent_aux (s : CVideoLayerBridgeDRMPRIME) (b : BufPtr)
    (destRect : DestRect) (k : MapOutcome) (hmap : (s.Map b k).1 = true)
    (hw : destRect.Width ≤ 2 ^ 32 - 2) (hh : destRect.Height ≤ 2 ^ 32 - 2) :
    (s.SetVideoPlane b destRect k).programmed DrmObject.primaryPlane "CRTC_W"
      = some (crtcExtent destRect.Width : Int) ∧
    (s.SetVideoPlane b destRect k).programmed DrmObject.primaryPlane "CRTC_H"
      = some (crtcExtent destRect.Height : Int) ∧
    (crtcExtent destRect.Width % 2 = 0 ∧ destRect.Width ≤ crtcExtent destRect.Width ∧
      (∀ e : Nat, e % 2 = 0 → destRect.Width ≤ e → crtcExtent destRect.Width ≤ e) ∧
      crtcExtent destRect.Width < 2 ^ 32) ∧
    (crtcExtent destRect.Height % 2 = 0 ∧ destRect.Height ≤ crtcExtent destRect.Height ∧
      (∀ e : Nat, e % 2 = 0 → destRect.Height ≤ e → crtcExtent destRect.Height ≤ e) ∧
      crtcExtent destRect.Height < 2 ^ 32) ∧
    (destRect.Width = 101 → crtcExtent destRect.Width = 102) ∧
    (destRect.Height = 51 → crtcExtent destRect.Height = 52) := by
  obtain ⟨-, -, pw, ph⟩ := SetVideoPlane_programmed s b destRect k hmap
  have ew := crtcExtent_eq destRect.Width
  have eh := crtcExtent_eq destRect.Height
  have mw : (destRect.Width + 1) % 2 ^ 32 = destRect.Width + 1 := Nat.mod_eq_of_lt (by omega)
  have mh : (destRect.Height + 1) % 2 ^ 32 = destRect.Height + 1 := Nat.mod_eq_of_lt (by omega)
  rw [mw] at ew
  rw [mh] at eh
  refine ⟨pw, ph, ⟨?_, ?_, ?_, ?_⟩, ⟨?_, ?_, ?_, ?_⟩, ?_, ?_⟩
  · omega
  · omega
  · intro e he hle
    omega
  · omega
  · omega
  · omega
  · intro e he hle
    omega
  · omega
  · intro h
    omega
  · intro h
    omega

/-- C10: for every destination rectangle whose `float` width and height
convert to 32-bit unsigned integers `(w, h)`, once `Map` has succeeded,
`SetVideoPlane` programs `CRTC_W` and `CRTC_H` with `(w + 1) & ~1` and
`(h + 1) & ~1` computed in `uint32_t`; the sum does not wrap, because no
`float` converts to `2 ^ 32 - 1`, and each programmed value fits 32 bits, is
even, and is the smallest even integer not less than `w`, respectively `h`;
the extent (101, 51) gives (102, 52). -/
theorem SetVideoPlane_crtc_extent (s : CVideoLayerBridgeDRMPRIME) (b : BufPtr)
    (x1 y1 : Int) (width height : Binary32) (destRect : DestRect) (k : MapOutcome)
    (hw : width.valid) (hh : height.valid)
    (hrect : DestRect.ofExtent x1 y1 width height = some destRect)
    (hmap : (s.Map b k).1 = true) :
    width.toUInt32 = some destRect.Width ∧ height.toUInt32 = some destRect.Height ∧
    (destRect.Width + 1) % 2 ^ 32 = destRect.Width + 1 ∧
    (destRect.Height + 1) % 2 ^ 32 = destRect.Height + 1 ∧
    (s.SetVideoPlane b destRect k).programmed DrmObject.primaryPlane "CRTC_W"
      = some (crtcExtent destRect.Width : Int) ∧
    (s.SetVideoPlane b destRect k).programmed DrmObject.primaryPlane "CRTC_H"
      = some (crtcExtent destRect.Height : Int) ∧
    (crtcExtent destRect.Width % 2 = 0 ∧ destRect.Width ≤ crtcExtent destRect.Width ∧
      (∀ e : Nat, e % 2 = 0 → destRect.Width ≤ e → crtcExtent destRect.Width ≤ e) ∧
      crtcExtent destRect.Width < 2 ^ 32) ∧
    (crtcExtent destRect.Height % 2 = 0 ∧ destRect.Height ≤ crtcExtent destRect.Height ∧
      (∀ e : Nat, e % 2 = 0 → destRect.Height ≤ e → crtcExtent destRect.Height ≤ e) ∧
      crtcExtent destRect.Height < 2 ^ 32) ∧
    (destRect.Width = 101 → crtcExtent destRect.Width = 102) ∧
    (destRect.Height = 51 → crtcExtent destRect.Height = 52) := by
  have hconv : width.toUInt32 = some destRect.Width ∧
      height.toUInt32 = some destRect.Height := by
    unfold DestRect.ofExtent at hrect
    cases hwc : width.toUInt32 with
    | none => simp [hwc] at hrect
    | some w =>
      cases hhc : height.toUInt32 with
      | none => simp [hwc, hhc] at hrect
      | some h =>
        simp only [hwc, hhc, Option.some.injEq] at hrect
        subst hrect
        exact ⟨rfl, rfl⟩
  have bw := Binary32.toUInt32_le width hw destRect.Width hconv.1
  have bh := Binary32.toUInt32_le height hh destRect.Height hconv.2
  obtain ⟨a1, a2, a3, a4, a5, a6⟩ := SetVideoPlane_crtc_extent_aux s b destRect k hmap bw bh
  exact ⟨hconv.1, hconv.2, Nat.mod_eq_of_lt (by omega), Nat.mod_eq_of_lt (by omega),
    a1, a2, a3, a4, a5, a6⟩

/-- C10, at the rectangle with `float` extent (101.5, 51), which converts to
(101, 51), for an unmapped buffer whose kernel calls succeed. -/
theorem SetVideoPlane_crtc_extent_witness :
    float101_5.valid ∧ float51.valid ∧
    DestRect.ofExtent 3 5 float101_5 float51 = some sampleRect ∧
    ((fresh sampleStore 9).Map 1 (mapSucceeds 21 11)).1 = true ∧
    ((fresh sampleStore 9).SetVideoPlane 1 sampleRect (mapSucceeds 21 11)).programmed
      DrmObject.primaryPlane "CRTC_W" = some 102 ∧
    ((fresh sampleStore 9).SetVideoPlane 1 sampleRect (mapSucceeds 21 11)).programmed
      DrmObject.primaryPlane "CRTC_H" = some 52 := by
  have v1 : float101_5.valid := by
    unfold Binary32.valid float101_5
    decide
  have v2 : float51.valid := by
    unfold Binary32.valid float51
    decide
  have h1 := SetVideoPlane_crtc_extent (fresh sampleStore 9) 1 3 5 float101_5 float51
    sampleRect (mapSucceeds 21 11) v1 v2 (by decide) (by decide)
  refine ⟨v1, v2, by decide, by decide, ?_, ?_⟩
  · rw [h1.2.2.2.2.1]; decide
  · rw [h1.2.2.2.2.2.1]; decide

end CVideoLayerBridgeDRMPRIME

end RendererDRMPRIME

/-! ## Theorems: the EOTF classification -/

/-- C11: for every frame, `GetEOTF(is10bit, frame)` is the SMPTE ST 2084 code
exactly when `is10bit` holds and the transfer characteristic is SMPTE-2084,
the BT.2100 HLG code exactly when `is10bit` holds and the transfer
characteristic is ARIB STD-B67 or BT.2020-10, and the traditional-gamma SDR
code exactly in every other case; for an 8-bit frame it is the SDR code
whatever the transfer characteristic. The copy of the function in
`RendererDRMPRIME.cpp` returns the same value as the one in
`VideoLayerBridgeRockchip.cpp`. -/
theorem GetEOTF_classifies (is10bit : Bool) (frame : AVFrame) :
    (VideoLayerBridgeRockchip.GetEOTF is10bit frame = HDMI_EOTF_SMPTE_ST2084 ↔
      is10bit = true ∧ frame.color_trc = AVCOL_TRC_SMPTE2084) ∧
    (VideoLayerBridgeRockchip.GetEOTF is10bit frame = HDMI_EOTF_BT_2100_HLG ↔
      is10bit = true ∧
        (frame.color_trc = AVCOL_TRC_ARIB_STD_B67 ∨ frame.color_trc = AVCOL_TRC_BT2020_10)) ∧
    (VideoLayerBridgeRockchip.GetEOTF is10bit frame = HDMI_EOTF_TRADITIONAL_GAMMA_SDR ↔
      ¬ (is10bit = true ∧ (frame.color_trc = AVCOL_TRC_SMPTE2084 ∨
        frame.color_trc = AVCOL_TRC_ARIB_STD_B67 ∨ frame.color_trc = AVCOL_TRC_BT2020_10))) ∧
    VideoLayerBridgeRockchip.GetEOTF false frame = HDMI_EOTF_TRADITIONAL_GAMMA_SDR ∧
    RendererDRMPRIME.GetEOTF is10bit frame = VideoLayerBridgeRockchip.GetEOTF is10bit frame := by
  have c1 : HDMI_EOTF_SMPTE_ST2084 ≠ HDMI_EOTF_BT_2100_HLG := by decide
  have c2 : HDMI_EOTF_SMPTE_ST2084 ≠ HDMI_EOTF_TRADITIONAL_GAMMA_SDR := by decide
  have c3 : HDMI_EOTF_BT_2100_HLG ≠ HDMI_EOTF_TRADITIONAL_GAMMA_SDR := by decide
  have t1 : AVCOL_TRC_SMPTE2084 ≠ AVCOL_TRC_ARIB_STD_B67 := by decide
  have t2 : AVCOL_TRC_SMPTE2084 ≠ AVCOL_TRC_BT2020_10 := by decide
  refine ⟨?_, ?_, ?_, rfl, rfl⟩
  · unfold VideoLayerBridgeRockchip.GetEOTF
    cases is10bit
    · simp [c2.symm]
    · by_cases h1 : frame.color_trc = AVCOL_TRC_SMPTE2084
      · simp [h1]
      · by_cases h2 : frame.color_trc = AVCOL_TRC_ARIB_STD_B67 ∨
            frame.color_trc = AVCOL_TRC_BT2020_10
        · simp [h1, h2, c1.symm]
        · simp [h1, h2, c2.symm]
  · unfold VideoLayerBridgeRockchip.GetEOTF
    cases is10bit
    · simp [c3.symm]
    · by_cases h1 : frame.color_trc = AVCOL_TRC_SMPTE2084
      · simp [h1, c1, t1, t2]
      · by_cases h2 : frame.color_trc = AVCOL_TRC_ARIB_STD_B67 ∨
            frame.color_trc = AVCOL_TRC_BT2020_10
        · simp [h1, h2]
        · simp [h1, h2, c3.symm]
  · unfold VideoLayerBridgeRockchip.GetEOTF
    cases is10bit
    · simp
    · by_cases h1 : frame.color_trc = AVCOL_TRC_SMPTE2084
      · simp [h1, c2]
      · by_cases h2 : frame.color_trc = AVCOL_TRC_ARIB_STD_B67 ∨
            frame.color_trc = AVCOL_TRC_BT2020_10
        · simp [h1, h2, c3]
        · simp only [h1, h2, if_false, if_true, true_and, true_iff]
          tauto

/-! ## Theorems: `Create`, `Destroy` and `Import` -/

namespace VideoBufferMemfd

/-- Reading an array element after an assignment to the array. -/
theorem arrayModify_getD {α : Type} [Inhabited α] (l : List α) (i j : Nat) (f : α → α) :
    (arrayModify l i f).getD j default =
      if i = j then f (l.getD i default) else l.getD j default := by
  unfold arrayModify
  simp only [List.getD_eq_getElem?_getD, List.getElem?_set, List.length_append,
    List.length_replicate]
  have hpad : ∀ n m : Nat, ((l ++ List.replicate n (default : α))[m]?).getD default
      = (l[m]?).getD default := by
    intro n m
    by_cases hm : m < l.length
    · rw [List.getElem?_append_left hm]
    · have hge : l.length ≤ m := Nat.le_of_not_lt hm
      rw [List.getElem?_append_right hge, List.getElem?_eq_none hge]
      by_cases hm2 : m - l.length < n
      · simp [List.getElem?_replicate, hm2]
      · simp [List.getElem?_replicate, hm2]
  by_cases hij : i = j
  · subst hij
    have hlt : i < l.length + (i + 1 - l.length) := by omega
    simp [hlt]
  · simp only [hij, if_false]
    exact hpad _ _

/-- Reading an array element after an assignment to the array, in the form
`simp` gives to a read. -/
theorem arrayModify_getElem_getD {α : Type} [Inhabited α] (l : List α) (i j : Nat)
    (f : α → α) :
    ((arrayModify l i f)[j]?).getD default =
      if i = j then f ((l[i]?).getD default) else (l[j]?).getD default := by
  have h := arrayModify_getD l i j f
  simpa only [List.getD_eq_getElem?_getD] using h

/-- The buffer and the calls of a `Create` that does not return at once. -/
theorem Create_eq (b : CVideoBufferMemfd) (width height : Nat) (k : CreateOutcome)
    (hne : ¬ (b.m_width = width ∧ b.m_height = height)) :
    b.Create width height k =
      ({ b.Destroy.1 with
          m_size := width * ((height + height / 2) % 2 ^ 32) % 2 ^ 32
          m_memfd := k.memfd_create
          m_addr := k.mmap
          m_dmafd := k.ioctl
          m_width := width
          m_height := height
          m_descriptor := CVideoBufferMemfd.describe b.Destroy.1.m_descriptor k.ioctl
            (width * ((height + height / 2) % 2 ^ 32) % 2 ^ 32) width height },
       b.Destroy.2 ++
        [SysCall.memfd_create k.memfd_create,
         SysCall.ftruncate k.memfd_create (width * ((height + height / 2) % 2 ^ 32) % 2 ^ 32)
           k.ftruncate,
         SysCall.mmap (width * ((height + height / 2) % 2 ^ 32) % 2 ^ 32) k.memfd_create k.mmap,
         SysCall.fcntl_add_seals k.memfd_create k.fcntl,
         SysCall.udmabuf_create b.Destroy.1.m_udmabuf (k.memfd_create % 2 ^ 32).toNat
           (width * ((height + height / 2) % 2 ^ 32) % 2 ^ 32) k.ioctl]) := by
  unfold CVideoBufferMemfd.Create
  rw [if_neg hne]

/-- C12, as stated, fails: `Create(65536, 65536)` records `m_size = 2 ^ 31`,
the product reduced modulo `2 ^ 32`, where the mathematical value of
`width * (height + height / 2)` is 6442450944. -/
theorem Create_size_counterexample :
    (bufferFresh.Create 65536 65536 (createSucceeds 7)).1.m_size = 2147483648 ∧
    65536 * (65536 + 65536 / 2) = 6442450944 ∧
    ¬ (bufferFresh.m_width = 65536 ∧ bufferFresh.m_height = 65536) ∧
    (bufferFresh.Create 65536 65536 (createSucceeds 7)).1.m_size
      ≠ 65536 * (65536 + 65536 / 2) := by
  decide

/-- C12, amended: for 32-bit unsigned `width` and `height` that are not both
equal to the buffer's current dimensions, `Create(width, height)` records as
`m_size` the value of `width * (height + (height >> 1))` computed in 32-bit
unsigned arithmetic; that is the mathematical value
`width * (height + height / 2)` whenever this value is below `2 ^ 32`. -/
theorem Create_size (b : CVideoBufferMemfd) (width height : Nat) (k : CreateOutcome)
    (hw : width < 2 ^ 32) (hh : height < 2 ^ 32)
    (hne : ¬ (b.m_width = width ∧ b.m_height = height)) :
    (b.Create width height k).1.m_size
      = width * ((height + height / 2) % 2 ^ 32) % 2 ^ 32 ∧
    (b.Create width height k).1.m_size < 2 ^ 32 ∧
    (b.Create width height k).1.m_width < 2 ^ 32 ∧
    (b.Create width height k).1.m_height < 2 ^ 32 ∧
    (width * (height + height / 2) < 2 ^ 32 →
      (b.Create width height k).1.m_size = width * (height + height / 2)) := by
  rw [Create_eq b width height k hne]
  refine ⟨rfl, Nat.mod_lt _ (by norm_num), hw, hh, ?_⟩
  intro hlt
  show width * ((height + height / 2) % 2 ^ 32) % 2 ^ 32 = width * (height + height / 2)
  by_cases hw0 : width = 0
  · subst hw0
    simp
  · have hsum : height + height / 2 < 2 ^ 32 := by
      have h1 : 1 * (height + height / 2) ≤ width * (height + height / 2) :=
        Nat.mul_le_mul_right _ (Nat.pos_of_ne_zero hw0)
      omega
    rw [Nat.mod_eq_of_lt hsum, Nat.mod_eq_of_lt hlt]

/-- C12, amended, at a fresh buffer and 1920 x 1080. -/
theorem Create_size_witness :
    (1920 : Nat) < 2 ^ 32 ∧ (1080 : Nat) < 2 ^ 32 ∧
    ¬ (bufferFresh.m_width = 1920 ∧ bufferFresh.m_height = 1080) ∧
    (bufferFresh.Create 1920 1080 (createSucceeds 7)).1.m_size = 3110400 := by
  have h := Create_size bufferFresh 1920 1080 (createSucceeds 7) (by decide) (by decide)
    (by decide)
  refine ⟨by decide, by decide, by decide, ?_⟩
  rw [h.2.2.2.2 (by decide)]

/-- C13, as stated, fails: in a `Create(64, 64)` whose export step fails after
the region was created and mapped, the buffer keeps the region's descriptor 7
and its mapping, no `close` and no `munmap` is made, the requested width and
height are recorded, and `IsValid` stays true. -/
theorem Create_failure_counterexample :
    createFailsAtExport.failed ∧
    (bufferFresh.Create 64 64 createFailsAtExport).1.m_memfd = 7 ∧
    (bufferFresh.Create 64 64 createFailsAtExport).1.m_addr = 4096 ∧
    (bufferFresh.Create 64 64 createFailsAtExport).2 =
      [SysCall.memfd_create 7, SysCall.ftruncate 7 6144 0, SysCall.mmap 6144 7 4096,
       SysCall.fcntl_add_seals 7 0, SysCall.udmabuf_create 5 7 6144 (-1)] ∧
    (bufferFresh.Create 64 64 createFailsAtExport).1.m_width = 64 ∧
    (bufferFresh.Create 64 64 createFailsAtExport).1.m_height = 64 ∧
    (bufferFresh.Create 64 64 createFailsAtExport).1.IsValid = true := by
  refine ⟨?_, by decide, by decide, by decide, by decide, by decide, rfl⟩
  unfold CreateOutcome.failed createFailsAtExport
  decide

/-- C13, amended: a `Create(width, height)` call that does not return at once
unwinds nothing, whichever of its kernel steps fail: after the calls of the
`Destroy` it starts with it makes all five kernel calls in order and no
`close` or `munmap`, records what `memfd_create`, `mmap` and the export
returned in `m_memfd`, `m_addr` and `m_dmafd`, records the requested width and
height, and leaves `IsValid` true. What the steps obtained is given back by the
next `Destroy`, which closes `m_dmafd` and `m_memfd` and unmaps `m_addr`,
provided the requested width and height are not both zero. -/
theorem Create_failure (b : CVideoBufferMemfd) (width height : Nat) (k : CreateOutcome)
    (hne : ¬ (b.m_width = width ∧ b.m_height = height)) :
    (b.Create width height k).1.m_memfd = k.memfd_create ∧
    (b.Create width height k).1.m_addr = k.mmap ∧
    (b.Create width height k).1.m_dmafd = k.ioctl ∧
    (b.Create width height k).1.m_width = width ∧
    (b.Create width height k).1.m_height = height ∧
    (b.Create width height k).1.IsValid = true ∧
    (∃ size, (b.Create width height k).2 = b.Destroy.2 ++
      [SysCall.memfd_create k.memfd_create,
       SysCall.ftruncate k.memfd_create size k.ftruncate,
       SysCall.mmap size k.memfd_create k.mmap,
       SysCall.fcntl_add_seals k.memfd_create k.fcntl,
       SysCall.udmabuf_create b.m_udmabuf (k.memfd_create % 2 ^ 32).toNat size k.ioctl] ∧
      (¬ (width = 0 ∧ height = 0) →
        (b.Create width height k).1.Destroy.2 =
          [SysCall.close k.ioctl, SysCall.close k.memfd_create, SysCall.munmap k.mmap size])) := by
  rw [Create_eq b width height k hne]
  have hud : b.Destroy.1.m_udmabuf = b.m_udmabuf := by
    unfold CVideoBufferMemfd.Destroy
    split_ifs <;> rfl
  refine ⟨rfl, rfl, rfl, rfl, rfl, rfl, _, by rw [hud], ?_⟩
  intro hz
  simp only [CVideoBufferMemfd.Destroy, hz, if_false]

/-- C13, amended, at a fresh buffer, 64 x 64 and a failing export step. -/
theorem Create_failure_witness :
    ¬ (bufferFresh.m_width = 64 ∧ bufferFresh.m_height = 64) ∧
    createFailsAtExport.failed ∧
    (bufferFresh.Create 64 64 createFailsAtExport).1.m_memfd = 7 ∧
    (bufferFresh.Create 64 64 createFailsAtExport).1.m_dmafd = -1 ∧
    (bufferFresh.Create 64 64 createFailsAtExport).1.m_width = 64 ∧
    (bufferFresh.Create 64 64 createFailsAtExport).1.IsValid = true := by
  have h := Create_failure bufferFresh 64 64 createFailsAtExport (by decide)
  refine ⟨by decide, ?_, h.1, h.2.2.1, h.2.2.2.1, h.2.2.2.2.2.1⟩
  unfold CreateOutcome.failed createFailsAtExport
  decide

/-- C14: `Destroy` is idempotent. A second `Destroy` right after a first one
changes no field and makes no kernel call, so `Destroy; Destroy` leaves the
buffer state and the sequence of kernel calls of a single `Destroy`; the calls
of a `Destroy` that finds a region are `close(m_dmafd)`, `close(m_memfd)`,
`munmap(m_addr, m_size)` in this order; and on a buffer with width and height
zero `Destroy` changes no field and makes no kernel call. -/
theorem Destroy_idempotent (b : CVideoBufferMemfd) :
    b.Destroy.1.Destroy.1 = b.Destroy.1 ∧
    b.Destroy.2 ++ b.Destroy.1.Destroy.2 = b.Destroy.2 ∧
    b.Destroy.1.Destroy.2 = [] ∧
    (b.Destroy.2 = [] ∨ b.Destroy.2 =
      [SysCall.close b.m_dmafd, SysCall.close b.m_memfd, SysCall.munmap b.m_addr b.m_size]) ∧
    (b.m_width = 0 ∧ b.m_height = 0 → b.Destroy = (b, [])) := by
  have hz : b.Destroy.1.m_width = 0 ∧ b.Destroy.1.m_height = 0 := by
    unfold CVideoBufferMemfd.Destroy
    split_ifs with h
    · exact h
    · exact ⟨rfl, rfl⟩
  have h2 : b.Destroy.1.Destroy = (b.Destroy.1, []) := by
    generalize b.Destroy.1 = c at hz
    unfold CVideoBufferMemfd.Destroy
    rw [if_pos hz]
  refine ⟨by rw [h2], by rw [h2]; simp, by rw [h2], ?_, ?_⟩
  · unfold CVideoBufferMemfd.Destroy
    split_ifs
    · exact Or.inl rfl
    · exact Or.inr rfl
  · intro h
    unfold CVideoBufferMemfd.Destroy
    rw [if_pos h]

end VideoBufferMemfd

namespace VideoBufferMemfd

/-- The layer `Create` lays out: three planes with offsets `0`, `w * h` and
`w * h + (w * h) / 4`, the products taken modulo `2 ^ 32`, and pitches `w`,
`w / 2` and `w / 2`. -/
theorem Create_layer (b : CVideoBufferMemfd) (width height : Nat) (k : CreateOutcome)
    (hne : ¬ (b.m_width = width ∧ b.m_height = height)) :
    (b.Create width height k).1.layer.nb_planes = 3 ∧
    (b.Create width height k).1.layer.format = DRM_FORMAT_YUV420 ∧
    ((b.Create width height k).1.layer.planes.getD 0 default).offset = 0 ∧
    ((b.Create width height k).1.layer.planes.getD 0 default).pitch = (width : Int) ∧
    ((b.Create width height k).1.layer.planes.getD 1 default).offset
      = ((width * height % 2 ^ 32 : Nat) : Int) ∧
    ((b.Create width height k).1.layer.planes.getD 1 default).pitch
      = ((width / 2 : Nat) : Int) ∧
    ((b.Create width height k).1.layer.planes.getD 2 default).offset
      = ((width * height % 2 ^ 32 : Nat) : Int) + ((width * height % 2 ^ 32 / 4 : Nat) : Int) ∧
    ((b.Create width height k).1.layer.planes.getD 2 default).pitch
      = ((width / 2 : Nat) : Int) := by
  rw [Create_eq b width height k hne]
  simp [CVideoBufferMemfd.layer, CVideoBufferMemfd.describe, arrayModify_getElem_getD]

/-- The three copies of `Import` on a buffer `Create` has just laid out, for
dimensions whose region size fits 32 bits and whatever the kernel calls
returned: the destinations are `m_addr` plus the plane offsets, reduced modulo
`2 ^ 64`. -/
theorem Import_Create (b : CVideoBufferMemfd) (width height : Nat) (k : CreateOutcome)
    (hov : width * (height + height / 2) < 2 ^ 32)
    (hne : ¬ (b.m_width = width ∧ b.m_height = height)) :
    (b.Create width height k).1.Import =
      [((k.mmap : Int) % 2 ^ 64, width * height),
       (((k.mmap : Int) + ((width * height : Nat) : Int)) % 2 ^ 64,
         width / 2 * (height / 2)),
       (((k.mmap : Int) + (((width * height : Nat) : Int) + ((width * height / 4 : Nat) : Int)))
           % 2 ^ 64,
         width / 2 * (height / 2))] := by
  obtain ⟨l1, -, o0, p0, o1, p1, o2, p2⟩ := Create_layer b width height k hne
  have hwh : width * height < 2 ^ 32 := by
    have : width * height ≤ width * (height + height / 2) :=
      Nat.mul_le_mul_left _ (Nat.le_add_right _ _)
    omega
  have hc : width / 2 * (height / 2) ≤ width * height :=
    Nat.mul_le_mul (Nat.div_le_self _ _) (Nat.div_le_self _ _)
  have hw2 : width / 2 * (height / 2) < 2 ^ 32 := by omega
  have hw : width < 2 ^ 32 ∨ height = 0 := by
    by_cases h0 : height = 0
    · exact Or.inr h0
    · left
      have : width * 1 ≤ width * (height + height / 2) :=
        Nat.mul_le_mul_left _ (by omega)
      omega
  have haddr : (b.Create width height k).1.m_addr = k.mmap := by
    rw [Create_eq b width height k hne]
  have hht : (b.Create width height k).1.m_height = height := by
    rw [Create_eq b width height k hne]
  have hbmod : ∀ n : Nat, (Int.bmod (n : Int) (2 ^ 32) % 2 ^ 32).toNat = n % 2 ^ 32 := by
    intro n
    have h : ((2 : Int) ^ 32) = (((2 ^ 32 : Nat)) : Int) := by norm_num
    rw [h, Int.bmod_emod]
    omega
  simp only [CVideoBufferMemfd.Import, CVideoBufferMemfd.GetPlanes, CVideoBufferMemfd.GetStrides,
    l1, haddr, hht]
  have hr : List.range (3 : Int).toNat = [0, 1, 2] := rfl
  rw [hr]
  simp only [List.map_cons, List.map_nil, List.getD_cons_zero, List.getD_cons_succ]
  have e0 : width % 2 ^ 32 * height % 2 ^ 32 = width * height := by
    rcases hw with hw | h0
    · rw [Nat.mod_eq_of_lt hw, Nat.mod_eq_of_lt hwh]
    · subst h0
      rfl
  have hdiv : width / 2 < 2 ^ 32 ∨ height / 2 = 0 := by
    rcases hw with hw | h0
    · left
      omega
    · right
      omega
  have e1 : width / 2 % 2 ^ 32 * (height / 2) % 2 ^ 32 = width / 2 * (height / 2) := by
    rcases hdiv with hd | h0
    · rw [Nat.mod_eq_of_lt hd, Nat.mod_eq_of_lt hw2]
    · rw [h0]
      rfl
  rw [o0, p0, o1, p1, o2, p2, hbmod width, hbmod (width / 2), Nat.mod_eq_of_lt hwh, add_zero,
    e0, e1]

/-- The second plane ends where the third begins or before, for every width
and height. -/
theorem chroma_le_quarter (w h : Nat) : w / 2 * (h / 2) ≤ w * h / 4 := by
  rw [Nat.le_div_iff_mul_le (by norm_num)]
  have a : 2 * (w / 2) ≤ w := Nat.mul_div_le w 2
  have c : 2 * (h / 2) ≤ h := Nat.mul_div_le h 2
  have := Nat.mul_le_mul a c
  calc w / 2 * (h / 2) * 4 = 2 * (w / 2) * (2 * (h / 2)) := by ring
    _ ≤ w * h := this

/-- For an even height the quarter-size offset and one chroma plane fit into
the half-height part of the region. -/
theorem chroma_fit_even (w h : Nat) (heven : h % 2 = 0) :
    w * h / 4 + w / 2 * (h / 2) ≤ w * (h / 2) := by
  have e : w * h = 2 * (w * (h / 2)) := by
    have hh : h = 2 * (h / 2) := by omega
    calc w * h = w * (2 * (h / 2)) := by rw [← hh]
      _ = 2 * (w * (h / 2)) := by ring
  have a : 2 * (w / 2 * (h / 2)) ≤ w * (h / 2) := by
    have := Nat.mul_le_mul_right (h / 2) (Nat.mul_div_le w 2)
    calc 2 * (w / 2 * (h / 2)) = 2 * (w / 2) * (h / 2) := by ring
      _ ≤ w * (h / 2) := this
  rw [e]
  omega

/-- C18, as stated, fails: for width 4 and height 3 the region has 16 bytes
and `Import` copies 2 bytes to offset 15, one byte past the end; the region is
mapped at address 4096. -/
theorem Import_bounds_counterexample :
    4 * (3 + 3 / 2) < 2 ^ 32 ∧
    (bufferFresh.Create 4 3 (createSucceeds 7)).1.m_size = 16 ∧
    (bufferFresh.Create 4 3 (createSucceeds 7)).1.m_addr = 4096 ∧
    (bufferFresh.Create 4 3 (createSucceeds 7)).1.Import
      = [(4096, 12), (4108, 2), (4111, 2)] ∧
    ¬ ((4111 : Int) + 2 ≤ 4096 + 16) := by
  refine ⟨by decide, by decide, by decide, ?_, by decide⟩
  rw [Import_Create bufferFresh 4 3 (createSucceeds 7) (by decide) (by decide)]
  decide

/-- C18, amended: for every width and height for which
`width * (height + height / 2)` fits 32 bits, and whatever the kernel calls of
`Create` returned, the three byte ranges `Import` copies to on a buffer laid
out by `Create` start at the offsets `0`, `w * h` and `w * h + (w * h) / 4`
from `m_addr`, the address taken modulo `2 ^ 64`, and have `w * h`,
`(w / 2) * (h / 2)` and `(w / 2) * (h / 2)` bytes. For every height each of
the first two ranges ends where the next begins or before, so the three ranges
are pairwise disjoint. For an even height the last range ends at `m_size` or
before, so all three lie inside the region; and if moreover the region
`[m_addr, m_addr + m_size)` lies in the address space, no destination address
wraps and `Import` copies inside the mapped region. -/
theorem Import_bounds (b : CVideoBufferMemfd) (width height : Nat) (k : CreateOutcome)
    (hov : width * (height + height / 2) < 2 ^ 32)
    (hne : ¬ (b.m_width = width ∧ b.m_height = height)) :
    (b.Create width height k).1.Import =
      [((k.mmap : Int) % 2 ^ 64, width * height),
       (((k.mmap : Int) + ((width * height : Nat) : Int)) % 2 ^ 64,
         width / 2 * (height / 2)),
       (((k.mmap : Int) + (((width * height : Nat) : Int) + ((width * height / 4 : Nat) : Int)))
           % 2 ^ 64,
         width / 2 * (height / 2))] ∧
    (b.Create width height k).1.m_addr = k.mmap ∧
    (b.Create width height k).1.m_size = width * (height + height / 2) ∧
    0 + width * height ≤ width * height ∧
    width * height + width / 2 * (height / 2) ≤ width * height + width * height / 4 ∧
    (height % 2 = 0 →
      width * height + width * height / 4 + width / 2 * (height / 2)
        ≤ (b.Create width height k).1.m_size) ∧
    (height % 2 = 0 → k.mmap + (b.Create width height k).1.m_size < 2 ^ 64 →
      (b.Create width height k).1.Import =
        [((k.mmap : Int), width * height),
         ((k.mmap : Int) + ((width * height : Nat) : Int), width / 2 * (height / 2)),
         ((k.mmap : Int) + (((width * height : Nat) : Int) + ((width * height / 4 : Nat) : Int)),
           width / 2 * (height / 2))]) := by
  have hI := Import_Create b width height k hov hne
  have hsum : height + height / 2 < 2 ^ 32 ∨ width = 0 := by
    by_cases hw0 : width = 0
    · exact Or.inr hw0
    · left
      have h1 : 1 * (height + height / 2) ≤ width * (height + height / 2) :=
        Nat.mul_le_mul_right _ (Nat.pos_of_ne_zero hw0)
      omega
  have hsize : (b.Create width height k).1.m_size = width * (height + height / 2) := by
    rw [Create_eq b width height k hne]
    show width * ((height + height / 2) % 2 ^ 32) % 2 ^ 32 = width * (height + height / 2)
    rcases hsum with hs | hw0
    · rw [Nat.mod_eq_of_lt hs, Nat.mod_eq_of_lt hov]
    · subst hw0
      simp
  have haddr : (b.Create width height k).1.m_addr = k.mmap := by
    rw [Create_eq b width height k hne]
  have q := chroma_le_quarter width height
  have hfit : height % 2 = 0 →
      width * height + width * height / 4 + width / 2 * (height / 2)
        ≤ width * (height + height / 2) := by
    intro heven
    have f := chroma_fit_even width height heven
    rw [Nat.mul_add]
    omega
  refine ⟨hI, haddr, hsize, by omega, by omega, ?_, ?_⟩
  · intro heven
    rw [hsize]
    exact hfit heven
  · intro heven hspace
    rw [hsize] at hspace
    have f := hfit heven
    have m0 : (k.mmap : Int) % 2 ^ 64 = (k.mmap : Int) := by
      apply Int.emod_eq_of_lt <;> omega
    have m1 : ((k.mmap : Int) + ((width * height : Nat) : Int)) % 2 ^ 64
        = (k.mmap : Int) + ((width * height : Nat) : Int) := by
      apply Int.emod_eq_of_lt <;> omega
    have m2 : ((k.mmap : Int) + (((width * height : Nat) : Int)
          + ((width * height / 4 : Nat) : Int))) % 2 ^ 64
        = (k.mmap : Int) + (((width * height : Nat) : Int)
          + ((width * height / 4 : Nat) : Int)) := by
      apply Int.emod_eq_of_lt <;> omega
    rw [hI, m0, m1, m2]

/-- C18, amended, at a fresh buffer and 64 x 64: once with a region mapped at
address 4096, once with a failed `mmap`, where the destinations of the second
and third copy wrap to 4095 and 5119. -/
theorem Import_bounds_witness :
    64 * (64 + 64 / 2) < 2 ^ 32 ∧
    ¬ (bufferFresh.m_width = 64 ∧ bufferFresh.m_height = 64) ∧
    (bufferFresh.Create 64 64 (createSucceeds 7)).1.Import
      = [(4096, 4096), (8192, 1024), (9216, 1024)] ∧
    (bufferFresh.Create 64 64 (createSucceeds 7)).1.m_size = 6144 ∧
    64 % 2 = 0 ∧
    64 * 64 + 64 * 64 / 4 + 64 / 2 * (64 / 2)
      ≤ (bufferFresh.Create 64 64 (createSucceeds 7)).1.m_size ∧
    (bufferFresh.Create 64 64 createFailsAtMmap).1.Import
      = [(18446744073709551615, 4096), (4095, 1024), (5119, 1024)] := by
  have h := Import_bounds bufferFresh 64 64 (createSucceeds 7) (by decide) (by decide)
  have h2 := Import_bounds bufferFresh 64 64 createFailsAtMmap (by decide) (by decide)
  refine ⟨by decide, by decide, ?_, ?_, by decide, h.2.2.2.2.2.1 (by decide), ?_⟩
  · rw [h.1]
    decide
  · rw [h.2.2.1]
  · rw [h2.1]
    decide

end VideoBufferMemfd

/-! ## Theorems: pool teardown -/

namespace VideoBufferMemfd

/-- Handing-out counts add up over a concatenation. -/
theorem opened_append (v : Int) (a c : List SysCall) :
    opened v (a ++ c) = opened v a + opened v c := by
  simp [opened, List.map_append, List.sum_append]

/-- Closing counts add up over a concatenation. -/
theorem closed_append (v : Int) (a c : List SysCall) :
    closed v (a ++ c) = closed v a + closed v c := by
  simp [closed, List.map_append, List.sum_append]

/-- A prefix closes no more than the whole trace. -/
theorem closed_take_le (v : Int) (e : List SysCall) (n : Nat) :
    closed v (e.take n) ≤ closed v e := by
  have h : closed v e = closed v (e.take n) + closed v (e.drop n) := by
    rw [← closed_append, List.take_append_drop]
  omega

/-- Appending calls that close only what is still open keeps a trace free of
closes of descriptors that are not open. -/
theorem NoOverClose_append (t e : List SysCall) (ht : NoOverClose t)
    (he : ∀ v, 0 ≤ v → closed v t + closed v e ≤ opened v t) : NoOverClose (t ++ e) := by
  intro n v hv
  rw [List.take_append_eq_append_take, opened_append, closed_append]
  by_cases hn : n ≤ t.length
  · have h0 : n - t.length = 0 := by omega
    rw [h0]
    have := ht n v hv
    simp only [List.take_zero, closed, opened, List.map_nil, List.sum_nil, Nat.add_zero]
    exact this
  · rw [List.take_of_length_le (by omega)]
    have h1 := closed_take_le v e (n - t.length)
    have h2 := he v hv
    omega

/-- The sum of a quantity over the buffers after one buffer was replaced. -/
theorem sum_map_set (f : CVideoBufferMemfd → Nat) (l : List CVideoBufferMemfd) (i : Nat)
    (old new : CVideoBufferMemfd) (h : l[i]? = some old) :
    ((l.set i new).map f).sum + f old = (l.map f).sum + f new := by
  induction l generalizing i with
  | nil => simp at h
  | cons x xs ih =>
    cases i with
    | zero =>
      simp only [List.getElem?_cons_zero, Option.some.injEq] at h
      subst h
      simp only [List.set_cons_zero, List.map_cons, List.sum_cons]
      omega
    | succ n =>
      simp only [List.getElem?_cons_succ] at h
      have := ih n h
      simp only [List.set_cons_succ, List.map_cons, List.sum_cons]
      omega

/-- One buffer holds no more than all buffers together. -/
theorem holds_le_sum (v : Int) (l : List CVideoBufferMemfd) (b : CVideoBufferMemfd)
    (h : b ∈ l) : b.holds v ≤ (l.map (CVideoBufferMemfd.holds v)).sum := by
  induction l with
  | nil => cases h
  | cons x xs ih =>
    simp only [List.mem_cons] at h
    simp only [List.map_cons, List.sum_cons]
    rcases h with rfl | h
    · omega
    · have := ih h
      omega

/-- What `Destroy` does to the descriptors of a buffer that holds none while
its width and height are zero: it hands out nothing, closes exactly what the
buffer holds, and leaves a buffer that holds nothing. -/
theorem Destroy_descriptors (b : CVideoBufferMemfd)
    (hb : b.m_width = 0 → b.m_height = 0 → b.m_dmafd < 0 ∧ b.m_memfd < 0)
    (v : Int) (hv : 0 ≤ v) :
    opened v b.Destroy.2 = 0 ∧ closed v b.Destroy.2 = b.holds v ∧ b.Destroy.1.holds v = 0 ∧
    b.Destroy.1.m_width = 0 ∧ b.Destroy.1.m_height = 0 ∧
    b.Destroy.1.m_dmafd < 0 ∧ b.Destroy.1.m_memfd < 0 := by
  unfold CVideoBufferMemfd.Destroy
  by_cases hz : b.m_width = 0 ∧ b.m_height = 0
  · obtain ⟨h1, h2⟩ := hb hz.1 hz.2
    have n1 : b.m_dmafd ≠ v := by omega
    have n2 : b.m_memfd ≠ v := by omega
    simp [hz, opened, closed, CVideoBufferMemfd.holds, n1, n2, h1, h2]
  · have n1 : (-1 : Int) ≠ v := by omega
    simp [hz, opened, closed, CVideoBufferMemfd.holds, SysCall.opens, SysCall.closes, n1]

/-- What `Create` does to the descriptors, for dimensions that are not both
zero: what it hands out and what the buffer held before equals what it closes
and what the buffer holds afterwards, and it closes only what the buffer held. -/
theorem Create_descriptors (b : CVideoBufferMemfd) (width height : Nat) (k : CreateOutcome)
    (hb : b.m_width = 0 → b.m_height = 0 → b.m_dmafd < 0 ∧ b.m_memfd < 0)
    (hnz : width ≠ 0 ∨ height ≠ 0) (v : Int) (hv : 0 ≤ v) :
    opened v (b.Create width height k).2 + b.holds v
      = closed v (b.Create width height k).2 + (b.Create width height k).1.holds v ∧
    closed v (b.Create width height k).2 ≤ b.holds v ∧
    ((b.Create width height k).1.m_width = 0 → (b.Create width height k).1.m_height = 0 →
      (b.Create width height k).1.m_dmafd < 0 ∧ (b.Create width height k).1.m_memfd < 0) := by
  by_cases hne : b.m_width = width ∧ b.m_height = height
  · have he : b.Create width height k = (b, []) := by
      unfold CVideoBufferMemfd.Create
      rw [if_pos hne]
    rw [he]
    refine ⟨?_, ?_, hb⟩
    · simp [opened, closed]
    · simp [closed]
  · obtain ⟨d1, d2, -, -, -, -, -⟩ := Destroy_descriptors b hb v hv
    have hC := Create_eq b width height k hne
    have ho : opened v (b.Create width height k).2
        = (if k.ioctl = v then 1 else 0) + (if k.memfd_create = v then 1 else 0) := by
      rw [hC, opened_append, d1]
      simp only [opened, SysCall.opens, List.map_cons, List.map_nil, List.sum_cons,
        List.sum_nil]
      omega
    have hcl : closed v (b.Create width height k).2 = b.holds v := by
      rw [hC, closed_append, d2]
      simp only [closed, SysCall.closes, List.map_cons, List.map_nil, List.sum_cons,
        List.sum_nil]
      omega
    have hh : (b.Create width height k).1.holds v
        = (if k.ioctl = v then 1 else 0) + (if k.memfd_create = v then 1 else 0) := by
      rw [hC]
      rfl
    have hw : (b.Create width height k).1.m_width = width := by rw [hC]
    have hht : (b.Create width height k).1.m_height = height := by rw [hC]
    refine ⟨by omega, by omega, ?_⟩
    intro hw0 hh0
    rw [hw] at hw0
    rw [hht] at hh0
    rcases hnz with h | h
    · exact absurd hw0 h
    · exact absurd hh0 h

end VideoBufferMemfd

namespace VideoBufferMemfd

/-- A trace that never closes a descriptor that is not open has, at its end,
closed each descriptor at most as often as it was handed out. -/
theorem NoOverClose_total (t : List SysCall) (ht : NoOverClose t) (v : Int) (hv : 0 ≤ v) :
    closed v t ≤ opened v t := by
  have h := ht t.length v hv
  rwa [List.take_length] at h

/-- The bookkeeping survives a step that appends the calls `e`, if `e` hands
out and closes in step with what the pool holds before and after, and closes
only what the pool held. -/
theorem Balanced_step (s t : PoolRun) (e : List SysCall) (hs : s.Balanced)
    (hcalls : t.calls = s.calls ++ e)
    (hbal : ∀ v, 0 ≤ v →
      opened v e + ((if s.pool.m_fd = v then 1 else 0)
          + (s.pool.m_all.map (CVideoBufferMemfd.holds v)).sum)
        = closed v e + ((if t.pool.m_fd = v then 1 else 0)
          + (t.pool.m_all.map (CVideoBufferMemfd.holds v)).sum))
    (hcl : ∀ v, 0 ≤ v →
      closed v e ≤ (if s.pool.m_fd = v then 1 else 0)
          + (s.pool.m_all.map (CVideoBufferMemfd.holds v)).sum)
    (hz : ∀ b ∈ t.pool.m_all, b.m_width = 0 → b.m_height = 0 → b.m_dmafd < 0 ∧ b.m_memfd < 0) :
    t.Balanced := by
  obtain ⟨h1, _, h3⟩ := hs
  refine ⟨?_, hz, ?_⟩
  · intro v hv
    rw [hcalls, opened_append, closed_append]
    have a1 := h1 v hv
    have a2 := hbal v hv
    omega
  · rw [hcalls]
    apply NoOverClose_append _ _ h3
    intro v hv
    have a1 := h1 v hv
    have a2 := hcl v hv
    omega

/-- A pool that has made no call yet is in balance. -/
theorem Balanced_init : PoolRun.Balanced {} := by
  refine ⟨?_, ?_, ?_⟩
  · intro v hv
    have n1 : (-1 : Int) ≠ v := by omega
    simp [opened, closed, n1]
  · intro b hb
    simp at hb
  · intro n v _
    simp [opened, closed]

/-- The bookkeeping survives `Get`. -/
theorem Balanced_get (s t : PoolRun) (r : Int) (hs : s.Balanced)
    (h : PoolStep.apply s (.get r) = some t) : t.Balanced := by
  simp only [PoolStep.apply, Option.map_eq_some', Prod.exists] at h
  obtain ⟨i, q, hg, rfl⟩ := h
  cases hf : s.pool.m_free with
  | nil =>
    rw [Get_nil _ _ hf] at hg
    simp only [Option.some.injEq, Prod.mk.injEq] at hg
    obtain ⟨-, rfl⟩ := hg
    apply Balanced_step s _ (s.pool.GetCalls r) hs rfl
    · intro v hv
      have n1 : (-1 : Int) ≠ v := by omega
      by_cases hfd : s.pool.m_fd = -1
      · simp [CVideoBufferPoolMemfd.GetCalls, hf, hfd, opened, closed, SysCall.opens,
          SysCall.closes, CVideoBufferMemfd.holds, CVideoBufferMemfd.Acquire,
          CVideoBufferMemfd.new, n1]
      · simp [CVideoBufferPoolMemfd.GetCalls, hf, hfd, opened, closed,
          CVideoBufferMemfd.holds, CVideoBufferMemfd.Acquire, CVideoBufferMemfd.new, n1]
    · intro v _
      by_cases hfd : s.pool.m_fd = -1
      · simp [CVideoBufferPoolMemfd.GetCalls, hf, hfd, closed, SysCall.closes]
      · simp [CVideoBufferPoolMemfd.GetCalls, hf, hfd, closed]
    · intro b hb
      simp only [List.mem_append, List.mem_singleton] at hb
      rcases hb with hb | rfl
      · exact hs.2.1 b hb
      · intro _ _
        simp [CVideoBufferMemfd.Acquire, CVideoBufferMemfd.new]
  | cons idx rest =>
    unfold CVideoBufferPoolMemfd.Get at hg
    rw [hf] at hg
    by_cases h0 : 0 ≤ idx
    · simp only [if_pos h0] at hg
      cases hb : s.pool.m_all[idx.toNat]? with
      | none => simp [hb] at hg
      | some buf =>
        simp only [hb, Option.some.injEq, Prod.mk.injEq] at hg
        obtain ⟨-, rfl⟩ := hg
        have hmem : buf ∈ s.pool.m_all := List.getElem?_mem hb
        apply Balanced_step s _ [] hs
        · simp [CVideoBufferPoolMemfd.GetCalls, hf]
        · intro v _
          have hsum := sum_map_set (CVideoBufferMemfd.holds v) s.pool.m_all idx.toNat buf
            buf.Acquire hb
          have hsame : buf.Acquire.holds v = buf.holds v := rfl
          simp only [opened, closed, List.map_nil, List.sum_nil]
          omega
        · intro v _
          simp [closed]
        · intro b hbm
          rcases List.mem_or_eq_of_mem_set hbm with hbm | rfl
          · exact hs.2.1 b hbm
          · exact hs.2.1 buf hmem
    · simp [if_neg h0] at hg

/-- The bookkeeping survives `Return`, which touches no descriptor. -/
theorem Balanced_ret (s t : PoolRun) (id : Int) (hs : s.Balanced)
    (h : PoolStep.apply s (.ret id) = some t) : t.Balanced := by
  simp only [PoolStep.apply, Option.map_eq_some'] at h
  obtain ⟨q, hq, rfl⟩ := h
  obtain ⟨h0, h1⟩ := Return_defined _ _ _ hq
  rw [Return_eq _ _ h0 h1] at hq
  simp only [Option.some.injEq] at hq
  subst hq
  exact hs

/-- The bookkeeping survives a `Create` whose dimensions are not both zero. -/
theorem Balanced_create (s t : PoolRun) (i width height : Nat) (k : CreateOutcome)
    (hs : s.Balanced) (hnz : width ≠ 0 ∨ height ≠ 0)
    (h : PoolStep.apply s (.create i width height k) = some t) : t.Balanced := by
  simp only [PoolStep.apply] at h
  cases hb : s.pool.m_all[i]? with
  | none => simp [hb] at h
  | some b =>
    simp only [hb, Option.some.injEq] at h
    subst h
    have hmem : b ∈ s.pool.m_all := List.getElem?_mem hb
    have hbz := hs.2.1 b hmem
    apply Balanced_step s _ (b.Create width height k).2 hs rfl
    · intro v hv
      obtain ⟨c1, -, -⟩ := Create_descriptors b width height k hbz hnz v hv
      have hsum := sum_map_set (CVideoBufferMemfd.holds v) s.pool.m_all i b
        (b.Create width height k).1 hb
      show opened v (b.Create width height k).2 + ((if s.pool.m_fd = v then 1 else 0)
          + (s.pool.m_all.map (CVideoBufferMemfd.holds v)).sum)
        = closed v (b.Create width height k).2 + ((if s.pool.m_fd = v then 1 else 0)
          + ((s.pool.m_all.set i (b.Create width height k).1).map
              (CVideoBufferMemfd.holds v)).sum)
      omega
    · intro v hv
      obtain ⟨-, c2, -⟩ := Create_descriptors b width height k hbz hnz v hv
      have hle := holds_le_sum v s.pool.m_all b hmem
      omega
    · intro b2 hbm
      rcases List.mem_or_eq_of_mem_set hbm with hbm | rfl
      · exact hs.2.1 b2 hbm
      · exact (Create_descriptors b width height k hbz hnz 0 (le_refl 0)).2.2

/-- The bookkeeping holds after every run from a balanced state in which no
`Create` asks for width and height zero together. -/
theorem Balanced_poolRun (steps : List PoolStep) (s t : PoolRun) (hs : s.Balanced)
    (hnz : createsNonzero steps) (h : poolRun s steps = some t) : t.Balanced := by
  induction steps generalizing s with
  | nil =>
    simp only [poolRun, Option.some.injEq] at h
    subst h
    exact hs
  | cons c cs ih =>
    simp only [poolRun, Option.bind_eq_some] at h
    obtain ⟨u, hu, hrest⟩ := h
    cases c with
    | get r => exact ih u (Balanced_get s u r hs hu) hnz hrest
    | ret id => exact ih u (Balanced_ret s u id hs hu) hnz hrest
    | create i w hgt k =>
      exact ih u (Balanced_create s u i w hgt k hs hnz.1 hu) hnz.2 hrest

/-- Closing counts of a concatenation of traces. -/
theorem closed_flatten (v : Int) (L : List (List SysCall)) :
    closed v L.flatten = (L.map (closed v)).sum := by
  induction L with
  | nil => simp [closed]
  | cons x xs ih => rw [List.flatten_cons, closed_append, ih, List.map_cons, List.sum_cons]

/-- Handing-out counts of a concatenation of traces. -/
theorem opened_flatten (v : Int) (L : List (List SysCall)) :
    opened v L.flatten = (L.map (opened v)).sum := by
  induction L with
  | nil => simp [opened]
  | cons x xs ih => rw [List.flatten_cons, opened_append, ih, List.map_cons, List.sum_cons]

/-- The calls of the pool destructor hand out nothing and close what the pool
holds: `m_fd` once and each buffer's two descriptors once. -/
theorem destroy_descriptors (p : CVideoBufferPoolMemfd)
    (hz : ∀ b ∈ p.m_all, b.m_width = 0 → b.m_height = 0 → b.m_dmafd < 0 ∧ b.m_memfd < 0)
    (v : Int) (hv : 0 ≤ v) :
    opened v p.destroy.2 = 0 ∧
    closed v p.destroy.2
      = (if p.m_fd = v then 1 else 0) + (p.m_all.map (CVideoBufferMemfd.holds v)).sum := by
  have hsplit : p.destroy.2
      = [SysCall.close p.m_fd] ++ (p.m_all.map fun b => b.Unref.Destroy.2).flatten := rfl
  rw [hsplit, opened_append, closed_append, opened_flatten, closed_flatten, List.map_map,
    List.map_map]
  have ho : p.m_all.map (opened v ∘ fun b => b.Unref.Destroy.2) = p.m_all.map fun _ => 0 := by
    apply List.map_congr_left
    intro b hb
    exact (Destroy_descriptors b (hz b hb) v hv).1
  have hc : p.m_all.map (closed v ∘ fun b => b.Unref.Destroy.2)
      = p.m_all.map (CVideoBufferMemfd.holds v) := by
    apply List.map_congr_left
    intro b hb
    exact (Destroy_descriptors b (hz b hb) v hv).2.1
  rw [ho, hc]
  constructor
  · simp [opened, SysCall.opens]
  · simp [closed, SysCall.closes]

end VideoBufferMemfd

namespace VideoBufferMemfd

/-- C15 (counterexample): a buffer is given a 64 x 64 region and is then asked
for a 0 x 0 region. The second `Create` closes the descriptors 8 and 7 of the
first region and stores the new descriptor 9 in `m_memfd` with width and
height zero, so the `Destroy` of the pool teardown returns at once: the
teardown closes the export-context descriptor 5 only, and descriptor 9, handed
out once, is never closed. -/
theorem teardown_closes_once_counterexample :
    (poolRun {} stepsZeroCreate).map (fun s => s.teardown.calls) = some
      [SysCall.open_udmabuf 5,
       SysCall.memfd_create 7, SysCall.ftruncate 7 6144 0, SysCall.mmap 6144 7 4096,
       SysCall.fcntl_add_seals 7 0, SysCall.udmabuf_create 5 7 6144 8,
       SysCall.close 8, SysCall.close 7, SysCall.munmap 4096 6144,
       SysCall.memfd_create 9, SysCall.ftruncate 9 0 0, SysCall.mmap 0 9 MAP_FAILED,
       SysCall.fcntl_add_seals 9 0, SysCall.udmabuf_create 5 9 0 (-1),
       SysCall.close 5] ∧
    (poolRun {} stepsZeroCreate).map
        (fun s => (opened 9 s.teardown.calls, closed 9 s.teardown.calls)) = some (1, 0) ∧
    (poolRun {} stepsZeroCreate).map
        (fun s => s.pool.m_all.map fun b => (b.m_width, b.m_height, b.m_memfd, b.m_dmafd))
      = some [(0, 0, 9, -1)] := by
  refine ⟨?_, ?_, ?_⟩ <;> rfl

/-- C15 (amended): for every pool state reached from a fresh pool by a sequence
of `Get`, `Return` and buffer `Create` calls in which no `Create` asks for
width 0 and height 0 together, the pool teardown calls `close` on `m_fd` once
and, for every buffer whose width and height are not both zero, `close` on its
DMA-buffer descriptor once, `close` on its memory-region descriptor once and
`munmap` once, wherever the buffer's identifier is listed; the other buffers
hold no valid descriptor; over the whole run with its teardown no valid
descriptor is closed while it is not open, and every valid descriptor is
closed as often as it was handed out, so none is left open. -/
theorem teardown_closes_once (steps : List PoolStep) (s : PoolRun)
    (hnz : createsNonzero steps) (hrun : poolRun {} steps = some s) :
    s.pool.destroy.2 = SysCall.close s.pool.m_fd ::
      (s.pool.m_all.map fun b =>
        if b.m_width = 0 ∧ b.m_height = 0 then []
        else [SysCall.close b.m_dmafd, SysCall.close b.m_memfd,
              SysCall.munmap b.m_addr b.m_size]).flatten ∧
    (∀ b ∈ s.pool.m_all, b.m_width = 0 → b.m_height = 0 → b.m_dmafd < 0 ∧ b.m_memfd < 0) ∧
    NoOverClose s.teardown.calls ∧
    (∀ v, 0 ≤ v → closed v s.teardown.calls = opened v s.teardown.calls) := by
  have hB := Balanced_poolRun steps {} s Balanced_init hnz hrun
  obtain ⟨h1, h2, h3⟩ := hB
  refine ⟨?_, h2, ?_, ?_⟩
  · have hl : (s.pool.m_all.map fun b => b.Unref.Destroy.2)
        = s.pool.m_all.map fun b =>
          if b.m_width = 0 ∧ b.m_height = 0 then []
          else [SysCall.close b.m_dmafd, SysCall.close b.m_memfd,
                SysCall.munmap b.m_addr b.m_size] := by
      apply List.map_congr_left
      intro b _
      unfold CVideoBufferMemfd.Unref CVideoBufferMemfd.Destroy
      by_cases hz : b.m_width = 0 ∧ b.m_height = 0
      · rw [if_pos hz, if_pos hz]
      · rw [if_neg hz, if_neg hz]
    show SysCall.close s.pool.m_fd :: (s.pool.m_all.map fun b => b.Unref.Destroy.2).flatten = _
    rw [hl]
  · show NoOverClose (s.calls ++ s.pool.destroy.2)
    apply NoOverClose_append _ _ h3
    intro v hv
    have a1 := h1 v hv
    have a2 := (destroy_descriptors s.pool h2 v hv).2
    omega
  · intro v hv
    show closed v (s.calls ++ s.pool.destroy.2) = opened v (s.calls ++ s.pool.destroy.2)
    rw [closed_append, opened_append]
    have a1 := h1 v hv
    obtain ⟨a2, a3⟩ := destroy_descriptors s.pool h2 v hv
    omega

/-- C15 (witness): two buffers with a 64 x 64 region each, one checked out and
one given back. -/
theorem teardown_closes_once_witness :
    createsNonzero stepsTwoBuffers ∧ poolRun {} stepsTwoBuffers = some runTwoBuffers ∧
    runTwoBuffers.pool.m_used = [1] ∧ runTwoBuffers.pool.m_free = [0] ∧
    runTwoBuffers.pool.destroy.2 =
      [SysCall.close 5, SysCall.close 8, SysCall.close 7, SysCall.munmap 4096 6144,
       SysCall.close 10, SysCall.close 9, SysCall.munmap 4096 6144] ∧
    NoOverClose runTwoBuffers.teardown.calls ∧
    (∀ v, 0 ≤ v →
      closed v runTwoBuffers.teardown.calls = opened v runTwoBuffers.teardown.calls) :=
  have hnz : createsNonzero stepsTwoBuffers := by
    simp [createsNonzero, stepsTwoBuffers]
  have h := teardown_closes_once stepsTwoBuffers runTwoBuffers hnz rfl
  ⟨hnz, rfl, rfl, rfl, rfl, h.2.2.1, h.2.2.2⟩

end VideoBufferMemfd

/-! ## Theorems: the `Configure` hook of the layer bridge -/

namespace RendererDRMPRIME

namespace CRendererDRMPRIME

/-- The method `ReleaseBuffer` makes no call on the bridge. -/
theorem ReleaseBuffer_bridgeCalls (r : CRendererDRMPRIME) (index : Nat) :
    (r.ReleaseBuffer index).bridgeCalls = r.bridgeCalls := by
  unfold ReleaseBuffer
  cases r.m_buffers index <;> rfl

/-- Releasing a list of slots makes no call on the bridge. -/
theorem foldl_ReleaseBuffer_bridgeCalls (is : List Nat) (r : CRendererDRMPRIME) :
    (is.foldl ReleaseBuffer r).bridgeCalls = r.bridgeCalls := by
  induction is generalizing r with
  | nil => rfl
  | cons i rest ih => rw [List.foldl_cons, ih, ReleaseBuffer_bridgeCalls]

/-- The method `Flush` makes no call on the bridge and sets
`m_iLastRenderBuffer` to -1. -/
theorem Flush_spec (r : CRendererDRMPRIME) (saveBuffers : Bool) :
    (r.Flush saveBuffers).bridgeCalls = r.bridgeCalls ∧
    (r.Flush saveBuffers).m_iLastRenderBuffer = -1 := by
  unfold Flush
  cases saveBuffers
  · exact ⟨foldl_ReleaseBuffer_bridgeCalls _ r, rfl⟩
  · exact ⟨rfl, rfl⟩

/-- The method `RenderUpdate` either makes no call on the bridge and leaves
`m_iLastRenderBuffer` as it is, or presents the buffer of the slot: it calls
the `Configure` hook if `m_iLastRenderBuffer` is -1, then `SetVideoPlane`, and
stores the slot index. -/
theorem RenderUpdate_cases (r : CRendererDRMPRIME) (index : Nat) :
    ((r.RenderUpdate index).bridgeCalls = r.bridgeCalls ∧
      (r.RenderUpdate index).m_iLastRenderBuffer = r.m_iLastRenderBuffer) ∨
    ∃ b, (r.RenderUpdate index).bridgeCalls
        = r.bridgeCalls ++ (if r.m_iLastRenderBuffer = -1 then [BridgeCall.Configure b] else [])
            ++ [BridgeCall.SetVideoPlane b] ∧
      (r.RenderUpdate index).m_iLastRenderBuffer = (index : Int) := by
  unfold RenderUpdate
  split
  · exact Or.inl ⟨rfl, rfl⟩
  · split
    · exact Or.inl ⟨rfl, rfl⟩
    · split
      · exact Or.inl ⟨rfl, rfl⟩
      · split
        · exact Or.inl ⟨rfl, rfl⟩
        · split
          · exact Or.inl ⟨rfl, rfl⟩
          · exact Or.inr ⟨_, rfl, rfl⟩

end CRendererDRMPRIME

/-- Appending one presentation to a log in which every `Configure` is directly
followed by the `SetVideoPlane` of the same buffer gives such a log again. -/
theorem paired_append (l conf : List BridgeCall) (b : BufPtr)
    (hl : ∀ i q, l[i]? = some (BridgeCall.Configure q) →
      l[i + 1]? = some (BridgeCall.SetVideoPlane q))
    (hconf : conf = [] ∨ conf = [BridgeCall.Configure b]) :
    ∀ i q, (l ++ conf ++ [BridgeCall.SetVideoPlane b])[i]? = some (BridgeCall.Configure q) →
      (l ++ conf ++ [BridgeCall.SetVideoPlane b])[i + 1]? = some (BridgeCall.SetVideoPlane q) := by
  intro i q h
  rw [List.append_assoc] at h ⊢
  by_cases hi : i < l.length
  · rw [List.getElem?_append_left hi] at h
    have h2 := hl i q h
    have hlt : i + 1 < l.length := by
      by_contra hge
      rw [List.getElem?_eq_none (by omega)] at h2
      cases h2
    rw [List.getElem?_append_left hlt]
    exact h2
  · have hge : l.length ≤ i := by omega
    rw [List.getElem?_append_right hge] at h
    rw [List.getElem?_append_right (by omega)]
    have hsub : i + 1 - l.length = (i - l.length) + 1 := by omega
    rw [hsub]
    generalize i - l.length = j at h
    rcases hconf with rfl | rfl
    · cases j with
      | zero => simp at h
      | succ n => simp at h
    · cases j with
      | zero =>
        simp only [List.singleton_append, List.getElem?_cons_zero, Option.some.injEq,
          BridgeCall.Configure.injEq] at h
        subst h
        rfl
      | succ n =>
        cases n with
        | zero => simp at h
        | succ m => simp at h

/-- The facts about the log of bridge calls that every operation keeps: an
empty log goes with `m_iLastRenderBuffer` equal to -1, the log starts with a
`Configure`, every `Configure` is directly followed by the `SetVideoPlane` of
the same buffer, and the `Configure` calls, with one more while
`m_iLastRenderBuffer` is -1, number at most `k + 1`. -/
theorem renderOps_hook (ops : List RendererOp) (r : CRendererDRMPRIME) (k : Nat)
    (h1 : r.bridgeCalls = [] → r.m_iLastRenderBuffer = -1)
    (h2 : ∀ c, r.bridgeCalls.head? = some c → c.isConfigure = true)
    (h3 : ∀ i q, r.bridgeCalls[i]? = some (BridgeCall.Configure q) →
      r.bridgeCalls[i + 1]? = some (BridgeCall.SetVideoPlane q))
    (h4 : (r.bridgeCalls.filter BridgeCall.isConfigure).length
      + (if r.m_iLastRenderBuffer = -1 then 1 else 0) ≤ k + 1) :
    (∀ c, (renderOps r ops).bridgeCalls.head? = some c → c.isConfigure = true) ∧
    (∀ i q, (renderOps r ops).bridgeCalls[i]? = some (BridgeCall.Configure q) →
      (renderOps r ops).bridgeCalls[i + 1]? = some (BridgeCall.SetVideoPlane q)) ∧
    ((renderOps r ops).bridgeCalls.filter BridgeCall.isConfigure).length
      ≤ k + (ops.filter RendererOp.flushes).length + 1 := by
  induction ops generalizing r k with
  | nil =>
    refine ⟨h2, h3, ?_⟩
    show (r.bridgeCalls.filter BridgeCall.isConfigure).length ≤ k + 0 + 1
    omega
  | cons op rest ih =>
    have hflush : ∀ (t : CRendererDRMPRIME), t.bridgeCalls = r.bridgeCalls →
        t.m_iLastRenderBuffer = -1 →
        (∀ c, (renderOps t rest).bridgeCalls.head? = some c → c.isConfigure = true) ∧
        (∀ i q, (renderOps t rest).bridgeCalls[i]? = some (BridgeCall.Configure q) →
          (renderOps t rest).bridgeCalls[i + 1]? = some (BridgeCall.SetVideoPlane q)) ∧
        ((renderOps t rest).bridgeCalls.filter BridgeCall.isConfigure).length
          ≤ k + ((rest.filter RendererOp.flushes).length + 1) + 1 := by
      intro t hc hl
      have := ih t (k + 1) (fun _ => hl) (by rw [hc]; exact h2) (by rw [hc]; exact h3)
        (by rw [hc, if_pos hl]; split at h4 <;> omega)
      refine ⟨this.1, this.2.1, ?_⟩
      omega
    cases op with
    | Configure =>
      have hs := CRendererDRMPRIME.Flush_spec r false
      exact hflush r.Configure hs.1 hs.2
    | Flush sb =>
      have hs := CRendererDRMPRIME.Flush_spec r sb
      exact hflush (r.Flush sb) hs.1 hs.2
    | AddVideoPicture vb index =>
      exact ih (r.AddVideoPicture vb index) k h1 h2 h3 h4
    | RenderUpdate index =>
      show _ ∧ _ ∧ ((renderOps (r.RenderUpdate index) rest).bridgeCalls.filter
        BridgeCall.isConfigure).length ≤ k + (rest.filter RendererOp.flushes).length + 1
      rcases CRendererDRMPRIME.RenderUpdate_cases r index with ⟨e1, e2⟩ | ⟨b, e1, e2⟩
      · exact ih (r.RenderUpdate index) k (by rw [e1, e2]; exact h1) (by rw [e1]; exact h2)
          (by rw [e1]; exact h3) (by rw [e1, e2]; exact h4)
      · apply ih (r.RenderUpdate index) k
        · intro hnil
          rw [e1] at hnil
          simp at hnil
        · intro c hc
          rw [e1] at hc
          cases hbc : r.bridgeCalls with
          | nil =>
            rw [hbc, if_pos (h1 hbc)] at hc
            simp only [List.nil_append, List.singleton_append, List.head?_cons,
              Option.some.injEq] at hc
            subst hc
            rfl
          | cons x xs =>
            rw [hbc] at hc h2
            simp only [List.cons_append, List.head?_cons, Option.some.injEq] at hc
            subst hc
            exact h2 x rfl
        · rw [e1]
          apply paired_append _ _ b h3
          by_cases hl : r.m_iLastRenderBuffer = -1
          · rw [if_pos hl]
            exact Or.inr rfl
          · rw [if_neg hl]
            exact Or.inl rfl
        · rw [e1, e2]
          have hidx : ¬ ((index : Int) = -1) := by omega
          rw [if_neg hidx]
          by_cases hl : r.m_iLastRenderBuffer = -1
          · rw [if_pos hl] at h4 ⊢
            simp only [List.filter_append, List.length_append, List.filter_cons,
              BridgeCall.isConfigure, List.filter_nil, List.length_cons, List.length_nil,
              if_true] at h4 ⊢
            simp
            omega
          · rw [if_neg hl] at h4 ⊢
            simp only [List.filter_append, List.length_append, List.filter_cons,
              BridgeCall.isConfigure, List.filter_nil, List.length_cons, List.length_nil] at h4 ⊢
            simp
            omega

/-- C16 (counterexample): configure the renderer, add a picture to slot 0,
render it, flush keeping the buffers, render slot 0 again. The flush sets
`m_iLastRenderBuffer` back to -1, so the second `RenderUpdate` calls the
`Configure` hook of the same bridge a second time, after the first
`SetVideoPlane`. -/
theorem Configure_hook_counterexample :
    (renderOps { NUM_BUFFERS := 4 } opsRenderFlushRender).bridgeCalls
      = [BridgeCall.Configure 1, BridgeCall.SetVideoPlane 1,
         BridgeCall.Configure 1, BridgeCall.SetVideoPlane 1] ∧
    (renderOps { NUM_BUFFERS := 4 } opsRenderFlushRender).m_videoLayerBridge = true := by
  constructor <;> rfl

/-- C16 (amended): for every sequence of `Configure`, `AddVideoPicture`,
`Flush` and `RenderUpdate` operations on a renderer whose
`m_iLastRenderBuffer` is -1 and which has made no bridge call yet, the first
bridge call is a call of the `Configure` hook, so the hook precedes the first
`SetVideoPlane`; every call of the hook is directly followed by the
`SetVideoPlane` of the same buffer; the hook is called at most once more than
the sequence has flushing operations, hence at most once if it has none; and
in the state reached, a `RenderUpdate` that follows a `Flush` and presents a
buffer calls the hook again before its `SetVideoPlane`. -/
theorem Configure_hook (r0 : CRendererDRMPRIME) (ops : List RendererOp)
    (hlast : r0.m_iLastRenderBuffer = -1) (hcalls : r0.bridgeCalls = []) :
    (∀ c, (renderOps r0 ops).bridgeCalls.head? = some c → c.isConfigure = true) ∧
    (∀ i q, (renderOps r0 ops).bridgeCalls[i]? = some (BridgeCall.Configure q) →
      (renderOps r0 ops).bridgeCalls[i + 1]? = some (BridgeCall.SetVideoPlane q)) ∧
    ((renderOps r0 ops).bridgeCalls.filter BridgeCall.isConfigure).length
      ≤ (ops.filter RendererOp.flushes).length + 1 ∧
    (∀ (saveBuffers : Bool) (index : Nat) (vb : VideoBufferInfo) (d : AVDRMFrameDescriptor),
      ((renderOps r0 ops).Flush saveBuffers).m_buffers index = some vb →
      vb.isDRMPRIME = true → vb.descriptor = some d → d.nb_layers ≠ 0 →
      (((renderOps r0 ops).Flush saveBuffers).RenderUpdate index).bridgeCalls
        = (renderOps r0 ops).bridgeCalls
            ++ [BridgeCall.Configure vb.ptr, BridgeCall.SetVideoPlane vb.ptr]) := by
  have h := renderOps_hook ops r0 0 (fun _ => hlast)
    (by rw [hcalls]; intro c hc; cases hc)
    (by rw [hcalls]; intro i q hq; simp at hq)
    (by rw [hcalls, if_pos hlast]; simp)
  refine ⟨h.1, h.2.1, by have := h.2.2; omega, ?_⟩
  intro sb index vb d hb hprime hdesc hlayers
  obtain ⟨f1, f2⟩ := CRendererDRMPRIME.Flush_spec (renderOps r0 ops) sb
  have hne : ¬ (((renderOps r0 ops).Flush sb).m_iLastRenderBuffer = (index : Int)) := by
    rw [f2]
    omega
  unfold CRendererDRMPRIME.RenderUpdate
  rw [if_neg hne]
  simp only [hb, hprime, hdesc, hlayers, f2, if_true, if_false, f1, Bool.true_eq_false,
    List.append_assoc, List.singleton_append]

/-- C16 (witness): the sequence render, flush, render on a renderer with four
slots. -/
theorem Configure_hook_witness :
    ((renderOps { NUM_BUFFERS := 4 } opsRenderFlushRender).bridgeCalls.filter
        BridgeCall.isConfigure).length
      ≤ (opsRenderFlushRender.filter RendererOp.flushes).length + 1 ∧
    (renderOps { NUM_BUFFERS := 4 } opsRenderFlushRender).bridgeCalls.head?
      = some (BridgeCall.Configure 1) :=
  ⟨(Configure_hook { NUM_BUFFERS := 4 } opsRenderFlushRender rfl rfl).2.2.1, rfl⟩

end RendererDRMPRIME

/-! ## Theorems: the Rockchip bridge -/

/-- The count of live blobs adds up over a concatenation of traces. -/
theorem liveBlobs_append (a b : List BlobCall) :
    liveBlobs (a ++ b) = liveBlobs a + liveBlobs b := by
  induction a with
  | nil => simp [liveBlobs]
  | cons c cs ih =>
    cases c with
    | create ret id =>
      have e1 : liveBlobs (BlobCall.create ret id :: (cs ++ b))
          = (if ret = 0 then 1 else 0) + liveBlobs (cs ++ b) := rfl
      have e2 : liveBlobs (BlobCall.create ret id :: cs)
          = (if ret = 0 then 1 else 0) + liveBlobs cs := rfl
      rw [List.cons_append, e1, e2, ih]
      omega
    | destroy id =>
      have e1 : liveBlobs (BlobCall.destroy id :: (cs ++ b)) = liveBlobs (cs ++ b) - 1 := rfl
      have e2 : liveBlobs (BlobCall.destroy id :: cs) = liveBlobs cs - 1 := rfl
      rw [List.cons_append, e1, e2, ih]
      omega

/-- If the count of live blobs stays within 0 and 1 along a trace and along
the calls appended to it, it does so along the whole. -/
theorem liveBlobs_bounded_append (t e : List BlobCall)
    (ht : ∀ n, 0 ≤ liveBlobs (t.take n) ∧ liveBlobs (t.take n) ≤ 1)
    (he : ∀ n, 0 ≤ liveBlobs t + liveBlobs (e.take n) ∧
      liveBlobs t + liveBlobs (e.take n) ≤ 1) :
    ∀ n, 0 ≤ liveBlobs ((t ++ e).take n) ∧ liveBlobs ((t ++ e).take n) ≤ 1 := by
  intro n
  rw [List.take_append_eq_append_take, liveBlobs_append]
  by_cases hn : n ≤ t.length
  · have h0 : n - t.length = 0 := by omega
    rw [h0]
    have := ht n
    simp only [List.take_zero, liveBlobs, add_zero]
    exact this
  · rw [List.take_of_length_le (by omega)]
    exact he _

/-- One step of the blob bookkeeping. The count of live blobs is 1 while
`m_hdr_blob_id` is not zero and 0 otherwise, and stays within 0 and 1 along
the trace, after each of: no call; the destruction of the current blob; a
creation while there is no blob; a destruction followed by a creation. -/
theorem liveBlobs_step (t e : List BlobCall) (id id2 : Nat)
    (h1 : liveBlobs t = if id ≠ 0 then 1 else 0)
    (h2 : ∀ n, 0 ≤ liveBlobs (t.take n) ∧ liveBlobs (t.take n) ≤ 1)
    (hcase : (e = [] ∧ id2 = id) ∨
      (id ≠ 0 ∧ e = [BlobCall.destroy id] ∧ id2 = 0) ∨
      (id = 0 ∧ ∃ r i, e = [BlobCall.create r i] ∧ id2 = (if r = 0 then i else 0) ∧
        (r = 0 → i ≠ 0)) ∨
      (id ≠ 0 ∧ ∃ r i, e = [BlobCall.destroy id, BlobCall.create r i] ∧
        id2 = (if r = 0 then i else 0) ∧ (r = 0 → i ≠ 0))) :
    liveBlobs (t ++ e) = (if id2 ≠ 0 then 1 else 0) ∧
    ∀ n, 0 ≤ liveBlobs ((t ++ e).take n) ∧ liveBlobs ((t ++ e).take n) ≤ 1 := by
  rcases hcase with ⟨rfl, rfl⟩ | ⟨hid, rfl, rfl⟩ | ⟨hid, r, i, rfl, rfl, hsane⟩ |
      ⟨hid, r, i, rfl, rfl, hsane⟩
  · rw [List.append_nil]
    exact ⟨h1, h2⟩
  · rw [if_pos hid] at h1
    refine ⟨?_, liveBlobs_bounded_append _ _ h2 ?_⟩
    · rw [liveBlobs_append, h1]
      simp [liveBlobs]
    · intro n
      rw [h1]
      rcases n with _ | n <;> simp [liveBlobs]
  · have hz : ¬ (id ≠ 0) := by simp [hid]
    rw [if_neg hz] at h1
    by_cases hr : r = 0
    · have hi := hsane hr
      refine ⟨?_, liveBlobs_bounded_append _ _ h2 ?_⟩
      · rw [liveBlobs_append, h1]
        simp [liveBlobs, hr, hi]
      · intro n
        rw [h1]
        rcases n with _ | n <;> simp [liveBlobs, hr]
    · refine ⟨?_, liveBlobs_bounded_append _ _ h2 ?_⟩
      · rw [liveBlobs_append, h1]
        simp [liveBlobs, hr]
      · intro n
        rw [h1]
        rcases n with _ | n <;> simp [liveBlobs, hr]
  · rw [if_pos hid] at h1
    by_cases hr : r = 0
    · have hi := hsane hr
      refine ⟨?_, liveBlobs_bounded_append _ _ h2 ?_⟩
      · rw [liveBlobs_append, h1]
        simp [liveBlobs, hr, hi]
      · intro n
        rw [h1]
        rcases n with _ | _ | n <;> simp [liveBlobs, hr]
    · refine ⟨?_, liveBlobs_bounded_append _ _ h2 ?_⟩
      · rw [liveBlobs_append, h1]
        simp [liveBlobs, hr]
      · intro n
        rw [h1]
        rcases n with _ | _ | n <;> simp [liveBlobs, hr]

/-- What `renewBlob` does to the blob: it destroys the current one if there is
one, creates one if the EOTF is not zero, and stores the new id if the
creation succeeded, else zero. -/
theorem renewBlob_spec (s : CVideoLayerBridgeRockchip) (eotf : Int) (k : BlobOutcome) :
    (s.renewBlob eotf k).blobCalls = s.blobCalls
      ++ ((if s.m_hdr_blob_id ≠ 0 then [BlobCall.destroy s.m_hdr_blob_id] else [])
        ++ (if eotf ≠ 0 then [BlobCall.create k.ret k.id] else [])) ∧
    (s.renewBlob eotf k).m_hdr_blob_id
      = (if eotf ≠ 0 then (if k.ret = 0 then k.id else 0) else 0) ∧
    (s.renewBlob eotf k).props = s.props ∧
    (s.renewBlob eotf k).supportsHdrSourceMetadata = s.supportsHdrSourceMetadata ∧
    (s.renewBlob eotf k).m_hdr_metadata_eotf = eotf := by
  unfold CVideoLayerBridgeRockchip.renewBlob
  by_cases hid : s.m_hdr_blob_id ≠ 0 <;> by_cases he : eotf ≠ 0 <;> simp [hid, he]

/-- What `dropBlob` does: it destroys the current blob if there is one and
clears `m_hdr_blob_id`. -/
theorem dropBlob_spec (s : CVideoLayerBridgeRockchip) :
    s.dropBlob.blobCalls = s.blobCalls
      ++ (if s.m_hdr_blob_id ≠ 0 then [BlobCall.destroy s.m_hdr_blob_id] else []) ∧
    s.dropBlob.m_hdr_blob_id = 0 ∧
    s.dropBlob.props = s.props := by
  unfold CVideoLayerBridgeRockchip.dropBlob
  by_cases hid : s.m_hdr_blob_id ≠ 0 <;> simp [hid]

/-- The blob bookkeeping survives `renewBlob` when a successful creation
returns an id other than zero. -/
theorem renewBlob_live (s : CVideoLayerBridgeRockchip) (eotf : Int) (k : BlobOutcome)
    (hsane : k.ret = 0 → k.id ≠ 0)
    (h1 : liveBlobs s.blobCalls = if s.m_hdr_blob_id ≠ 0 then 1 else 0)
    (h2 : ∀ n, 0 ≤ liveBlobs (s.blobCalls.take n) ∧ liveBlobs (s.blobCalls.take n) ≤ 1) :
    liveBlobs (s.renewBlob eotf k).blobCalls
      = (if (s.renewBlob eotf k).m_hdr_blob_id ≠ 0 then 1 else 0) ∧
    ∀ n, 0 ≤ liveBlobs ((s.renewBlob eotf k).blobCalls.take n) ∧
      liveBlobs ((s.renewBlob eotf k).blobCalls.take n) ≤ 1 := by
  obtain ⟨e1, e2, -, -, -⟩ := renewBlob_spec s eotf k
  rw [e1, e2]
  apply liveBlobs_step _ _ s.m_hdr_blob_id _ h1 h2
  by_cases hid : s.m_hdr_blob_id ≠ 0 <;> by_cases he : eotf ≠ 0
  · right; right; right
    refine ⟨hid, k.ret, k.id, ?_, ?_, hsane⟩
    · simp [hid, he]
    · simp [he]
  · right; left
    refine ⟨hid, ?_, ?_⟩
    · simp [hid, he]
    · simp [he]
  · right; right; left
    have hz : s.m_hdr_blob_id = 0 := by simpa using hid
    refine ⟨hz, k.ret, k.id, ?_, ?_, hsane⟩
    · simp [hid, he]
    · simp [he]
  · left
    have hz : s.m_hdr_blob_id = 0 := by simpa using hid
    refine ⟨?_, ?_⟩
    · simp [hid, he]
    · simp [he, hz]

/-- The blob bookkeeping survives `dropBlob`. -/
theorem dropBlob_live (s : CVideoLayerBridgeRockchip)
    (h1 : liveBlobs s.blobCalls = if s.m_hdr_blob_id ≠ 0 then 1 else 0)
    (h2 : ∀ n, 0 ≤ liveBlobs (s.blobCalls.take n) ∧ liveBlobs (s.blobCalls.take n) ≤ 1) :
    liveBlobs s.dropBlob.blobCalls = (if s.dropBlob.m_hdr_blob_id ≠ 0 then 1 else 0) ∧
    ∀ n, 0 ≤ liveBlobs (s.dropBlob.blobCalls.take n) ∧
      liveBlobs (s.dropBlob.blobCalls.take n) ≤ 1 := by
  obtain ⟨e1, e2, -⟩ := dropBlob_spec s
  rw [e1, e2]
  apply liveBlobs_step _ _ s.m_hdr_blob_id _ h1 h2
  by_cases hid : s.m_hdr_blob_id ≠ 0
  · right; left
    exact ⟨hid, by simp [hid], rfl⟩
  · left
    have hz : s.m_hdr_blob_id = 0 := by simpa using hid
    exact ⟨by simp [hid], hz.symm⟩

/-- The properties `Configure` of `VideoLayerBridgeRockchip.cpp` adds, and what
it leaves of the blob state: that of `renewBlob`. -/
theorem VideoLayerBridgeRockchip.Configure_spec (s : CVideoLayerBridgeRockchip)
    (d : AVDRMFrameDescriptor) (frame : AVFrame) (k : BlobOutcome) :
    (VideoLayerBridgeRockchip.Configure s d frame k).props = s.props ++
      ([{ object := RendererDRMPRIME.DrmObject.videoPlane, name := "COLOR_SPACE",
          value := VideoLayerBridgeRockchip.GetColorSpace
            (decide ((d.layers.getD 0 default).format = DRM_FORMAT_NV12_10)) frame },
        { object := RendererDRMPRIME.DrmObject.videoPlane, name := "EOTF",
          value := VideoLayerBridgeRockchip.GetEOTF
            (decide ((d.layers.getD 0 default).format = DRM_FORMAT_NV12_10)) frame }]
      ++ (if s.supportsHdrSourceMetadata = true then
          [{ object := RendererDRMPRIME.DrmObject.connector, name := "HDR_SOURCE_METADATA",
             value := ((VideoLayerBridgeRockchip.Configure s d frame k).m_hdr_blob_id : Int) }]
        else [])
      ++ [{ object := RendererDRMPRIME.DrmObject.connector, name := "hdmi_output_depth",
            value := if decide ((d.layers.getD 0 default).format = DRM_FORMAT_NV12_10) = true
              then 10 else 8 },
          { object := RendererDRMPRIME.DrmObject.connector, name := "hdmi_output_colorimetry",
            value := if decide ((d.layers.getD 0 default).format = DRM_FORMAT_NV12_10) = true
              then RK_HDMI_COLORIMETRY_BT2020 else 0 }]) ∧
    (VideoLayerBridgeRockchip.Configure s d frame k).blobCalls
      = (s.renewBlob (VideoLayerBridgeRockchip.GetEOTF
          (decide ((d.layers.getD 0 default).format = DRM_FORMAT_NV12_10)) frame) k).blobCalls ∧
    (VideoLayerBridgeRockchip.Configure s d frame k).m_hdr_blob_id
      = (s.renewBlob (VideoLayerBridgeRockchip.GetEOTF
          (decide ((d.layers.getD 0 default).format = DRM_FORMAT_NV12_10)) frame) k).m_hdr_blob_id ∧
    (VideoLayerBridgeRockchip.Configure s d frame k).supportsHdrSourceMetadata
      = s.supportsHdrSourceMetadata := by
  unfold VideoLayerBridgeRockchip.Configure
  dsimp only
  generalize decide ((d.layers.getD 0 default).format = DRM_FORMAT_NV12_10) = is10bit
  generalize VideoLayerBridgeRockchip.GetEOTF is10bit frame = eotf
  obtain ⟨-, -, hp, hs, he⟩ := renewBlob_spec s eotf k
  by_cases hsup : s.supportsHdrSourceMetadata = true
  · simp [CVideoLayerBridgeRockchip.AddProperty, hp, hs, he, hsup]
  · simp [CVideoLayerBridgeRockchip.AddProperty, hp, hs, he, hsup]

/-- The properties `Disable` of `VideoLayerBridgeRockchip.cpp` adds, and what
it does to the blob. -/
theorem VideoLayerBridgeRockchip.Disable_spec (t : CVideoLayerBridgeRockchip) :
    (VideoLayerBridgeRockchip.Disable t).props = t.props ++
      ([{ object := RendererDRMPRIME.DrmObject.primaryPlane, name := "FB_ID", value := 0 },
        { object := RendererDRMPRIME.DrmObject.primaryPlane, name := "CRTC_ID", value := 0 },
        { object := RendererDRMPRIME.DrmObject.videoPlane, name := "COLOR_SPACE",
          value := V4L2_COLORSPACE_DEFAULT },
        { object := RendererDRMPRIME.DrmObject.videoPlane, name := "EOTF",
          value := HDMI_EOTF_TRADITIONAL_GAMMA_SDR }]
      ++ (if t.supportsHdrSourceMetadata = true then
          [{ object := RendererDRMPRIME.DrmObject.connector, name := "HDR_SOURCE_METADATA",
             value := 0 }]
        else [])
      ++ [{ object := RendererDRMPRIME.DrmObject.connector, name := "hdmi_output_depth",
            value := 8 },
          { object := RendererDRMPRIME.DrmObject.connector, name := "hdmi_output_colorimetry",
            value := 0 }]) ∧
    (VideoLayerBridgeRockchip.Disable t).blobCalls = t.blobCalls
      ++ (if t.m_hdr_blob_id ≠ 0 then [BlobCall.destroy t.m_hdr_blob_id] else []) ∧
    (VideoLayerBridgeRockchip.Disable t).m_hdr_blob_id = 0 := by
  unfold VideoLayerBridgeRockchip.Disable
  simp only []
  refine ⟨?_, ?_, ?_⟩
  · rw [(dropBlob_spec _).2.2]
    by_cases hsup : t.supportsHdrSourceMetadata = true
    · simp [CVideoLayerBridgeRockchip.baseDisable, CVideoLayerBridgeRockchip.AddProperty, hsup]
    · simp [CVideoLayerBridgeRockchip.baseDisable, CVideoLayerBridgeRockchip.AddProperty, hsup]
  · rw [(dropBlob_spec _).1]
    by_cases hsup : t.supportsHdrSourceMetadata = true
    · simp [CVideoLayerBridgeRockchip.baseDisable, CVideoLayerBridgeRockchip.AddProperty, hsup]
    · simp [CVideoLayerBridgeRockchip.baseDisable, CVideoLayerBridgeRockchip.AddProperty, hsup]
  · exact (dropBlob_spec _).2.1

/-- The properties `Configure` of `RendererDRMPRIME.cpp` adds for a descriptor
with a layer, and what it leaves of the blob state: that of `renewBlob`. -/
theorem RendererDRMPRIME.RockchipConfigure_spec (s : CVideoLayerBridgeRockchip)
    (d : AVDRMFrameDescriptor) (frame : AVFrame) (k : BlobOutcome) (hl : d.nb_layers ≠ 0) :
    (RendererDRMPRIME.RockchipConfigure s (some d) frame k).props = s.props ++
      [{ object := RendererDRMPRIME.DrmObject.primaryPlane, name := "COLOR_SPACE",
         value := RendererDRMPRIME.GetColorSpace
           (decide ((d.layers.getD 0 default).format = DRM_FORMAT_NV12_10)) frame },
       { object := RendererDRMPRIME.DrmObject.primaryPlane, name := "EOTF",
         value := RendererDRMPRIME.GetEOTF
           (decide ((d.layers.getD 0 default).format = DRM_FORMAT_NV12_10)) frame },
       { object := RendererDRMPRIME.DrmObject.connector, name := "HDR_SOURCE_METADATA",
         value := ((RendererDRMPRIME.RockchipConfigure s (some d) frame k).m_hdr_blob_id : Int) },
       { object := RendererDRMPRIME.DrmObject.connector, name := "hdmi_output_depth",
         value := if decide ((d.layers.getD 0 default).format = DRM_FORMAT_NV12_10) = true
           then 10 else 8 },
       { object := RendererDRMPRIME.DrmObject.connector, name := "hdmi_output_format",
         value := HDMI_OUTPUT_YCBCR_HQ },
       { object := RendererDRMPRIME.DrmObject.connector, name := "hdmi_output_colorimetry",
         value := if decide ((d.layers.getD 0 default).format = DRM_FORMAT_NV12_10) = true
           then RK_HDMI_COLORIMETRY_BT2020 else 0 }] ∧
    (RendererDRMPRIME.RockchipConfigure s (some d) frame k).blobCalls
      = (s.renewBlob (RendererDRMPRIME.GetEOTF
          (decide ((d.layers.getD 0 default).format = DRM_FORMAT_NV12_10)) frame) k).blobCalls ∧
    (RendererDRMPRIME.RockchipConfigure s (some d) frame k).m_hdr_blob_id
      = (s.renewBlob (RendererDRMPRIME.GetEOTF
          (decide ((d.layers.getD 0 default).format = DRM_FORMAT_NV12_10)) frame) k).m_hdr_blob_id := by
  unfold RendererDRMPRIME.RockchipConfigure
  dsimp only
  rw [if_neg hl]
  generalize decide ((d.layers.getD 0 default).format = DRM_FORMAT_NV12_10) = is10bit
  generalize RendererDRMPRIME.GetEOTF is10bit frame = eotf
  obtain ⟨-, -, hp, hs, he⟩ := renewBlob_spec s eotf k
  simp [CVideoLayerBridgeRockchip.AddProperty, hp, he]

/-- The properties `Disable` of `RendererDRMPRIME.cpp` adds, and what it does
to the blob. -/
theorem RendererDRMPRIME.RockchipDisable_spec (t : CVideoLayerBridgeRockchip) :
    (RendererDRMPRIME.RockchipDisable t).props = t.props ++
      [{ object := RendererDRMPRIME.DrmObject.primaryPlane, name := "FB_ID", value := 0 },
       { object := RendererDRMPRIME.DrmObject.primaryPlane, name := "CRTC_ID", value := 0 },
       { object := RendererDRMPRIME.DrmObject.primaryPlane, name := "COLOR_SPACE",
         value := V4L2_COLORSPACE_DEFAULT },
       { object := RendererDRMPRIME.DrmObject.primaryPlane, name := "EOTF",
         value := HDMI_EOTF_TRADITIONAL_GAMMA_SDR },
       { object := RendererDRMPRIME.DrmObject.connector, name := "HDR_SOURCE_METADATA",
         value := 0 },
       { object := RendererDRMPRIME.DrmObject.connector, name := "hdmi_output_depth",
         value := 8 },
       { object := RendererDRMPRIME.DrmObject.connector, name := "hdmi_output_format",
         value := HDMI_OUTPUT_DEFAULT_RGB },
       { object := RendererDRMPRIME.DrmObject.connector, name := "hdmi_output_colorimetry",
         value := 0 }] ∧
    (RendererDRMPRIME.RockchipDisable t).blobCalls = t.blobCalls
      ++ (if t.m_hdr_blob_id ≠ 0 then [BlobCall.destroy t.m_hdr_blob_id] else []) ∧
    (RendererDRMPRIME.RockchipDisable t).m_hdr_blob_id = 0 := by
  unfold RendererDRMPRIME.RockchipDisable
  simp only []
  refine ⟨?_, ?_, ?_⟩
  · rw [(dropBlob_spec _).2.2]
    simp [CVideoLayerBridgeRockchip.baseDisable, CVideoLayerBridgeRockchip.AddProperty]
  · rw [(dropBlob_spec _).1]
    simp [CVideoLayerBridgeRockchip.baseDisable, CVideoLayerBridgeRockchip.AddProperty]
  · exact (dropBlob_spec _).2.1

/-- The blob bookkeeping survives a call of the variant of
`VideoLayerBridgeRockchip.cpp`. -/
theorem RockchipCall.apply_live (s : CVideoLayerBridgeRockchip) (c : RockchipCall)
    (hsane : c.saneIds)
    (h1 : liveBlobs s.blobCalls = if s.m_hdr_blob_id ≠ 0 then 1 else 0)
    (h2 : ∀ n, 0 ≤ liveBlobs (s.blobCalls.take n) ∧ liveBlobs (s.blobCalls.take n) ≤ 1) :
    liveBlobs (c.apply s).blobCalls = (if (c.apply s).m_hdr_blob_id ≠ 0 then 1 else 0) ∧
    ∀ n, 0 ≤ liveBlobs ((c.apply s).blobCalls.take n) ∧
      liveBlobs ((c.apply s).blobCalls.take n) ≤ 1 := by
  cases c with
  | configure d frame k =>
    obtain ⟨-, e1, e2, -⟩ := VideoLayerBridgeRockchip.Configure_spec s d frame k
    show liveBlobs (VideoLayerBridgeRockchip.Configure s d frame k).blobCalls
        = (if (VideoLayerBridgeRockchip.Configure s d frame k).m_hdr_blob_id ≠ 0 then 1 else 0) ∧
      ∀ n, 0 ≤ liveBlobs ((VideoLayerBridgeRockchip.Configure s d frame k).blobCalls.take n) ∧
        liveBlobs ((VideoLayerBridgeRockchip.Configure s d frame k).blobCalls.take n) ≤ 1
    rw [e1, e2]
    exact renewBlob_live s _ k hsane h1 h2
  | disable =>
    obtain ⟨-, e1, e2⟩ := VideoLayerBridgeRockchip.Disable_spec s
    obtain ⟨f1, f2, -⟩ := dropBlob_spec s
    show liveBlobs (VideoLayerBridgeRockchip.Disable s).blobCalls
        = (if (VideoLayerBridgeRockchip.Disable s).m_hdr_blob_id ≠ 0 then 1 else 0) ∧
      ∀ n, 0 ≤ liveBlobs ((VideoLayerBridgeRockchip.Disable s).blobCalls.take n) ∧
        liveBlobs ((VideoLayerBridgeRockchip.Disable s).blobCalls.take n) ≤ 1
    rw [e1, e2, ← f1, ← f2]
    exact dropBlob_live s h1 h2

/-- The blob bookkeeping survives a call of the variant of `RendererDRMPRIME.cpp`. -/
theorem RockchipCall.applyInline_live (s : CVideoLayerBridgeRockchip) (c : RockchipCall)
    (hsane : c.saneIds)
    (h1 : liveBlobs s.blobCalls = if s.m_hdr_blob_id ≠ 0 then 1 else 0)
    (h2 : ∀ n, 0 ≤ liveBlobs (s.blobCalls.take n) ∧ liveBlobs (s.blobCalls.take n) ≤ 1) :
    liveBlobs (c.applyInline s).blobCalls
      = (if (c.applyInline s).m_hdr_blob_id ≠ 0 then 1 else 0) ∧
    ∀ n, 0 ≤ liveBlobs ((c.applyInline s).blobCalls.take n) ∧
      liveBlobs ((c.applyInline s).blobCalls.take n) ≤ 1 := by
  cases c with
  | configure d frame k =>
    show liveBlobs (RendererDRMPRIME.RockchipConfigure s (some d) frame k).blobCalls
        = (if (RendererDRMPRIME.RockchipConfigure s (some d) frame k).m_hdr_blob_id ≠ 0
            then 1 else 0) ∧
      ∀ n, 0 ≤ liveBlobs
          ((RendererDRMPRIME.RockchipConfigure s (some d) frame k).blobCalls.take n) ∧
        liveBlobs ((RendererDRMPRIME.RockchipConfigure s (some d) frame k).blobCalls.take n) ≤ 1
    by_cases hl : d.nb_layers = 0
    · have hs : RendererDRMPRIME.RockchipConfigure s (some d) frame k = s := by
        unfold RendererDRMPRIME.RockchipConfigure
        dsimp only
        rw [if_pos hl]
      rw [hs]
      exact ⟨h1, h2⟩
    · obtain ⟨-, e1, e2⟩ := RendererDRMPRIME.RockchipConfigure_spec s d frame k hl
      rw [e1, e2]
      exact renewBlob_live s _ k hsane h1 h2
  | disable =>
    obtain ⟨-, e1, e2⟩ := RendererDRMPRIME.RockchipDisable_spec s
    obtain ⟨f1, f2, -⟩ := dropBlob_spec s
    show liveBlobs (RendererDRMPRIME.RockchipDisable s).blobCalls
        = (if (RendererDRMPRIME.RockchipDisable s).m_hdr_blob_id ≠ 0 then 1 else 0) ∧
      ∀ n, 0 ≤ liveBlobs ((RendererDRMPRIME.RockchipDisable s).blobCalls.take n) ∧
        liveBlobs ((RendererDRMPRIME.RockchipDisable s).blobCalls.take n) ≤ 1
    rw [e1, e2, ← f1, ← f2]
    exact dropBlob_live s h1 h2

/-- The blob bookkeeping holds after every sequence of calls, in either
variant, whose successful creations return ids other than zero. -/
theorem RockchipCall.foldl_live (step : CVideoLayerBridgeRockchip → RockchipCall →
      CVideoLayerBridgeRockchip)
    (hstep : ∀ (s : CVideoLayerBridgeRockchip) (c : RockchipCall), c.saneIds →
      liveBlobs s.blobCalls = (if s.m_hdr_blob_id ≠ 0 then 1 else 0) →
      (∀ n, 0 ≤ liveBlobs (s.blobCalls.take n) ∧ liveBlobs (s.blobCalls.take n) ≤ 1) →
      liveBlobs (step s c).blobCalls = (if (step s c).m_hdr_blob_id ≠ 0 then 1 else 0) ∧
      ∀ n, 0 ≤ liveBlobs ((step s c).blobCalls.take n) ∧
        liveBlobs ((step s c).blobCalls.take n) ≤ 1)
    (calls : List RockchipCall) (s : CVideoLayerBridgeRockchip)
    (hsane : ∀ c ∈ calls, c.saneIds)
    (h1 : liveBlobs s.blobCalls = if s.m_hdr_blob_id ≠ 0 then 1 else 0)
    (h2 : ∀ n, 0 ≤ liveBlobs (s.blobCalls.take n) ∧ liveBlobs (s.blobCalls.take n) ≤ 1) :
    liveBlobs (calls.foldl step s).blobCalls
      = (if (calls.foldl step s).m_hdr_blob_id ≠ 0 then 1 else 0) ∧
    ∀ n, 0 ≤ liveBlobs ((calls.foldl step s).blobCalls.take n) ∧
      liveBlobs ((calls.foldl step s).blobCalls.take n) ≤ 1 := by
  induction calls generalizing s with
  | nil => exact ⟨h1, h2⟩
  | cons c cs ih =>
    have hc := hstep s c (hsane c (List.mem_cons_self c cs)) h1 h2
    exact ih (step s c) (fun x hx => hsane x (List.mem_cons_of_mem c hx)) hc.1 hc.2

/-- C17: in both variants of the Rockchip bridge, `Disable()` called on the
state `Configure(buffer)` left writes every plane and connector property that
`Configure` wrote, with the value 8 for `hdmi_output_depth` and 0 for every
other one: `COLOR_SPACE` gets `V4L2_COLORSPACE_DEFAULT`, `EOTF` gets
`HDMI_EOTF_TRADITIONAL_GAMMA_SDR`, `HDR_SOURCE_METADATA` gets 0 (written in the
variant of `VideoLayerBridgeRockchip.cpp` only when the connector supports
it), `hdmi_output_depth` gets 8 and `hdmi_output_colorimetry` gets 0. `Disable`
calls `drmModeDestroyPropertyBlob` once, on the current blob, when
`m_hdr_blob_id` is not zero, and not at all otherwise, and leaves
`m_hdr_blob_id` 0. Over any sequence of `Configure` and `Disable` calls on a
bridge that starts without a blob, with the kernel returning ids other than
zero, the blobs created minus the blobs destroyed number 0 or 1 at every point
of the trace, and 1 at the end exactly when `m_hdr_blob_id` is not zero. -/
theorem Disable_reverses_Configure (s tA tB s0 : CVideoLayerBridgeRockchip)
    (d : AVDRMFrameDescriptor) (dB : Option AVDRMFrameDescriptor)
    (frame : AVFrame) (k : BlobOutcome) (calls : List RockchipCall)
    (hA : tA = VideoLayerBridgeRockchip.Configure s d frame k)
    (hB : tB = RendererDRMPRIME.RockchipConfigure s dB frame k)
    (h0 : s0.m_hdr_blob_id = 0) (h1 : s0.blobCalls = [])
    (hsane : ∀ c ∈ calls, c.saneIds) :
    ((∀ p ∈ tA.props.drop s.props.length,
        ({ p with value := if p.name = "hdmi_output_depth" then 8 else 0 } :
            RendererDRMPRIME.Property)
          ∈ (VideoLayerBridgeRockchip.Disable tA).props.drop tA.props.length) ∧
      (VideoLayerBridgeRockchip.Disable tA).programmed
          RendererDRMPRIME.DrmObject.videoPlane "COLOR_SPACE" = some V4L2_COLORSPACE_DEFAULT ∧
      (VideoLayerBridgeRockchip.Disable tA).programmed
          RendererDRMPRIME.DrmObject.videoPlane "EOTF" = some HDMI_EOTF_TRADITIONAL_GAMMA_SDR ∧
      (s.supportsHdrSourceMetadata = true →
        (VideoLayerBridgeRockchip.Disable tA).programmed
          RendererDRMPRIME.DrmObject.connector "HDR_SOURCE_METADATA" = some 0) ∧
      (VideoLayerBridgeRockchip.Disable tA).programmed
          RendererDRMPRIME.DrmObject.connector "hdmi_output_depth" = some 8 ∧
      (VideoLayerBridgeRockchip.Disable tA).programmed
          RendererDRMPRIME.DrmObject.connector "hdmi_output_colorimetry" = some 0 ∧
      (VideoLayerBridgeRockchip.Disable tA).blobCalls = tA.blobCalls
        ++ (if tA.m_hdr_blob_id ≠ 0 then [BlobCall.destroy tA.m_hdr_blob_id] else []) ∧
      (VideoLayerBridgeRockchip.Disable tA).m_hdr_blob_id = 0 ∧
      liveBlobs (calls.foldl RockchipCall.apply s0).blobCalls
        = (if (calls.foldl RockchipCall.apply s0).m_hdr_blob_id ≠ 0 then 1 else 0) ∧
      ∀ n, 0 ≤ liveBlobs ((calls.foldl RockchipCall.apply s0).blobCalls.take n) ∧
        liveBlobs ((calls.foldl RockchipCall.apply s0).blobCalls.take n) ≤ 1) ∧
    ((∀ p ∈ tB.props.drop s.props.length,
        ({ p with value := if p.name = "hdmi_output_depth" then 8 else 0 } :
            RendererDRMPRIME.Property)
          ∈ (RendererDRMPRIME.RockchipDisable tB).props.drop tB.props.length) ∧
      (RendererDRMPRIME.RockchipDisable tB).programmed
          RendererDRMPRIME.DrmObject.primaryPlane "COLOR_SPACE" = some V4L2_COLORSPACE_DEFAULT ∧
      (RendererDRMPRIME.RockchipDisable tB).programmed
          RendererDRMPRIME.DrmObject.primaryPlane "EOTF"
        = some HDMI_EOTF_TRADITIONAL_GAMMA_SDR ∧
      (RendererDRMPRIME.RockchipDisable tB).programmed
          RendererDRMPRIME.DrmObject.connector "HDR_SOURCE_METADATA" = some 0 ∧
      (RendererDRMPRIME.RockchipDisable tB).programmed
          RendererDRMPRIME.DrmObject.connector "hdmi_output_depth" = some 8 ∧
      (RendererDRMPRIME.RockchipDisable tB).programmed
          RendererDRMPRIME.DrmObject.connector "hdmi_output_format"
        = some HDMI_OUTPUT_DEFAULT_RGB ∧
      (RendererDRMPRIME.RockchipDisable tB).programmed
          RendererDRMPRIME.DrmObject.connector "hdmi_output_colorimetry" = some 0 ∧
      (RendererDRMPRIME.RockchipDisable tB).blobCalls = tB.blobCalls
        ++ (if tB.m_hdr_blob_id ≠ 0 then [BlobCall.destroy tB.m_hdr_blob_id] else []) ∧
      (RendererDRMPRIME.RockchipDisable tB).m_hdr_blob_id = 0 ∧
      liveBlobs (calls.foldl RockchipCall.applyInline s0).blobCalls
        = (if (calls.foldl RockchipCall.applyInline s0).m_hdr_blob_id ≠ 0 then 1 else 0) ∧
      ∀ n, 0 ≤ liveBlobs ((calls.foldl RockchipCall.applyInline s0).blobCalls.take n) ∧
        liveBlobs ((calls.foldl RockchipCall.applyInline s0).blobCalls.take n) ≤ 1) := by
  have i1 : liveBlobs s0.blobCalls = if s0.m_hdr_blob_id ≠ 0 then 1 else 0 := by
    rw [h0, h1]
    rfl
  have i2 : ∀ n, 0 ≤ liveBlobs (s0.blobCalls.take n) ∧ liveBlobs (s0.blobCalls.take n) ≤ 1 := by
    intro n
    rw [h1]
    simp [liveBlobs]
  constructor
  · obtain ⟨cp, -, -, cs⟩ := VideoLayerBridgeRockchip.Configure_spec s d frame k
    obtain ⟨dp, db, di⟩ := VideoLayerBridgeRockchip.Disable_spec tA
    have hsup : tA.supportsHdrSourceMetadata = s.supportsHdrSourceMetadata := by rw [hA, cs]
    have hlive := RockchipCall.foldl_live RockchipCall.apply
      (fun s c => RockchipCall.apply_live s c) calls s0 hsane i1 i2
    refine ⟨?_, ?_, ?_, ?_, ?_, ?_, db, di, hlive.1, hlive.2⟩
    · intro p hp
      rw [dp, List.drop_left, hsup]
      rw [hA, cp, List.drop_left] at hp
      cases hs : s.supportsHdrSourceMetadata
      · rw [hs] at hp
        simp at hp
        rcases hp with rfl | rfl | rfl | rfl <;>
          simp [V4L2_COLORSPACE_DEFAULT, HDMI_EOTF_TRADITIONAL_GAMMA_SDR]
      · rw [hs] at hp
        simp at hp
        rcases hp with rfl | rfl | rfl | rfl | rfl <;>
          simp [V4L2_COLORSPACE_DEFAULT, HDMI_EOTF_TRADITIONAL_GAMMA_SDR]
    · unfold CVideoLayerBridgeRockchip.programmed
      rw [dp]
      cases tA.supportsHdrSourceMetadata <;> simp [List.find?_cons]
    · unfold CVideoLayerBridgeRockchip.programmed
      rw [dp]
      cases tA.supportsHdrSourceMetadata <;> simp [List.find?_cons]
    · intro hs
      unfold CVideoLayerBridgeRockchip.programmed
      rw [dp, hsup, hs]
      simp [List.find?_cons]
    · unfold CVideoLayerBridgeRockchip.programmed
      rw [dp]
      cases tA.supportsHdrSourceMetadata <;> simp [List.find?_cons]
    · unfold CVideoLayerBridgeRockchip.programmed
      rw [dp]
      cases tA.supportsHdrSourceMetadata <;> simp [List.find?_cons]
  · obtain ⟨dp, db, di⟩ := RendererDRMPRIME.RockchipDisable_spec tB
    have hlive := RockchipCall.foldl_live RockchipCall.applyInline
      (fun s c => RockchipCall.applyInline_live s c) calls s0 hsane i1 i2
    refine ⟨?_, ?_, ?_, ?_, ?_, ?_, ?_, db, di, hlive.1, hlive.2⟩
    · intro p hp
      rw [dp, List.drop_left]
      have hcases : tB = s ∨ ∃ d2, dB = some d2 ∧ d2.nb_layers ≠ 0 := by
        cases dB with
        | none => exact Or.inl hB
        | some d2 =>
          by_cases hl : d2.nb_layers = 0
          · left
            rw [hB]
            unfold RendererDRMPRIME.RockchipConfigure
            dsimp only
            rw [if_pos hl]
          · exact Or.inr ⟨d2, rfl, hl⟩
      rcases hcases with he | ⟨d2, rfl, hl⟩
      · rw [he, List.drop_length] at hp
        cases hp
      · obtain ⟨cp, -, -⟩ := RendererDRMPRIME.RockchipConfigure_spec s d2 frame k hl
        rw [hB, cp, List.drop_left] at hp
        simp at hp
        rcases hp with rfl | rfl | rfl | rfl | rfl | rfl <;>
          simp [V4L2_COLORSPACE_DEFAULT, HDMI_EOTF_TRADITIONAL_GAMMA_SDR,
            HDMI_OUTPUT_DEFAULT_RGB]
    all_goals
      unfold CVideoLayerBridgeRockchip.programmed
      rw [dp]
      simp [List.find?_cons]

/-- C17 (witness): `Configure` for an HDR10 buffer on a bridge without a blob,
the kernel creating blob 42, then `Disable`. -/
theorem Disable_reverses_Configure_witness :
    (∀ c ∈ callsConfigureDisable, c.saneIds) ∧
    (VideoLayerBridgeRockchip.Disable
      (VideoLayerBridgeRockchip.Configure {} descriptor10bit frameHDR10 blobCreated)).m_hdr_blob_id
      = 0 ∧
    liveBlobs (callsConfigureDisable.foldl RockchipCall.apply {}).blobCalls
      = (if (callsConfigureDisable.foldl RockchipCall.apply {}).m_hdr_blob_id ≠ 0
          then 1 else 0) ∧
    (callsConfigureDisable.foldl RockchipCall.apply {}).blobCalls
      = [BlobCall.create 0 42, BlobCall.destroy 42] ∧
    (callsConfigureDisable.foldl RockchipCall.applyInline {}).blobCalls
      = [BlobCall.create 0 42, BlobCall.destroy 42] :=
  have hs : ∀ c ∈ callsConfigureDisable, c.saneIds := by
    intro c hc
    simp only [callsConfigureDisable, List.mem_cons, List.mem_singleton, List.mem_nil_iff,
      or_false] at hc
    rcases hc with rfl | rfl
    · intro _
      decide
    · trivial
  have h := Disable_reverses_Configure {} _ _ {} descriptor10bit (some descriptor10bit)
    frameHDR10 blobCreated callsConfigureDisable rfl rfl rfl rfl hs
  ⟨hs, h.1.2.2.2.2.2.2.2.1, h.1.2.2.2.2.2.2.2.2.1, rfl, rfl⟩

/-! ## Theorems: the references the layer bridge holds -/

namespace RendererDRMPRIME

namespace CVideoLayerBridgeDRMPRIME

/-- What `Release(o)` does to the slots, the counts of `Acquire()` and
`Release()` calls and the reference counts: one `Release()` of the buffer `o`
points to, if it is not null, and nothing else. -/
theorem Release_counts (s : CVideoLayerBridgeDRMPRIME) (o : Option BufPtr) :
    (s.Release o).m_buffer = s.m_buffer ∧
    (s.Release o).m_prev_buffer = s.m_prev_buffer ∧
    (∀ q, (s.Release o).trace.count (Event.release q)
      = s.trace.count (Event.release q) + if o = some q then 1 else 0) ∧
    (∀ q, (s.Release o).trace.count (Event.acquire q) = s.trace.count (Event.acquire q)) ∧
    (∀ q, ((s.Release o).store q).m_refCount
      = (s.store q).m_refCount - if o = some q then 1 else 0) := by
  cases o with
  | none =>
    refine ⟨rfl, rfl, ?_, ?_, ?_⟩
    · intro q
      simp [Release]
    · intro q
      rfl
    · intro q
      simp [Release]
  | some p =>
    obtain ⟨r1, r2, -, -, r5, r6⟩ := Release_some s p
    obtain ⟨-, -, -, -, u5, -, -, -, u9, -, evs, u11, u12⟩ := Unmap_spec s p
    refine ⟨r1, r2, ?_, ?_, ?_⟩
    · intro q
      rw [r5, u11]
      simp only [List.count_append, (count_ref_unmap evs u12 q).1, List.count_cons,
        List.count_nil, Option.some.injEq]
      by_cases hq : p = q
      · subst hq
        simp
      · have : (Event.release p == Event.release q) = false := by simpa using hq
        simp [hq, this]
    · intro q
      rw [r5, u11]
      simp [List.count_append, (count_ref_unmap evs u12 q).2]
    · intro q
      rw [r6]
      by_cases hq : p = q
      · subst hq
        simp
      · simp [Function.update_noteq (Ne.symm hq), u5 q (Ne.symm hq), hq]

/-- The references held after a sequence of `Acquire` calls: the bookkeeping
of one reference per filled slot survives every call, the previous slot is
filled only if the current one is, and each call adds one `Acquire()`. -/
theorem acquireAll_inv (bs : List BufPtr) (s : CVideoLayerBridgeDRMPRIME)
    (r0 : BufPtr → Int)
    (h1 : ∀ q, s.outstanding q
      = (if s.m_buffer = some q then 1 else 0) + (if s.m_prev_buffer = some q then 1 else 0))
    (h2 : s.m_prev_buffer ≠ none → s.m_buffer ≠ none)
    (h3 : ∀ q, (s.store q).m_refCount = r0 q + s.outstanding q) :
    (∀ q, (s.acquireAll bs).outstanding q
      = (if (s.acquireAll bs).m_buffer = some q then 1 else 0)
        + (if (s.acquireAll bs).m_prev_buffer = some q then 1 else 0)) ∧
    ((s.acquireAll bs).m_prev_buffer ≠ none → (s.acquireAll bs).m_buffer ≠ none) ∧
    (∀ q, ((s.acquireAll bs).store q).m_refCount = r0 q + (s.acquireAll bs).outstanding q) ∧
    (∀ q, (s.acquireAll bs).trace.count (Event.acquire q)
      = s.trace.count (Event.acquire q) + bs.count q) := by
  induction bs generalizing s with
  | nil =>
    refine ⟨h1, h2, h3, ?_⟩
    intro q
    simp [acquireAll]
  | cons b rest ih =>
    obtain ⟨a1, a2, -, -, -, ⟨evs, a5, a6, a7⟩, a8, -⟩ := Acquire_spec s b
    have hout : ∀ q, (s.Acquire b).outstanding q
        = s.outstanding q + (if q = b then 1 else 0)
          - (if s.m_prev_buffer = some q then 1 else 0) := by
      intro q
      unfold outstanding
      rw [a5, List.count_append, List.count_append, a6 q, a7 q]
      split <;> split <;> simp <;> omega
    have k1 : ∀ q, (s.Acquire b).outstanding q
        = (if (s.Acquire b).m_buffer = some q then 1 else 0)
          + (if (s.Acquire b).m_prev_buffer = some q then 1 else 0) := by
      intro q
      rw [hout q, h1 q, a1, a2]
      by_cases hq : q = b
      · subst hq
        simp only [if_true]
        omega
      · have hne : ¬ (some b = some q) := by
          intro h
          exact hq (Option.some.inj h).symm
        simp only [if_neg hq, if_neg hne]
        omega
    have k2 : (s.Acquire b).m_prev_buffer ≠ none → (s.Acquire b).m_buffer ≠ none := by
      intro _
      rw [a1]
      simp
    have k3 : ∀ q, ((s.Acquire b).store q).m_refCount = r0 q + (s.Acquire b).outstanding q := by
      intro q
      rw [a8 q, hout q, h3 q]
      omega
    obtain ⟨i1, i2, i3, i4⟩ := ih (s.Acquire b) k1 k2 k3
    refine ⟨i1, i2, i3, ?_⟩
    intro q
    have e : (s.acquireAll (b :: rest)) = (s.Acquire b).acquireAll rest := rfl
    rw [e, i4 q, a5, List.count_append, a7 q, List.count_cons]
    by_cases hq : q = b
    · subst hq
      simp
      omega
    · have : (b == q) = false := by simpa using fun h => hq h.symm
      simp [hq, this]

/-- C19: for every sequence of `Acquire` calls on a fresh bridge, at every
point of the sequence the `Acquire()` calls the bridge has made on a buffer
minus its `Release()` calls on it are one for the current slot if it points to
the buffer plus one for the previous slot if it points to the buffer, the
buffer's reference count is its initial count plus that number, and the
previous slot is non-null only if the current slot is; after the destructor
the bridge has called `Release()` on each buffer exactly as often as
`Acquire()`, which is as often as the buffer occurs in the sequence, and each
reference count is back at its initial value. -/
theorem Acquire_destroy_balanced (store : BufPtr → CVideoBufferDRMPRIME) (crtc_id : Nat)
    (bs : List BufPtr) :
    (∀ n q,
      ((fresh store crtc_id).acquireAll (bs.take n)).outstanding q
        = (if ((fresh store crtc_id).acquireAll (bs.take n)).m_buffer = some q then 1 else 0)
          + (if ((fresh store crtc_id).acquireAll (bs.take n)).m_prev_buffer = some q
              then 1 else 0) ∧
      (((fresh store crtc_id).acquireAll (bs.take n)).store q).m_refCount
        = (store q).m_refCount
          + ((fresh store crtc_id).acquireAll (bs.take n)).outstanding q) ∧
    (∀ n, ((fresh store crtc_id).acquireAll (bs.take n)).m_prev_buffer ≠ none →
      ((fresh store crtc_id).acquireAll (bs.take n)).m_buffer ≠ none) ∧
    (∀ q,
      ((fresh store crtc_id).acquireAll bs).destroy.trace.count (Event.acquire q) = bs.count q ∧
      ((fresh store crtc_id).acquireAll bs).destroy.trace.count (Event.release q) = bs.count q ∧
      ((fresh store crtc_id).acquireAll bs).destroy.outstanding q = 0 ∧
      (((fresh store crtc_id).acquireAll bs).destroy.store q).m_refCount
        = (store q).m_refCount) := by
  have hinv : ∀ l : List BufPtr,
      (∀ q, ((fresh store crtc_id).acquireAll l).outstanding q
        = (if ((fresh store crtc_id).acquireAll l).m_buffer = some q then 1 else 0)
          + (if ((fresh store crtc_id).acquireAll l).m_prev_buffer = some q then 1 else 0)) ∧
      (((fresh store crtc_id).acquireAll l).m_prev_buffer ≠ none →
        ((fresh store crtc_id).acquireAll l).m_buffer ≠ none) ∧
      (∀ q, (((fresh store crtc_id).acquireAll l).store q).m_refCount
        = (store q).m_refCount + ((fresh store crtc_id).acquireAll l).outstanding q) ∧
      (∀ q, ((fresh store crtc_id).acquireAll l).trace.count (Event.acquire q)
        = (fresh store crtc_id).trace.count (Event.acquire q) + l.count q) := by
    intro l
    apply acquireAll_inv l (fresh store crtc_id) (fun q => (store q).m_refCount)
    · intro q
      simp [fresh, outstanding]
    · intro h
      exact absurd rfl h
    · intro q
      simp [fresh, outstanding]
  refine ⟨fun n q => ⟨(hinv (bs.take n)).1 q, (hinv (bs.take n)).2.2.1 q⟩,
    fun n => (hinv (bs.take n)).2.1, ?_⟩
  intro q
  obtain ⟨i1, -, i3, i4⟩ := hinv bs
  generalize (fresh store crtc_id).acquireAll bs = s at i1 i3 i4
  obtain ⟨p1, -, p3, p4, p5⟩ := Release_counts s s.m_prev_buffer
  obtain ⟨-, -, c3, c4, c5⟩ := Release_counts (s.Release s.m_prev_buffer)
    (s.Release s.m_prev_buffer).m_buffer
  have hacq : s.destroy.trace.count (Event.acquire q) = bs.count q := by
    show ((s.Release s.m_prev_buffer).Release (s.Release s.m_prev_buffer).m_buffer).trace.count
      (Event.acquire q) = bs.count q
    rw [c4 q, p4 q, i4 q]
    simp [fresh]
  have hrel : s.destroy.trace.count (Event.release q) = bs.count q := by
    show ((s.Release s.m_prev_buffer).Release (s.Release s.m_prev_buffer).m_buffer).trace.count
      (Event.release q) = bs.count q
    rw [c3 q, p3 q, p1]
    have ho := i1 q
    have ha := i4 q
    unfold outstanding at ho
    simp only [fresh, List.count_nil, Nat.zero_add] at ha
    rw [ha] at ho
    split at ho <;> split at ho <;> simp_all <;> omega
  refine ⟨hacq, hrel, ?_, ?_⟩
  · unfold outstanding
    rw [hacq, hrel]
    omega
  · show (((s.Release s.m_prev_buffer).Release (s.Release s.m_prev_buffer).m_buffer).store
      q).m_refCount = (store q).m_refCount
    rw [c5 q, p5 q, p1, i3 q, i1 q]
    omega

end CVideoLayerBridgeDRMPRIME

end RendererDRMPRIME
